import Mathlib

/-!
Archero 3D mobile: the simulation core, embedded in Lean.

A shallow embedding of the gameplay code of the repository: the input axis,
the collision predicate, the skill catalog, the three entities and the per-tick
update of the game, for the two implementations that the repository ships
(`src/src/**`, the modular 2D game, and `src/bundle.js`, the bundled 3D game).

Numbers. JavaScript numbers are modelled by an arbitrary linearly ordered field
`α` with a floor function (`ℚ` for evaluation, `ℝ` for exact real arithmetic);
rounding of IEEE doubles is not modelled. The functions of `Math` that are not
field operations (`sqrt`, `atan2`, `cos`, `sin`) are parameters of the
definitions that call them. Division is that of the field where the code
guards the divisor (`Enemy.update`) or divides by a constant or by the length
of a diagonal axis; the unguarded division by the distance in the constructor
of `Projectile` is modelled with an explicit NaN (`none`).

Doubles. The exact reading is that of the code as long as no arithmetic result
leaves the range of the doubles. For the three computations with squares of
coordinates (`Enemy.update`, the constructor of `Projectile` with
`Projectile.update`, and the nearest-enemy scan) there is a second reading,
over `JsNumber`, in which every arithmetic result at or beyond the overflow
threshold is an infinity, every result at or below the underflow threshold is
0, and Infinity and NaN propagate as in JavaScript (`JsEnemy`, `JsProjectile`).
The rounding of a result inside the range is not modelled there either.

State. Methods that mutate `this` become functions that return the new object;
a method that also returns a value returns a pair. Rendering state (meshes,
colours, the star field, DOM elements) is left out.
-/

namespace Archero

/-! ## Common data -/

/-- The two implementations of the repository. -/
inductive Impl where
  /-- The modular 2D game under `src/src`. -/
  | modular
  /-- The bundled 3D game, `src/bundle.js`. -/
  | bundled
  deriving DecidableEq, Repr

/-- The functions of `Math` used by the simulation that are not field operations. -/
structure MathOps (α : Type) where
  /-- `Math.sqrt` -/
  sqrt : α → α
  /-- `Math.atan2(y, x)` -/
  atan2 : α → α → α
  /-- `Math.cos` -/
  cos : α → α
  /-- `Math.sin` -/
  sin : α → α

/-- An object literal with the fields x and y, as returned by `getAxis`. -/
structure Vec2 (α : Type) where
  x : α
  y : α
  deriving DecidableEq, Repr

/-- What `Physics.checkCollision` reads of its first argument. -/
structure Circle (α : Type) where
  x : α
  y : α
  radius : α
  deriving DecidableEq, Repr

/-- What `Physics.checkCollision` reads of its second argument. -/
structure Rect (α : Type) where
  x : α
  y : α
  width : α
  height : α
  deriving DecidableEq, Repr

/-! ## systems/input.js -/

/-- The field `keys` of `InputSystem`: the pressed state of the eight keys that `getAxis` reads. -/
structure Keys where
  ArrowUp : Bool
  ArrowDown : Bool
  ArrowLeft : Bool
  ArrowRight : Bool
  w : Bool
  a : Bool
  s : Bool
  d : Bool
  deriving DecidableEq, Repr

/-- The key state of a new `InputSystem`: nothing is pressed. -/
def Keys.released : Keys :=
  { ArrowUp := false, ArrowDown := false, ArrowLeft := false, ArrowRight := false,
    w := false, a := false, s := false, d := false }

section Numeric

variable {α : Type} [LinearOrderedField α] [FloorRing α]

/-- `InputSystem.getAxis()`, with `Math.sqrt` as a parameter. The division by `length` happens
only on a diagonal, where `length` is the square root of 2. -/
def InputSystem.getAxis (sqrt : α → α) (keys : Keys) : Vec2 α :=
  let x : α := 0
  let y : α := 0
  let x := if keys.ArrowLeft || keys.a then x - 1 else x
  let x := if keys.ArrowRight || keys.d then x + 1 else x
  let y := if keys.ArrowUp || keys.w then y - 1 else y
  let y := if keys.ArrowDown || keys.s then y + 1 else y
  -- Normalize vector if moving diagonally
  if x ≠ 0 ∧ y ≠ 0 then
    let length := sqrt (x * x + y * y)
    { x := x / length, y := y / length }
  else
    { x := x, y := y }

/-! ## systems/physics.js -/

/-- `Physics.checkCollision(circle, rect)`: circle against a rectangle centred at (rect.x, rect.y). -/
def Physics.checkCollision (circle : Circle α) (rect : Rect α) : Bool :=
  let closestX := max (rect.x - rect.width / 2) (min circle.x (rect.x + rect.width / 2))
  let closestY := max (rect.y - rect.height / 2) (min circle.y (rect.y + rect.height / 2))
  let distanceX := circle.x - closestX
  let distanceY := circle.y - closestY
  let distanceSquared := (distanceX * distanceX) + (distanceY * distanceY)
  decide (distanceSquared < circle.radius * circle.radius)

end Numeric

/-! ## entities/player.js -/

/-- The simulation fields of a `Player`. -/
structure Player (α : Type) where
  targetY : α
  x : α
  y : α
  isEntering : Bool
  radius : α
  speed : α
  isMoving : Bool
  maxHp : α
  hp : α
  attackSpeed : α
  attackTimer : α
  damage : α
  projectileCount : ℕ
  hasRicochet : Bool
  invincibilityTimer : α
  level : ℕ
  xp : α
  xpToNextLevel : α
  deriving DecidableEq, Repr

/-- The simulation fields of an `Enemy`. -/
structure Enemy (α : Type) where
  x : α
  y : α
  width : α
  height : α
  speed : α
  hp : α
  maxHp : α
  markedForDeletion : Bool
  deriving DecidableEq, Repr

section Numeric

variable {α : Type} [LinearOrderedField α] [FloorRing α]

/-- The constructor `new Player(x, y, startOffScreen = false, gameHeight = 800)`. -/
def Player.new (x y : α) (startOffScreen : Bool) (gameHeight : α) : Player α :=
  { targetY := y
    x := x
    y := if startOffScreen then gameHeight + 100 else y
    isEntering := if startOffScreen then true else false
    radius := 15
    speed := 200
    isMoving := false
    maxHp := 500
    hp := 500
    attackSpeed := 0.5
    attackTimer := 0
    damage := 10
    projectileCount := 1
    hasRicochet := false
    invincibilityTimer := 0
    level := 1
    xp := 0
    xpToNextLevel := 100 }

/-- The player as the circle argument of `Physics.checkCollision`. -/
def Player.toCircle (p : Player α) : Circle α :=
  { x := p.x, y := p.y, radius := p.radius }

/-- The enemy as the rect argument of `Physics.checkCollision`. -/
def Enemy.toRect (e : Enemy α) : Rect α :=
  { x := e.x, y := e.y, width := e.width, height := e.height }

/-- `Player.gainXp(amount)`: the returned boolean and the player afterwards. -/
def Player.gainXp (p : Player α) (amount : α) : Bool × Player α :=
  let p := { p with xp := p.xp + amount }
  if p.xp ≥ p.xpToNextLevel then
    let p := { p with xp := p.xp - p.xpToNextLevel }
    let p := { p with level := p.level + 1 }
    let p := { p with xpToNextLevel := ((⌊p.xpToNextLevel * 1.5⌋ : ℤ) : α) }
    (true, p)
  else
    (false, p)

/-- `Player.takeDamage(amount)`. -/
def Player.takeDamage (p : Player α) (amount : α) : Player α :=
  if p.invincibilityTimer > 0 then p
  else
    let p := { p with hp := p.hp - amount }
    { p with invincibilityTimer := 1.0 }

end Numeric

/-! ## systems/skill.js -/

/-- An entry of the skill catalog. -/
structure Skill (α : Type) where
  id : String
  name : String
  description : String
  apply : Player α → Player α

section Numeric

variable {α : Type} [LinearOrderedField α] [FloorRing α]

/-- The catalog `SKILLS`. -/
def SKILLS (α : Type) [LinearOrderedField α] [FloorRing α] : List (Skill α) :=
  [ { id := "multishot"
      name := "멀티샷"
      description := "화살을 한 발 더 발사합니다."
      apply := fun player =>
        { player with
          projectileCount :=
            (if player.projectileCount ≠ 0 then player.projectileCount else 1) + 1 } },
    { id := "attack_boost"
      name := "공격력 증가"
      description := "공격력이 상승합니다."
      apply := fun player =>
        { player with damage := ((⌊player.damage * 1.25⌋ : ℤ) : α) } },
    { id := "speed_boost"
      name := "공격 속도 증가"
      description := "공격 속도가 빨라집니다."
      apply := fun player =>
        { player with attackSpeed := player.attackSpeed * 0.75 } },
    { id := "ricochet"
      name := "도탄"
      description := "화살이 근처 적에게 튕깁니다."
      apply := fun player =>
        { player with hasRicochet := true } },
    { id := "hp_boost"
      name := "최대 체력 증가"
      description := "최대 체력이 50 증가하고 회복합니다."
      apply := fun player =>
        let player := { player with maxHp := player.maxHp + 50 }
        { player with hp := player.hp + 50 } },
    { id := "hp_heal"
      name := "HP 회복"
      description := "체력을 50 회복합니다."
      apply := fun player =>
        { player with hp := min (player.hp + 50) player.maxHp } } ]

/-- `SkillSystem.getRandomSkills(count)`. The catalog is passed in and handed back, so that a
mutation of it would show: the function spreads it into a fresh array, sorts that array with the
random comparator and slices it. The outcome of `Array.prototype.sort` under the comparator
`() => 0.5 - Math.random()` is the parameter `sort`. Returns the slice and the catalog afterwards. -/
def SkillSystem.getRandomSkills (sort : List (Skill α) → List (Skill α))
    (catalog : List (Skill α)) (count : ℕ) : List (Skill α) × List (Skill α) :=
  let copy := catalog
  let shuffled := sort copy
  (shuffled.take count, catalog)

end Numeric

/-! ## entities/projectile.js -/

/-- The simulation fields of a `Projectile`. Position and velocity may be NaN (`none`): the
constructor divides by the distance to the target without a guard. -/
structure Projectile (α : Type) where
  x : Option α
  y : Option α
  speed : α
  radius : α
  isPlayerProjectile : Bool
  damage : α
  markedForDeletion : Bool
  vx : Option α
  vy : Option α
  deriving DecidableEq, Repr

/-- The arguments of one call of the spawn-projectile callback
`(x, y, tx, ty, isPlayer, damage)`. -/
structure SpawnRequest (α : Type) where
  x : α
  y : α
  tx : α
  ty : α
  isPlayer : Bool
  damage : α
  deriving DecidableEq, Repr

section Numeric

variable {α : Type} [LinearOrderedField α] [FloorRing α]

/-- JavaScript division where the divisor may be zero. `0 / 0` is NaN, here `none`. A non-zero
number over zero is an infinity in JavaScript, which this model does not represent: it is `none`
too. That case needs `Math.sqrt` to return 0 on a positive number and does not arise for the real
square root; it arises in doubles when the squared distance underflows, and `JsNumber.div` is the
division that returns the infinity there. -/
def jsDiv (a b : α) : Option α :=
  if b = 0 then none else some (a / b)

/-- The comparison `a < b` of JavaScript when `a` may be NaN: false on NaN. -/
def jsLt (a : Option α) (b : α) : Bool :=
  match a with
  | some a => decide (a < b)
  | none => false

/-- The comparison `a > b` of JavaScript when `a` may be NaN: false on NaN. -/
def jsGt (a : Option α) (b : α) : Bool :=
  match a with
  | some a => decide (a > b)
  | none => false

/-- The constructor `new Projectile(x, y, targetX, targetY, isPlayerProjectile)` in exact
arithmetic, where only the quotient 0 / 0 is not a number. `JsProjectile.new` is the constructor
in doubles, with overflow, underflow and the infinities. -/
def Projectile.new (sqrt : α → α) (x y targetX targetY : α) (isPlayerProjectile : Bool) :
    Projectile α :=
  let speed : α := 400
  -- Calculate direction
  let dx := targetX - x
  let dy := targetY - y
  let distance := sqrt (dx * dx + dy * dy)
  { x := some x
    y := some y
    speed := speed
    radius := 5
    isPlayerProjectile := isPlayerProjectile
    damage := 10
    markedForDeletion := false
    vx := (jsDiv dx distance).map (fun q => q * speed)
    vy := (jsDiv dy distance).map (fun q => q * speed) }

/-- The two assignments `this.x += this.vx * deltaTime; this.y += this.vy * deltaTime`, shared by
both variants of `Projectile.update`. -/
def Projectile.move (p : Projectile α) (deltaTime : α) : Projectile α :=
  let p := { p with x := p.x.bind (fun x => p.vx.map (fun vx => x + vx * deltaTime)) }
  { p with y := p.y.bind (fun y => p.vy.map (fun vy => y + vy * deltaTime)) }

/-- `Projectile.update(deltaTime, gameWidth, gameHeight)` of src/src/entities/projectile.js. -/
def Projectile.update2D (p : Projectile α) (deltaTime gameWidth gameHeight : α) : Projectile α :=
  let p := p.move deltaTime
  -- Check if out of bounds
  if jsLt p.x 0 || jsGt p.x gameWidth || jsLt p.y 0 || jsGt p.y gameHeight then
    { p with markedForDeletion := true }
  else p

/-- `Projectile.update(deltaTime, gameWidth, gameHeight)` of src/bundle.js. -/
def Projectile.update3D (p : Projectile α) (deltaTime gameWidth gameHeight : α) : Projectile α :=
  let p := p.move deltaTime
  -- Check if out of bounds (extended range so projectiles can travel far)
  let margin : α := 500
  if jsLt p.x (-margin) || jsGt p.x (gameWidth + margin) ||
      jsLt p.y (-margin) || jsGt p.y (gameHeight + margin) then
    { p with markedForDeletion := true }
  else p

/-- `Projectile.update` of the given implementation. -/
def Projectile.update (impl : Impl) (p : Projectile α) (deltaTime gameWidth gameHeight : α) :
    Projectile α :=
  match impl with
  | Impl.modular => p.update2D deltaTime gameWidth gameHeight
  | Impl.bundled => p.update3D deltaTime gameWidth gameHeight

/-- `Physics.checkCollision(proj, enemy)` for a projectile, whose coordinates may be NaN:
`Math.min` and `Math.max` hand a NaN on, and `NaN < r * r` is false. -/
def Projectile.checkCollision (proj : Projectile α) (enemy : Enemy α) : Bool :=
  match proj.x, proj.y with
  | some x, some y => Physics.checkCollision { x := x, y := y, radius := proj.radius } enemy.toRect
  | _, _ => false

/-! ## entities/enemy.js -/

/-- The constructor `new Enemy(x, y)`. -/
def Enemy.new (x y : α) : Enemy α :=
  { x := x, y := y, width := 30, height := 30, speed := 80, hp := 30, maxHp := 30,
    markedForDeletion := false }

/-- `Enemy.update(deltaTime, player)`: the simple chaser, in exact arithmetic. `JsEnemy.update` is
the method in doubles, where the computed distance can be 0 or Infinity for an enemy off the
player. -/
def Enemy.update (sqrt : α → α) (e : Enemy α) (deltaTime : α) (player : Player α) : Enemy α :=
  let dx := player.x - e.x
  let dy := player.y - e.y
  let distance := sqrt (dx * dx + dy * dy)
  if distance > 0 then
    let e := { e with x := e.x + (dx / distance) * e.speed * deltaTime }
    { e with y := e.y + (dy / distance) * e.speed * deltaTime }
  else e

/-- The value of `distance` in `Enemy.update`: the distance from the enemy to the player. -/
def Enemy.distance (sqrt : α → α) (e : Enemy α) (player : Player α) : α :=
  let dx := player.x - e.x
  let dy := player.y - e.y
  sqrt (dx * dx + dy * dy)

/-- `Enemy.takeDamage(amount)`. -/
def Enemy.takeDamage (e : Enemy α) (amount : α) : Enemy α :=
  let e := { e with hp := e.hp - amount }
  if e.hp ≤ 0 then { e with markedForDeletion := true } else e

/-! ## entities/player.js: update and shoot -/

/-- `Player.shoot(target, createProjectileCallback)` of src/bundle.js: the calls of the callback, in
order. The modular player has no such method. -/
def Player.shoot (m : MathOps α) (p : Player α) (target : Enemy α) : List (SpawnRequest α) :=
  let baseAngle := m.atan2 (target.y - p.y) (target.x - p.x)
  (List.range p.projectileCount).map fun i =>
    let angleOffset : α :=
      if p.projectileCount > 1 then
        let spread : α := 0.2
        ((i : α) - ((p.projectileCount : α) - 1) / 2) * spread
      else 0
    let finalAngle := baseAngle + angleOffset
    let tx := p.x + m.cos finalAngle * 100
    let ty := p.y + m.sin finalAngle * 100
    { x := p.x, y := p.y, tx := tx, ty := ty, isPlayer := true, damage := p.damage }

/-- The value of `angleOffset` in `Player.shoot` for the shot of index i. -/
def Player.angleOffset (p : Player α) (i : ℕ) : α :=
  if p.projectileCount > 1 then
    let spread : α := 0.2
    ((i : α) - ((p.projectileCount : α) - 1) / 2) * spread
  else 0

/-- The value of `finalAngle` in `Player.shoot` for the shot of index i. -/
def Player.finalAngle (m : MathOps α) (p : Player α) (target : Enemy α) (i : ℕ) : α :=
  let baseAngle := m.atan2 (target.y - p.y) (target.x - p.x)
  baseAngle + p.angleOffset i

/-- The entrance animation of `Player.update`: the body of `if (this.isEntering)` up to its
return. -/
def Player.updateEntrance (p : Player α) (deltaTime : α) : Player α :=
  let entranceSpeed : α := 300
  let p := { p with y := p.y - entranceSpeed * deltaTime }
  let p := { p with isMoving := true }
  if p.y ≤ p.targetY then
    let p := { p with y := p.targetY }
    let p := { p with isEntering := false }
    { p with isMoving := false }
  else p

/-- The invincibility-timer step of `Player.update`. -/
def Player.updateInvincibility (p : Player α) (deltaTime : α) : Player α :=
  if p.invincibilityTimer > 0 then
    { p with invincibilityTimer := p.invincibilityTimer - deltaTime }
  else p

/-- The movement step of `Player.update` with its boundary checks, for the axis that
`input.getAxis()` returned. -/
def Player.updateMovement (p : Player α) (axis : Vec2 α) (deltaTime gameWidth gameHeight : α) :
    Player α :=
  if axis.x ≠ 0 ∨ axis.y ≠ 0 then
    let p := { p with isMoving := true }
    let p := { p with x := p.x + axis.x * p.speed * deltaTime }
    let p := { p with y := p.y + axis.y * p.speed * deltaTime }
    -- Boundary checks
    let p := { p with x := max p.radius (min (gameWidth - p.radius) p.x) }
    { p with y := max p.radius (min (gameHeight - p.radius) p.y) }
  else
    { p with isMoving := false }

/-- The attack logic of `Player.update`: the player afterwards and the calls of the callback, or
the exception thrown. In the modular implementation the class has no method shoot, so the call
`this.shoot(...)` throws a TypeError. -/
def Player.updateAttack (impl : Impl) (m : MathOps α) (p : Player α) (deltaTime : α)
    (nearestEnemy : Option (Enemy α)) : Except String (Player α × List (SpawnRequest α)) :=
  let p := { p with attackTimer := p.attackTimer - deltaTime }
  match nearestEnemy with
  | some target =>
    if p.attackTimer ≤ (0 : α) then
      match impl with
      | Impl.bundled =>
        let shots := p.shoot m target
        Except.ok ({ p with attackTimer := p.attackSpeed }, shots)
      | Impl.modular => Except.error "TypeError: this.shoot is not a function"
    else Except.ok (p, [])
  | none => Except.ok (p, [])

/-- `Player.update(deltaTime, input, gameWidth, gameHeight, nearestEnemy, callback)`, as the
sequence of its steps: the player afterwards and the calls of the callback, or the exception
thrown. -/
def Player.update (impl : Impl) (m : MathOps α) (p : Player α) (deltaTime : α) (input : Keys)
    (gameWidth gameHeight : α) (nearestEnemy : Option (Enemy α)) :
    Except String (Player α × List (SpawnRequest α)) :=
  -- Entrance Animation
  if p.isEntering then
    -- Skip input and shooting while entering
    Except.ok (p.updateEntrance deltaTime, [])
  else
    -- Update invincibility timer
    let p := p.updateInvincibility deltaTime
    let axis := InputSystem.getAxis m.sqrt input
    let p := p.updateMovement axis deltaTime gameWidth gameHeight
    -- Attack Logic
    p.updateAttack impl m deltaTime nearestEnemy

end Numeric

/-! ## game.js -/

/-- The simulation fields of a `Game`. -/
structure Game (α : Type) where
  width : α
  height : α
  lastTime : α
  input : Keys
  player : Player α
  enemies : List (Enemy α)
  projectiles : List (Projectile α)
  isPaused : Bool
  isGameOver : Bool
  wave : ℕ

section Numeric

variable {α : Type} [LinearOrderedField α] [FloorRing α]

/-- `Game.spawnEnemies(count)`. The successive results of `Math.random()` are `random 0`,
`random 1`, and so on. -/
def Game.spawnEnemies (g : Game α) (count : ℕ) (random : ℕ → α) : Game α :=
  (List.range count).foldl
    (fun g i =>
      let x := random (2 * i) * (g.width - 60) + 30
      let y := random (2 * i + 1) * (g.height / 3) + 30
      { g with enemies := g.enemies ++ [Enemy.new x y] })
    g

/-- The value of `dist` in the nearest-enemy scan of `Game.update`: the squared distance from the
enemy to the player. -/
def Enemy.distSq (e : Enemy α) (player : Player α) : α :=
  let dx := e.x - player.x
  let dy := e.y - player.y
  dx * dx + dy * dy

/-- The scan for the nearest enemy at the start of `Game.update`, in exact arithmetic, where
every squared distance is finite. The accumulator is the pair (nearestEnemy, minDistance), where
`none` is null for the first and Infinity for the second. `JsEnemy.nearest` is the scan in
doubles, where a squared distance can itself be Infinity. -/
def Game.nearestEnemy (g : Game α) : Option (Enemy α) :=
  (g.enemies.foldl
    (fun (acc : Option (Enemy α) × Option α) enemy =>
      let dx := enemy.x - g.player.x
      let dy := enemy.y - g.player.y
      let dist := dx * dx + dy * dy
      let closer : Bool :=
        match acc.2 with
        | none => true
        | some minDistance => decide (dist < minDistance)
      if closer then (some enemy, some dist) else acc)
    (none, none)).1

/-- The callback that `Game.update` hands to `Player.update`: it builds the projectile that is
pushed onto `this.projectiles`. -/
def Game.createProjectile (sqrt : α → α) (r : SpawnRequest α) : Projectile α :=
  let proj := Projectile.new sqrt r.x r.y r.tx r.ty r.isPlayer
  if r.damage ≠ 0 then { proj with damage := r.damage } else proj

/-- What the collision pass of `Game.update` has changed so far. -/
structure Collision (α : Type) where
  player : Player α
  isPaused : Bool
  enemies : List (Enemy α)

/-- The inner loop of the collision pass: one projectile against the enemies in list order.
`showSkillSelection` is modelled by its effect on the simulation, `isPaused = true`. -/
def Game.collideEnemies (wave : ℕ) (proj : Projectile α) (player : Player α) (isPaused : Bool) :
    List (Enemy α) → Projectile α × Collision α
  | [] => (proj, { player := player, isPaused := isPaused, enemies := [] })
  | enemy :: rest =>
    if !proj.markedForDeletion && !enemy.markedForDeletion && proj.checkCollision enemy then
      let enemy := enemy.takeDamage proj.damage
      let proj := { proj with markedForDeletion := true }
      if enemy.hp ≤ 0 then
        let leveledUp := player.gainXp (((20 + wave * 5 : ℕ) : α))
        let isPaused := if leveledUp.1 then true else isPaused
        let r := Game.collideEnemies wave proj leveledUp.2 isPaused rest
        (r.1, { r.2 with enemies := enemy :: r.2.enemies })
      else
        let r := Game.collideEnemies wave proj player isPaused rest
        (r.1, { r.2 with enemies := enemy :: r.2.enemies })
    else
      let r := Game.collideEnemies wave proj player isPaused rest
      (r.1, { r.2 with enemies := enemy :: r.2.enemies })

/-- The outer loop of the collision pass: every projectile in list order. -/
def Game.collideProjectiles (wave : ℕ) (player : Player α) (isPaused : Bool)
    (enemies : List (Enemy α)) : List (Projectile α) → List (Projectile α) × Collision α
  | [] => ([], { player := player, isPaused := isPaused, enemies := enemies })
  | proj :: rest =>
    if proj.isPlayerProjectile then
      let hit := Game.collideEnemies wave proj player isPaused enemies
      let r := Game.collideProjectiles wave hit.2.player hit.2.isPaused hit.2.enemies rest
      (hit.1 :: r.1, r.2)
    else
      let r := Game.collideProjectiles wave player isPaused enemies rest
      (proj :: r.1, r.2)

/-- The player after `count` consecutive calls `gainXp(amount)`, and whether any of the calls
returned true. -/
def Player.gainXpTimes (amount : α) : ℕ → Player α → Player α × Bool
  | 0, p => (p, false)
  | count + 1, p =>
    let first := p.gainXp amount
    let rest := Player.gainXpTimes amount count first.2
    (rest.1, first.1 || rest.2)

/-- The number of positions at which the enemy is not marked for deletion in the list `before` and
is marked in the list `after`. -/
def Game.newlyMarked (before after : List (Enemy α)) : ℕ :=
  (List.zip before after).countP
    (fun (pair : Enemy α × Enemy α) => !pair.1.markedForDeletion && pair.2.markedForDeletion)

/-- The first part of `Game.update(deltaTime)`: the nearest-enemy scan, the update of the player,
of the enemies and of the projectiles, and the projectile-enemy collision pass. The result is the
game as the contact pass finds it, or the exception thrown by `Player.update`. -/
def Game.simulate (impl : Impl) (m : MathOps α) (g : Game α) (deltaTime : α) :
    Except String (Game α) :=
  let nearestEnemy := g.nearestEnemy
  match g.player.update impl m deltaTime g.input g.width g.height nearestEnemy with
  | Except.error e => Except.error e
  | Except.ok updated =>
    let g := { g with player := updated.1 }
    let g := { g with projectiles :=
                g.projectiles ++ updated.2.map (Game.createProjectile m.sqrt) }
    let enemies := g.enemies.map (fun (enemy : Enemy α) => enemy.update m.sqrt deltaTime g.player)
    let g := { g with enemies := enemies }
    let projectiles :=
      g.projectiles.map (fun (proj : Projectile α) => proj.update impl deltaTime g.width g.height)
    let g := { g with projectiles := projectiles }
    let r := Game.collideProjectiles g.wave g.player g.isPaused g.enemies g.projectiles
    Except.ok { g with projectiles := r.1, player := r.2.player, isPaused := r.2.isPaused,
                       enemies := r.2.enemies }

/-- The player-enemy contact pass of `Game.update`, over the enemies in list order: the player and
`isGameOver` afterwards. -/
def Game.contactLoop (player : Player α) (isGameOver : Bool) :
    List (Enemy α) → Player α × Bool
  | [] => (player, isGameOver)
  | enemy :: rest =>
    if Physics.checkCollision player.toCircle enemy.toRect then
      let player := player.takeDamage 10
      if player.hp ≤ 0 then Game.contactLoop player true rest
      else Game.contactLoop player isGameOver rest
    else Game.contactLoop player isGameOver rest

/-- The contact pass of `Game.update` on the game. -/
def Game.contactPass (g : Game α) : Game α :=
  let r := Game.contactLoop g.player g.isGameOver g.enemies
  { g with player := r.1, isGameOver := r.2 }

/-- The two filters of `Game.update` that drop the entities marked for deletion. -/
def Game.prune (g : Game α) : Game α :=
  let g := { g with enemies := g.enemies.filter (fun e => !e.markedForDeletion) }
  { g with projectiles := g.projectiles.filter (fun p => !p.markedForDeletion) }

/-- The wave check at the end of `Game.update`. -/
def Game.waveCheck (g : Game α) (random : ℕ → α) : Game α :=
  if g.enemies.length = 0 && !g.isPaused then
    let g := { g with wave := g.wave + 1 }
    g.spawnEnemies (g.wave + 2) random
  else g

/-- `Game.update(deltaTime)`: the game after the tick, or the exception thrown. `random` gives the
results of `Math.random()` used for spawning. -/
def Game.update (impl : Impl) (m : MathOps α) (g : Game α) (deltaTime : α) (random : ℕ → α) :
    Except String (Game α) :=
  match g.simulate impl m deltaTime with
  | Except.error e => Except.error e
  | Except.ok g => Except.ok ((g.contactPass.prune).waveCheck random)

/-- Whether, in the tick `Game.update(deltaTime)` on `g`, some enemy rectangle overlaps the circle
of the player when the contact pass runs. -/
def Game.overlapsAtContact (impl : Impl) (m : MathOps α) (g : Game α) (deltaTime : α) : Bool :=
  match g.simulate impl m deltaTime with
  | Except.error _ => false
  | Except.ok s =>
    s.enemies.any (fun (enemy : Enemy α) => Physics.checkCollision s.player.toCircle enemy.toRect)

end Numeric

/-! ## Consecutive ticks -/

/-- What the environment supplies to one animation frame: the time elapsed since the last one, the
key state that the key events have left, and the results of `Math.random()` for spawning. -/
structure Frame (α : Type) where
  deltaTime : α
  keys : Keys
  random : ℕ → α

section Numeric

variable {α : Type} [LinearOrderedField α] [FloorRing α]

/-- One call of `Game.update` with the inputs of the frame. -/
def Game.tick (impl : Impl) (m : MathOps α) (g : Game α) (f : Frame α) : Except String (Game α) :=
  Game.update impl m { g with input := f.keys } f.deltaTime f.random

/-- Consecutive calls of `Game.update`, one per frame. -/
def Game.ticks (impl : Impl) (m : MathOps α) : Game α → List (Frame α) → Except String (Game α)
  | g, [] => Except.ok g
  | g, f :: rest =>
    match g.tick impl m f with
    | Except.error e => Except.error e
    | Except.ok g => Game.ticks impl m g rest

/-- Whether in every one of the consecutive ticks some enemy rectangle overlaps the player when
the contact pass runs. -/
def Game.contactEveryTick (impl : Impl) (m : MathOps α) : Game α → List (Frame α) → Bool
  | _, [] => true
  | g, f :: rest =>
    Game.overlapsAtContact impl m { g with input := f.keys } f.deltaTime &&
      match g.tick impl m f with
      | Except.error _ => false
      | Except.ok g => Game.contactEveryTick impl m g rest

end Numeric

/-! ## game.js: the frame loop and restart -/

section Numeric

variable {α : Type} [LinearOrderedField α] [FloorRing α]

/-- `Game.draw()`, of which only the outcome is modelled. The modular `draw` calls
`this.drawGrid()`, a method that the class in src/src/game.js does not define, and throws; the
bundled `draw` renders the scene and returns. -/
def Game.draw (impl : Impl) : Except String Unit :=
  match impl with
  | Impl.modular => Except.error "TypeError: this.drawGrid is not a function"
  | Impl.bundled => Except.ok ()

/-- `Game.loop(timestamp)`: the game afterwards and whether the next animation frame was
requested, or the exception thrown. `updateUI` writes to the DOM only. -/
def Game.loop (impl : Impl) (m : MathOps α) (g : Game α) (timestamp : α) (random : ℕ → α) :
    Except String (Game α × Bool) :=
  if g.isPaused || g.isGameOver then
    let g := { g with lastTime := timestamp }
    if !g.isGameOver && !g.isPaused then Except.ok (g, true)
    else Except.ok (g, false)
  else
    let deltaTime := (timestamp - g.lastTime) / 1000
    let g := { g with lastTime := timestamp }
    match g.update impl m deltaTime random with
    | Except.error e => Except.error e
    | Except.ok g =>
      match Game.draw impl with
      | Except.error e => Except.error e
      | Except.ok _ =>
        if !g.isPaused && !g.isGameOver then Except.ok (g, true)
        else Except.ok (g, false)

/-- `Game.restart()`, where `now` is the result of `performance.now()`. The request of the next
animation frame and the DOM calls are left out, and so are the `destroy` calls with which the
bundled variant first removes the meshes of the old entities from the 3D scene. -/
def Game.restart (g : Game α) (now : α) (random : ℕ → α) : Game α :=
  -- Restart off-screen, target position is near bottom
  let g := { g with player := Player.new (g.width / 2) (g.height - 150) true g.height }
  let g := { g with enemies := [] }
  let g := { g with projectiles := [] }
  let g := { g with wave := 1 }
  let g := g.spawnEnemies 3 random
  let g := { g with isPaused := false }
  let g := { g with isGameOver := false }
  { g with lastTime := now }

/-- Consecutive calls of `Game.loop`, one per timestamp. -/
def Game.loops (impl : Impl) (m : MathOps α) (random : ℕ → α) :
    Game α → List α → Except String (Game α)
  | g, [] => Except.ok g
  | g, timestamp :: rest =>
    match g.loop impl m timestamp random with
    | Except.error e => Except.error e
    | Except.ok r => Game.loops impl m random r.1 rest

end Numeric

/-! ## game.js: skill selection -/

/-- What happens to a running game: an animation frame, in which `Game.update` is called with the
inputs of the frame, or a click on the skill card of the catalog entry with the given index, at
the time `now` of `performance.now()`. -/
inductive Event (α : Type) where
  | frame (f : Frame α)
  | click (card : ℕ) (now : α)

section Numeric

variable {α : Type} [LinearOrderedField α] [FloorRing α]

/-- The click listener that `Game.showSkillSelection` puts on the card of `skill`. The DOM calls
and the request of the next animation frame are left out. -/
def Game.skillCardClick (g : Game α) (skill : Skill α) (now : α) : Game α :=
  let g := { g with player := skill.apply g.player }
  let g := { g with isPaused := false }
  { g with lastTime := now }

/-- The game after a sequence of events, or the exception thrown by a frame. The cards that
`showSkillSelection` shows are entries of `SKILLS`; a click with an index outside the catalog is
a click on no card. -/
def Game.play (impl : Impl) (m : MathOps α) : Game α → List (Event α) → Except String (Game α)
  | g, [] => Except.ok g
  | g, Event.frame f :: rest =>
    match g.tick impl m f with
    | Except.error e => Except.error e
    | Except.ok g => Game.play impl m g rest
  | g, Event.click card now :: rest =>
    match (SKILLS α)[card]? with
    | some skill => Game.play impl m (g.skillCardClick skill now) rest
    | none => Game.play impl m g rest

end Numeric

/-! ## Doubles: overflow, underflow, Infinity and NaN -/

/-- A JavaScript number as far as its kind goes: a finite value, +Infinity or -Infinity, or NaN.
The two zeros are not told apart. -/
inductive JsNumber (α : Type) where
  | finite (value : α)
  | infinity (negative : Bool)
  | nan

/-- The two thresholds of the double format that this reading keeps: a result of magnitude
`overflow` or more is an infinity, and a result of magnitude `underflow` or less is 0. The
rounding of a result between the two to the nearest double is left out. -/
structure DoubleRange (α : Type) where
  overflow : α
  underflow : α

/-- An `Enemy` whose position is a JavaScript number. -/
structure JsEnemy (α : Type) where
  x : JsNumber α
  y : JsNumber α
  width : α
  height : α
  speed : α
  hp : α
  maxHp : α
  markedForDeletion : Bool

/-- A `Projectile` whose position and velocity are JavaScript numbers. -/
structure JsProjectile (α : Type) where
  x : JsNumber α
  y : JsNumber α
  speed : α
  radius : α
  isPlayerProjectile : Bool
  damage : α
  markedForDeletion : Bool
  vx : JsNumber α
  vy : JsNumber α

section Numeric

variable {α : Type} [LinearOrderedField α] [FloorRing α]

/-- The double that an arithmetic operation returns when its exact result is `x`. -/
def DoubleRange.round (r : DoubleRange α) (x : α) : JsNumber α :=
  if r.overflow ≤ |x| then JsNumber.infinity (decide (x < 0))
  else if |x| ≤ r.underflow then JsNumber.finite 0
  else JsNumber.finite x

/-- The sum `a + b` of JavaScript. -/
def JsNumber.add (r : DoubleRange α) : JsNumber α → JsNumber α → JsNumber α
  | JsNumber.finite a, JsNumber.finite b => r.round (a + b)
  | JsNumber.finite _, JsNumber.infinity n => JsNumber.infinity n
  | JsNumber.infinity n, JsNumber.finite _ => JsNumber.infinity n
  | JsNumber.infinity n, JsNumber.infinity k => if n = k then JsNumber.infinity n else JsNumber.nan
  | JsNumber.nan, _ => JsNumber.nan
  | _, JsNumber.nan => JsNumber.nan

/-- The difference `a - b` of JavaScript. -/
def JsNumber.sub (r : DoubleRange α) : JsNumber α → JsNumber α → JsNumber α
  | JsNumber.finite a, JsNumber.finite b => r.round (a - b)
  | JsNumber.finite _, JsNumber.infinity n => JsNumber.infinity (!n)
  | JsNumber.infinity n, JsNumber.finite _ => JsNumber.infinity n
  | JsNumber.infinity n, JsNumber.infinity k => if n = k then JsNumber.nan else JsNumber.infinity n
  | JsNumber.nan, _ => JsNumber.nan
  | _, JsNumber.nan => JsNumber.nan

/-- The product `a * b` of JavaScript. -/
def JsNumber.mul (r : DoubleRange α) : JsNumber α → JsNumber α → JsNumber α
  | JsNumber.finite a, JsNumber.finite b => r.round (a * b)
  | JsNumber.finite a, JsNumber.infinity n =>
    if a = 0 then JsNumber.nan else JsNumber.infinity (xor (decide (a < 0)) n)
  | JsNumber.infinity n, JsNumber.finite b =>
    if b = 0 then JsNumber.nan else JsNumber.infinity (xor n (decide (b < 0)))
  | JsNumber.infinity n, JsNumber.infinity k => JsNumber.infinity (xor n k)
  | JsNumber.nan, _ => JsNumber.nan
  | _, JsNumber.nan => JsNumber.nan

/-- The quotient `a / b` of JavaScript. A divisor 0 is taken to be +0, as the result of
`Math.sqrt` on a sum of squares is. -/
def JsNumber.div (r : DoubleRange α) : JsNumber α → JsNumber α → JsNumber α
  | JsNumber.finite a, JsNumber.finite b =>
    if b = 0 then
      if a = 0 then JsNumber.nan else JsNumber.infinity (decide (a < 0))
    else r.round (a / b)
  | JsNumber.finite _, JsNumber.infinity _ => JsNumber.finite 0
  | JsNumber.infinity n, JsNumber.finite b => JsNumber.infinity (xor n (decide (b < 0)))
  | JsNumber.infinity _, JsNumber.infinity _ => JsNumber.nan
  | JsNumber.nan, _ => JsNumber.nan
  | _, JsNumber.nan => JsNumber.nan

/-- `Math.sqrt(a)` of JavaScript, where `sqrt` is the square root on the finite values ≥ 0. -/
def JsNumber.sqrt (r : DoubleRange α) (sqrt : α → α) : JsNumber α → JsNumber α
  | JsNumber.finite a => if a < 0 then JsNumber.nan else r.round (sqrt a)
  | JsNumber.infinity n => if n then JsNumber.nan else JsNumber.infinity false
  | JsNumber.nan => JsNumber.nan

/-- The comparison `a < b` of JavaScript: false when either side is NaN. -/
def JsNumber.lt : JsNumber α → JsNumber α → Bool
  | JsNumber.finite a, JsNumber.finite b => decide (a < b)
  | JsNumber.finite _, JsNumber.infinity n => !n
  | JsNumber.infinity n, JsNumber.finite _ => n
  | JsNumber.infinity n, JsNumber.infinity k => n && !k
  | JsNumber.nan, _ => false
  | _, JsNumber.nan => false

/-- The comparison `a > b` of JavaScript: false when either side is NaN. -/
def JsNumber.gt (a b : JsNumber α) : Bool :=
  JsNumber.lt b a

/-- An enemy at a finite position, as a `JsEnemy`. -/
def Enemy.toJs (e : Enemy α) : JsEnemy α :=
  { x := JsNumber.finite e.x
    y := JsNumber.finite e.y
    width := e.width
    height := e.height
    speed := e.speed
    hp := e.hp
    maxHp := e.maxHp
    markedForDeletion := e.markedForDeletion }

/-- `Enemy.update(deltaTime, player)` in doubles: every arithmetic result may overflow to an
infinity or underflow to 0. -/
def JsEnemy.update (r : DoubleRange α) (sqrt : α → α) (e : JsEnemy α) (deltaTime : α)
    (player : Player α) : JsEnemy α :=
  let dx := JsNumber.sub r (JsNumber.finite player.x) e.x
  let dy := JsNumber.sub r (JsNumber.finite player.y) e.y
  let distance := JsNumber.sqrt r sqrt (JsNumber.add r (JsNumber.mul r dx dx) (JsNumber.mul r dy dy))
  if JsNumber.gt distance (JsNumber.finite 0) then
    let stepX :=
      JsNumber.mul r (JsNumber.mul r (JsNumber.div r dx distance) (JsNumber.finite e.speed))
        (JsNumber.finite deltaTime)
    let e := { e with x := JsNumber.add r e.x stepX }
    let stepY :=
      JsNumber.mul r (JsNumber.mul r (JsNumber.div r dy distance) (JsNumber.finite e.speed))
        (JsNumber.finite deltaTime)
    { e with y := JsNumber.add r e.y stepY }
  else e

/-- The exact values of the arithmetic results of `Enemy.update` on an enemy at a finite
position, in the order of the code, both assignments included. -/
def Enemy.updateSteps (sqrt : α → α) (e : Enemy α) (deltaTime : α) (player : Player α) : List α :=
  let dx := player.x - e.x
  let dy := player.y - e.y
  let distance := sqrt (dx * dx + dy * dy)
  [dx, dy, dx * dx, dy * dy, dx * dx + dy * dy, distance,
    dx / distance, dx / distance * e.speed, dx / distance * e.speed * deltaTime,
    e.x + dx / distance * e.speed * deltaTime,
    dy / distance, dy / distance * e.speed, dy / distance * e.speed * deltaTime,
    e.y + dy / distance * e.speed * deltaTime]

/-- The constructor `new Projectile(x, y, targetX, targetY, isPlayerProjectile)` in doubles, on
finite arguments. -/
def JsProjectile.new (r : DoubleRange α) (sqrt : α → α) (x y targetX targetY : α)
    (isPlayerProjectile : Bool) : JsProjectile α :=
  let speed : α := 400
  -- Calculate direction
  let dx := JsNumber.sub r (JsNumber.finite targetX) (JsNumber.finite x)
  let dy := JsNumber.sub r (JsNumber.finite targetY) (JsNumber.finite y)
  let distance := JsNumber.sqrt r sqrt (JsNumber.add r (JsNumber.mul r dx dx) (JsNumber.mul r dy dy))
  { x := JsNumber.finite x
    y := JsNumber.finite y
    speed := speed
    radius := 5
    isPlayerProjectile := isPlayerProjectile
    damage := 10
    markedForDeletion := false
    vx := JsNumber.mul r (JsNumber.div r dx distance) (JsNumber.finite speed)
    vy := JsNumber.mul r (JsNumber.div r dy distance) (JsNumber.finite speed) }

/-- The exact values of the arithmetic results of the `Projectile` constructor, in the order of
the code. -/
def Projectile.newSteps (sqrt : α → α) (x y targetX targetY : α) : List α :=
  let dx := targetX - x
  let dy := targetY - y
  let distance := sqrt (dx * dx + dy * dy)
  [dx, dy, dx * dx, dy * dy, dx * dx + dy * dy, distance,
    dx / distance, dx / distance * 400, dy / distance, dy / distance * 400]

/-- The two assignments `this.x += this.vx * deltaTime; this.y += this.vy * deltaTime` in
doubles. -/
def JsProjectile.move (r : DoubleRange α) (p : JsProjectile α) (deltaTime : α) : JsProjectile α :=
  let p := { p with x := JsNumber.add r p.x (JsNumber.mul r p.vx (JsNumber.finite deltaTime)) }
  { p with y := JsNumber.add r p.y (JsNumber.mul r p.vy (JsNumber.finite deltaTime)) }

/-- `Projectile.update(deltaTime, gameWidth, gameHeight)` in doubles, in the variant of the given
implementation. -/
def JsProjectile.update (r : DoubleRange α) (impl : Impl) (p : JsProjectile α)
    (deltaTime gameWidth gameHeight : α) : JsProjectile α :=
  let p := p.move r deltaTime
  match impl with
  | Impl.modular =>
    -- Check if out of bounds
    if JsNumber.lt p.x (JsNumber.finite 0) || JsNumber.gt p.x (JsNumber.finite gameWidth) ||
        JsNumber.lt p.y (JsNumber.finite 0) || JsNumber.gt p.y (JsNumber.finite gameHeight) then
      { p with markedForDeletion := true }
    else p
  | Impl.bundled =>
    -- Check if out of bounds (extended range so projectiles can travel far)
    let margin : α := 500
    if JsNumber.lt p.x (JsNumber.finite (-margin)) ||
        JsNumber.gt p.x (JsNumber.add r (JsNumber.finite gameWidth) (JsNumber.finite margin)) ||
        JsNumber.lt p.y (JsNumber.finite (-margin)) ||
        JsNumber.gt p.y (JsNumber.add r (JsNumber.finite gameHeight) (JsNumber.finite margin)) then
      { p with markedForDeletion := true }
    else p

/-- The scan for the nearest enemy at the start of `Game.update` in doubles. The accumulator is
the pair (nearestEnemy, minDistance), which starts as (null, Infinity). -/
def JsEnemy.nearest (r : DoubleRange α) (player : Player α) (enemies : List (JsEnemy α)) :
    Option (JsEnemy α) :=
  (enemies.foldl
    (fun (acc : Option (JsEnemy α) × JsNumber α) enemy =>
      let dx := JsNumber.sub r enemy.x (JsNumber.finite player.x)
      let dy := JsNumber.sub r enemy.y (JsNumber.finite player.y)
      let dist := JsNumber.add r (JsNumber.mul r dx dx) (JsNumber.mul r dy dy)
      if JsNumber.lt dist acc.2 then (some enemy, dist) else acc)
    (none, JsNumber.infinity false)).1

/-- The exact values of the arithmetic results of the nearest-enemy scan for one enemy at a
finite position. -/
def Enemy.distSqSteps (e : Enemy α) (player : Player α) : List α :=
  let dx := e.x - player.x
  let dy := e.y - player.y
  [dx, dy, dx * dx, dy * dy, dx * dx + dy * dy]

/-- The range of the binary64 format of JavaScript numbers: a result of magnitude
2^1024 − 2^970 or more rounds to an infinity, and one of magnitude 2^(−1075) or less to 0. -/
def binary64 (α : Type) [LinearOrderedField α] : DoubleRange α :=
  { overflow := 2 ^ 1024 - 2 ^ 970
    underflow := 1 / 2 ^ 1075 }

end Numeric

/-! ## Concrete data for evaluation -/

/-- An interpretation of the `Math` functions over the rationals: the square root is that of
Mathlib, exact on squares of rationals, and the trigonometric functions are those of the angle 0,
where `atan2 0 0 = 0`, `cos 0 = 1` and `sin 0 = 0`. -/
def ratOps : MathOps ℚ :=
  { sqrt := Rat.sqrt
    atan2 := fun _ _ => 0
    cos := fun _ => 1
    sin := fun _ => 0 }

/-- The player that `new Game` and `Game.restart` build for a canvas of 480 by 800. -/
def freshPlayer : Player ℚ := Player.new 240 650 true 800

/-- A circle of radius 5 at the origin; it touches `tangentRect` in one point. -/
def tangentCircle : Circle ℚ := { x := 0, y := 0, radius := 5 }

/-- A rectangle of 30 by 30 centred at (20, 0): its left edge is the line x = 5. -/
def tangentRect : Rect ℚ := { x := 20, y := 0, width := 30, height := 30 }

/-- A circle of radius 5 at (12, 3); it overlaps `overlapRect`. -/
def overlapCircle : Circle ℚ := { x := 12, y := 3, radius := 5 }

/-- A rectangle of 30 by 30 centred at (30, 0): its left edge is the line x = 15. -/
def overlapRect : Rect ℚ := { x := 30, y := 0, width := 30, height := 30 }

/-- An Active player at the target position (240, 650) of a canvas of 480 by 800, with the given
hp, invincibility timer and attack timer. -/
def contactPlayerAt (hp invincibilityTimer attackTimer : ℚ) : Player ℚ :=
  { Player.new 240 650 false 800 with
    hp := hp, invincibilityTimer := invincibilityTimer, attackTimer := attackTimer }

/-- A game of 480 by 800 in its first wave with the player `contactPlayerAt` and one enemy that
sits on the player. -/
def contactGameAt (hp invincibilityTimer attackTimer : ℚ) : Game ℚ :=
  { width := 480
    height := 800
    lastTime := 0
    input := Keys.released
    player := contactPlayerAt hp invincibilityTimer attackTimer
    enemies := [Enemy.new 240 650]
    projectiles := []
    isPaused := false
    isGameOver := false
    wave := 1 }

/-- The game `contactGameAt` with hp 500, no invincibility and 10 seconds to the next shot. -/
def contactGame : Game ℚ := contactGameAt 500 0 10

/-- A frame of half a second with no key pressed. -/
def halfSecond : Frame ℚ :=
  { deltaTime := 0.5, keys := Keys.released, random := fun _ => 1 / 2 }

/-- The Active player at (240, 650) with the given projectileCount. -/
def multishotPlayer (projectileCount : ℕ) : Player ℚ :=
  { Player.new 240 650 false 800 with projectileCount := projectileCount }

/-- A player-owned projectile of radius 5 and damage 10 at the given position, at rest. -/
def restingProjectile (x y : ℚ) : Projectile ℚ :=
  { x := some x, y := some y, speed := 400, radius := 5, isPlayerProjectile := true, damage := 10,
    markedForDeletion := false, vx := some 0, vy := some 0 }

/-- The game `contactGameAt hp 0 10` where the enemy on the player has 10 hp left and a player
projectile rests on both. -/
def duelGame (hp : ℚ) : Game ℚ :=
  { contactGameAt hp 0 10 with
    enemies := [{ Enemy.new 240 650 with hp := 10 }]
    projectiles := [restingProjectile 240 650] }

/-- The enemy of `duelGame` after the projectile has hit it: hp 0 and marked for deletion. -/
def fallenEnemy : Enemy ℚ :=
  { Enemy.new 240 650 with
    hp := 0
    markedForDeletion := true }

/-- The game that the first part of a tick of half a second on `duelGame` leaves: the enemy has
fallen, the projectile is spent, and the player has the 25 xp of a kill in wave 1. -/
def duelGameHit (hp : ℚ) : Game ℚ :=
  { contactGameAt hp 0 (19 / 2) with
    player := { contactPlayerAt hp 0 (19 / 2) with xp := 25 }
    enemies := [fallenEnemy]
    projectiles := [{ restingProjectile 240 650 with markedForDeletion := true }] }

/-- The game after a tick of half a second on `duelGame`, when `Math.random()` returns 1/2. -/
def duelGameAfter (hp : ℚ) : Game ℚ :=
  { contactGameAt (hp - 10) 1 (19 / 2) with
    player := { contactPlayerAt (hp - 10) 1 (19 / 2) with xp := 25 }
    enemies := List.replicate 4 (Enemy.new 240 (490 / 3))
    isGameOver := decide (hp - 10 ≤ 0)
    wave := 2 }

/-- The game `contactGameAt hp 0 timer` with two enemies on the player. -/
def crowdGame (hp inv timer : ℚ) : Game ℚ :=
  { contactGameAt hp inv timer with enemies := [Enemy.new 240 650, Enemy.new 240 650] }

/-- The game `duelGameAfter 500` after a click on the card of hp_heal at time 0: the player is
back at hp 500. -/
def healedGame : Game ℚ :=
  { duelGameAfter 500 with
    player := { (duelGameAfter 500).player with hp := 500 }
    isPaused := false
    lastTime := 0 }

/-- The game `contactGame` with two enemies off the player, the second one nearer than the
first. -/
def scanGame : Game ℚ :=
  { contactGame with enemies := [Enemy.new 250 700, Enemy.new 245 660] }

/-! ## Verification -/

section Proofs

variable {α : Type} [LinearOrderedField α] [FloorRing α]

set_option linter.unusedSectionVars false
set_option linter.unusedVariables false

/-! ### Player.gainXp and Player.takeDamage -/

/-- C1. `Player.gainXp(amount)`: when xp + amount reaches the threshold it returns true, xp becomes
xp + amount minus the old threshold, level grows by one and the threshold becomes the floor of 1.5
times the old one; otherwise it returns false and only xp changes, by exactly the amount. With
xp = 0 and threshold 100, a gain of 150 gives level + 1, xp 50, threshold 150 and true, and a gain
of 60 gives xp 60 and false. -/
theorem gainXp_spec (p : Player α) (amount : α) :
    p.gainXp amount =
      (if p.xp + amount ≥ p.xpToNextLevel then
        (true, { p with xp := p.xp + amount - p.xpToNextLevel
                        level := p.level + 1
                        xpToNextLevel := ((⌊p.xpToNextLevel * 1.5⌋ : ℤ) : α) })
      else
        (false, { p with xp := p.xp + amount })) ∧
    ({ p with xp := 0, xpToNextLevel := 100 } : Player α).gainXp 150 =
      (true, { p with xp := 50, level := p.level + 1, xpToNextLevel := 150 }) ∧
    ({ p with xp := 0, xpToNextLevel := 100 } : Player α).gainXp 60 =
      (false, { p with xp := 60, xpToNextLevel := 100 }) := by
  have hf : ⌊(100 : α) * 1.5⌋ = 150 := by
    rw [Int.floor_eq_iff]; norm_num
  refine ⟨?_, ?_, ?_⟩
  · by_cases h : p.xp + amount ≥ p.xpToNextLevel
    · simp [Player.gainXp, h]
    · simp [Player.gainXp, h]
  · simp only [Player.gainXp, zero_add, hf]
    norm_num
  · simp only [Player.gainXp, zero_add]
    norm_num

/-- C2, as amended. For a player with 0 ≤ xp < xpToNextLevel and a gain amount ≥ 0, the player
satisfies 0 ≤ xp < xpToNextLevel after `gainXp` exactly when the gain does not reach the following
threshold as well, that is when xp + amount < xpToNextLevel + floor(1.5 xpToNextLevel): one call
levels up at most once. -/
theorem gainXp_xp_in_range_iff (p : Player α) (amount : α)
    (h0 : 0 ≤ p.xp) (h1 : p.xp < p.xpToNextLevel) (ha : 0 ≤ amount) :
    (0 ≤ (p.gainXp amount).2.xp ∧ (p.gainXp amount).2.xp < (p.gainXp amount).2.xpToNextLevel) ↔
      p.xp + amount < p.xpToNextLevel + ((⌊p.xpToNextLevel * 1.5⌋ : ℤ) : α) := by
  have hT : 0 < p.xpToNextLevel := lt_of_le_of_lt h0 h1
  have hfl : (0 : α) ≤ ((⌊p.xpToNextLevel * 1.5⌋ : ℤ) : α) := by
    have : (0 : ℤ) ≤ ⌊p.xpToNextLevel * 1.5⌋ := Int.floor_nonneg.mpr (by positivity)
    exact_mod_cast this
  by_cases h : p.xp + amount ≥ p.xpToNextLevel
  · simp only [Player.gainXp, h, if_true]
    constructor
    · rintro ⟨_, h2⟩; linarith
    · intro h2; exact ⟨by linarith, by linarith⟩
  · simp only [Player.gainXp, h, if_false]
    push_neg at h
    constructor
    · intro _; linarith
    · intro _; exact ⟨by linarith, h⟩

/-- C2, the claim as stated fails. The fresh player has xp 0 below its threshold 100; after a gain
of 300 it has xp 200, which is not below the new threshold 150. -/
theorem gainXp_xp_in_range_counterexample :
    0 ≤ freshPlayer.xp ∧ freshPlayer.xp < freshPlayer.xpToNextLevel ∧ (0 : ℚ) ≤ 300 ∧
    (freshPlayer.gainXp 300).2.xp = 200 ∧ (freshPlayer.gainXp 300).2.xpToNextLevel = 150 ∧
    ¬ ((freshPlayer.gainXp 300).2.xp < (freshPlayer.gainXp 300).2.xpToNextLevel) := by
  have hf : ⌊(100 : ℚ) * 1.5⌋ = 150 := by
    rw [Int.floor_eq_iff]; norm_num
  simp only [freshPlayer, Player.new, Player.gainXp, zero_add, hf]
  norm_num

/-- Witness of C2 as amended: the fresh player and a gain of 150, which levels up once and leaves
xp 50 below the new threshold 150. -/
theorem gainXp_xp_in_range_witness :
    (0 ≤ (freshPlayer.gainXp 150).2.xp ∧
      (freshPlayer.gainXp 150).2.xp < (freshPlayer.gainXp 150).2.xpToNextLevel) ↔
      freshPlayer.xp + 150 < freshPlayer.xpToNextLevel +
        ((⌊freshPlayer.xpToNextLevel * 1.5⌋ : ℤ) : ℚ) :=
  gainXp_xp_in_range_iff freshPlayer 150 (by norm_num [freshPlayer, Player.new])
    (by norm_num [freshPlayer, Player.new]) (by norm_num)

/-- `Player.takeDamage` in closed form. -/
theorem Player.takeDamage_eq (p : Player α) (amount : α) :
    p.takeDamage amount =
      if p.invincibilityTimer > 0 then p
      else { p with hp := p.hp - amount, invincibilityTimer := 1 } := by
  by_cases h : p.invincibilityTimer > 0
  · simp [Player.takeDamage, h]
  · simp only [Player.takeDamage, h, if_false]
    norm_num

/-- C3. `Player.takeDamage(amount)` is a hard gate: with invincibilityTimer > 0 the player is
unchanged; otherwise hp becomes hp − amount, invincibilityTimer becomes exactly 1 and no other
field changes. -/
theorem takeDamage_spec (p : Player α) (amount : α) :
    p.takeDamage amount =
      if p.invincibilityTimer > 0 then p
      else { p with hp := p.hp - amount, invincibilityTimer := 1 } :=
  Player.takeDamage_eq p amount

/-! ### Physics.checkCollision -/

/-- The clamp of a coordinate to a non-empty interval lies in the interval. -/
theorem clamp_mem (lo hi c : α) (h : lo ≤ hi) :
    lo ≤ max lo (min c hi) ∧ max lo (min c hi) ≤ hi :=
  ⟨le_max_left _ _, max_le h (min_le_right _ _)⟩

/-- The clamp of a coordinate is at least as near to it as any point of the interval. -/
theorem clamp_sq_le (lo hi c p : α) (h1 : lo ≤ p) (h2 : p ≤ hi) :
    (c - max lo (min c hi)) * (c - max lo (min c hi)) ≤ (p - c) * (p - c) := by
  rcases le_total c hi with hc | hc
  · rw [min_eq_left hc]
    rcases le_total lo c with hl | hl
    · rw [max_eq_right hl]; nlinarith [mul_self_nonneg (p - c)]
    · rw [max_eq_left hl]; nlinarith
  · rw [min_eq_right hc, max_eq_right (le_trans h1 h2)]; nlinarith

/-- Clamping commutes with negation when the interval is non-empty. -/
theorem clamp_neg (lo hi c : α) (h : lo ≤ hi) :
    max (-hi) (min (-c) (-lo)) = -(max lo (min c hi)) := by
  rcases le_total c hi with hc | hc <;> rcases le_total lo c with hl | hl <;>
    simp only [max_def, min_def] <;> split_ifs <;> linarith

/-- C5. For a rect of non-negative width and height, `Physics.checkCollision(circle, rect)` is true
exactly when some point of the closed rectangle centred at (rect.x, rect.y) lies at squared
distance less than radius squared from the centre of the circle; and it is false at tangency, that
is whenever a nearest point of the rectangle lies at squared distance exactly radius squared. -/
theorem checkCollision_iff_point_inside (circle : Circle α) (rect : Rect α)
    (hw : 0 ≤ rect.width) (hh : 0 ≤ rect.height) :
    (Physics.checkCollision circle rect = true ↔
      ∃ px py : α,
        (rect.x - rect.width / 2 ≤ px ∧ px ≤ rect.x + rect.width / 2 ∧
          rect.y - rect.height / 2 ≤ py ∧ py ≤ rect.y + rect.height / 2) ∧
        (px - circle.x) ^ 2 + (py - circle.y) ^ 2 < circle.radius ^ 2) ∧
    (∀ qx qy : α,
      (rect.x - rect.width / 2 ≤ qx ∧ qx ≤ rect.x + rect.width / 2 ∧
        rect.y - rect.height / 2 ≤ qy ∧ qy ≤ rect.y + rect.height / 2) →
      (∀ px py : α,
        (rect.x - rect.width / 2 ≤ px ∧ px ≤ rect.x + rect.width / 2 ∧
          rect.y - rect.height / 2 ≤ py ∧ py ≤ rect.y + rect.height / 2) →
        (qx - circle.x) ^ 2 + (qy - circle.y) ^ 2 ≤ (px - circle.x) ^ 2 + (py - circle.y) ^ 2) →
      (qx - circle.x) ^ 2 + (qy - circle.y) ^ 2 = circle.radius ^ 2 →
      Physics.checkCollision circle rect = false) := by
  have hx : rect.x - rect.width / 2 ≤ rect.x + rect.width / 2 := by linarith
  have hy : rect.y - rect.height / 2 ≤ rect.y + rect.height / 2 := by linarith
  have key : Physics.checkCollision circle rect = true ↔
      ∃ px py : α,
        (rect.x - rect.width / 2 ≤ px ∧ px ≤ rect.x + rect.width / 2 ∧
          rect.y - rect.height / 2 ≤ py ∧ py ≤ rect.y + rect.height / 2) ∧
        (px - circle.x) ^ 2 + (py - circle.y) ^ 2 < circle.radius ^ 2 := by
    simp only [Physics.checkCollision, decide_eq_true_eq]
    constructor
    · intro h
      refine ⟨_, _, ⟨(clamp_mem _ _ circle.x hx).1, (clamp_mem _ _ circle.x hx).2,
        (clamp_mem _ _ circle.y hy).1, (clamp_mem _ _ circle.y hy).2⟩, ?_⟩
      calc _ = _ := by ring
        _ < _ := h
        _ = _ := by ring
    · rintro ⟨px, py, ⟨h1, h2, h3, h4⟩, h⟩
      have ex := clamp_sq_le _ _ circle.x px h1 h2
      have ey := clamp_sq_le _ _ circle.y py h3 h4
      nlinarith
  refine ⟨key, fun qx qy hq hmin hr => ?_⟩
  by_contra hne
  rw [Bool.not_eq_false] at hne
  obtain ⟨px, py, hp, hlt⟩ := key.mp hne
  have := hmin px py hp
  linarith

/-- Witness of C5: the circle of radius 5 at the origin touches the rectangle whose left edge is
x = 5; no point of the rectangle is strictly inside the circle and the result is false. -/
theorem checkCollision_tangent_witness :
    (0 : ℚ) ≤ tangentRect.width ∧ (0 : ℚ) ≤ tangentRect.height ∧
    Physics.checkCollision tangentCircle tangentRect = false ∧
    ¬ ∃ px py : ℚ,
        (tangentRect.x - tangentRect.width / 2 ≤ px ∧ px ≤ tangentRect.x + tangentRect.width / 2 ∧
          tangentRect.y - tangentRect.height / 2 ≤ py ∧
          py ≤ tangentRect.y + tangentRect.height / 2) ∧
        (px - tangentCircle.x) ^ 2 + (py - tangentCircle.y) ^ 2 < tangentCircle.radius ^ 2 := by
  have hw : (0 : ℚ) ≤ tangentRect.width := by norm_num [tangentRect]
  have hh : (0 : ℚ) ≤ tangentRect.height := by norm_num [tangentRect]
  have hf : Physics.checkCollision tangentCircle tangentRect = false := by
    simp [Physics.checkCollision, tangentCircle, tangentRect]
    norm_num
  refine ⟨hw, hh, hf, fun h => ?_⟩
  have := (checkCollision_iff_point_inside tangentCircle tangentRect hw hh).1.mpr h
  rw [hf] at this
  exact Bool.false_ne_true this

/-- C6. For a rect of non-negative width and height, `Physics.checkCollision` gives the same result
when the x coordinates of both centres are negated, and likewise for the y coordinates. -/
theorem checkCollision_reflect (circle : Circle α) (rect : Rect α)
    (hw : 0 ≤ rect.width) (hh : 0 ≤ rect.height) :
    Physics.checkCollision { circle with x := -circle.x } { rect with x := -rect.x } =
      Physics.checkCollision circle rect ∧
    Physics.checkCollision { circle with y := -circle.y } { rect with y := -rect.y } =
      Physics.checkCollision circle rect := by
  have hx : rect.x - rect.width / 2 ≤ rect.x + rect.width / 2 := by linarith
  have hy : rect.y - rect.height / 2 ≤ rect.y + rect.height / 2 := by linarith
  have ex := clamp_neg _ _ circle.x hx
  have ey := clamp_neg _ _ circle.y hy
  have ex2 : max (-rect.x - rect.width / 2) (min (-circle.x) (-rect.x + rect.width / 2)) =
      -(max (rect.x - rect.width / 2) (min circle.x (rect.x + rect.width / 2))) := by
    rw [← ex]; congr 1 <;> [ring; (congr 1; ring)]
  have ey2 : max (-rect.y - rect.height / 2) (min (-circle.y) (-rect.y + rect.height / 2)) =
      -(max (rect.y - rect.height / 2) (min circle.y (rect.y + rect.height / 2))) := by
    rw [← ey]; congr 1 <;> [ring; (congr 1; ring)]
  constructor
  · simp only [Physics.checkCollision, ex2]
    congr 1
    rw [eq_iff_iff]
    constructor <;> intro h <;> nlinarith
  · simp only [Physics.checkCollision, ey2]
    congr 1
    rw [eq_iff_iff]
    constructor <;> intro h <;> nlinarith

/-- Witness of C6: `overlapCircle` and `overlapRect` overlap, and so do their mirror images. -/
theorem checkCollision_reflect_witness :
    (0 : ℚ) ≤ overlapRect.width ∧ (0 : ℚ) ≤ overlapRect.height ∧
    Physics.checkCollision overlapCircle overlapRect = true ∧
    Physics.checkCollision { overlapCircle with x := -overlapCircle.x }
        { overlapRect with x := -overlapRect.x } =
      Physics.checkCollision overlapCircle overlapRect ∧
    Physics.checkCollision { overlapCircle with y := -overlapCircle.y }
        { overlapRect with y := -overlapRect.y } =
      Physics.checkCollision overlapCircle overlapRect :=
  ⟨by norm_num [overlapRect], by norm_num [overlapRect],
    by simp [Physics.checkCollision, overlapCircle, overlapRect]; norm_num,
    checkCollision_reflect overlapCircle overlapRect (by norm_num [overlapRect])
      (by norm_num [overlapRect])⟩

/-! ### InputSystem.getAxis -/

/-- C7. In exact real arithmetic, for every state of the eight keys the vector (x, y) returned by
`InputSystem.getAxis` has x² + y² equal to 0 or to 1. When the input is not diagonal (left and
right cancel or are both released, or up and down do) the result is one of (0,0), (±1,0), (0,±1);
when it is diagonal (exactly one of left/right and exactly one of up/down is in effect) both
components have absolute value 1/√2 and x² + y² = 1. -/
theorem getAxis_unit_or_zero (keys : Keys) :
    ((InputSystem.getAxis Real.sqrt keys).x ^ 2 + (InputSystem.getAxis Real.sqrt keys).y ^ 2 = 0 ∨
      (InputSystem.getAxis Real.sqrt keys).x ^ 2 + (InputSystem.getAxis Real.sqrt keys).y ^ 2 = 1) ∧
    ((keys.ArrowLeft || keys.a) = (keys.ArrowRight || keys.d) ∨
        (keys.ArrowUp || keys.w) = (keys.ArrowDown || keys.s) →
      InputSystem.getAxis Real.sqrt keys ∈
        ([⟨0, 0⟩, ⟨1, 0⟩, ⟨-1, 0⟩, ⟨0, 1⟩, ⟨0, -1⟩] : List (Vec2 ℝ))) ∧
    ((keys.ArrowLeft || keys.a) ≠ (keys.ArrowRight || keys.d) ∧
        (keys.ArrowUp || keys.w) ≠ (keys.ArrowDown || keys.s) →
      (InputSystem.getAxis Real.sqrt keys).x ^ 2 + (InputSystem.getAxis Real.sqrt keys).y ^ 2 = 1 ∧
      |(InputSystem.getAxis Real.sqrt keys).x| = 1 / Real.sqrt 2 ∧
      |(InputSystem.getAxis Real.sqrt keys).y| = 1 / Real.sqrt 2) := by
  have h2 : Real.sqrt 2 ≠ 0 := by positivity
  have h2p : 0 < Real.sqrt 2 := by positivity
  have hs : Real.sqrt 2 ^ 2 = 2 := Real.sq_sqrt (by norm_num)
  have hab : |(1 : ℝ) / Real.sqrt 2| = 1 / Real.sqrt 2 := abs_of_pos (by positivity)
  have hab2 : |(-1 : ℝ) / Real.sqrt 2| = 1 / Real.sqrt 2 := by
    rw [neg_div, abs_neg, hab]
  have hsq1 : ((1 : ℝ) / Real.sqrt 2) ^ 2 = 1 / 2 := by
    rw [div_pow, hs]; norm_num
  have hsq2 : ((-1 : ℝ) / Real.sqrt 2) ^ 2 = 1 / 2 := by
    rw [div_pow, hs]; norm_num
  have e11 : (1 : ℝ) * 1 + 1 * 1 = 2 := by norm_num
  have e12 : (-1 : ℝ) * -1 + 1 * 1 = 2 := by norm_num
  have e13 : (1 : ℝ) * 1 + -1 * -1 = 2 := by norm_num
  have e14 : (-1 : ℝ) * -1 + -1 * -1 = 2 := by norm_num
  have hne : (1 : ℝ) / Real.sqrt 2 ≠ 0 := by positivity
  have hne2 : (-1 : ℝ) / Real.sqrt 2 ≠ 0 := by
    rw [neg_div]; exact neg_ne_zero.mpr hne
  cases hL : (keys.ArrowLeft || keys.a) <;> cases hR : (keys.ArrowRight || keys.d) <;>
    cases hU : (keys.ArrowUp || keys.w) <;> cases hD : (keys.ArrowDown || keys.s) <;>
    simp only [InputSystem.getAxis, hL, hR, hU, hD] <;>
    norm_num [e11, e12, e13, e14, hsq1, hsq2, hab, hab2, hne, hne2, h2]

/-! ### The skill catalog -/

/-- The ids of the catalog, in order. -/
theorem SKILLS_ids : (SKILLS α).map Skill.id =
    ["multishot", "attack_boost", "speed_boost", "ricochet", "hp_boost", "hp_heal"] := rfl

/-- The ids of the catalog are pairwise distinct. -/
theorem SKILLS_ids_nodup : ((SKILLS α).map Skill.id).Nodup := by
  rw [SKILLS_ids]; decide

/-- C8. The catalog `SKILLS` has six entries with pairwise distinct ids, and on a player with
projectileCount ≥ 1 the apply functions are, in order: multishot adds 1 to projectileCount,
attack_boost sets damage to floor(1.25 damage), speed_boost multiplies attackSpeed by 0.75,
ricochet sets hasRicochet, hp_boost adds 50 to maxHp and to hp, hp_heal sets hp to
min(hp + 50, maxHp); each changes no other field. -/
theorem SKILLS_spec (p : Player α) (h : 1 ≤ p.projectileCount) :
    (SKILLS α).length = 6 ∧ ((SKILLS α).map Skill.id).Nodup ∧
    (SKILLS α).map (fun s => (s.id, s.apply p)) =
      [ ("multishot", { p with projectileCount := p.projectileCount + 1 }),
        ("attack_boost", { p with damage := ((⌊p.damage * 1.25⌋ : ℤ) : α) }),
        ("speed_boost", { p with attackSpeed := p.attackSpeed * 0.75 }),
        ("ricochet", { p with hasRicochet := true }),
        ("hp_boost", { p with maxHp := p.maxHp + 50, hp := p.hp + 50 }),
        ("hp_heal", { p with hp := min (p.hp + 50) p.maxHp }) ] := by
  refine ⟨rfl, SKILLS_ids_nodup, ?_⟩
  have hne : p.projectileCount ≠ 0 := Nat.one_le_iff_ne_zero.mp h
  simp [SKILLS, hne]

/-- Witness of C8: the six skills applied to the fresh player. -/
theorem SKILLS_spec_witness :
    1 ≤ freshPlayer.projectileCount ∧
    (SKILLS ℚ).map (fun s => (s.id, (s.apply freshPlayer).projectileCount, (s.apply freshPlayer).damage,
        (s.apply freshPlayer).attackSpeed, (s.apply freshPlayer).hasRicochet,
        (s.apply freshPlayer).maxHp, (s.apply freshPlayer).hp)) =
      [ ("multishot", 2, 10, 1 / 2, false, 500, 500),
        ("attack_boost", 1, 12, 1 / 2, false, 500, 500),
        ("speed_boost", 1, 10, 3 / 8, false, 500, 500),
        ("ricochet", 1, 10, 1 / 2, true, 500, 500),
        ("hp_boost", 1, 10, 1 / 2, false, 550, 550),
        ("hp_heal", 1, 10, 1 / 2, false, 500, 500) ] := by
  have h : 1 ≤ freshPlayer.projectileCount := by simp [freshPlayer, Player.new]
  have hfl : ⌊(10 : ℚ) * 1.25⌋ = 12 := by
    rw [Int.floor_eq_iff]; norm_num
  refine ⟨h, ?_⟩
  have := congrArg (List.map (fun (q : String × Player ℚ) => (q.1, q.2.projectileCount, q.2.damage,
        q.2.attackSpeed, q.2.hasRicochet, q.2.maxHp, q.2.hp))) (SKILLS_spec freshPlayer h).2.2
  simp only [List.map_map] at this
  rw [show (fun s : Skill ℚ => (s.id, (s.apply freshPlayer).projectileCount,
        (s.apply freshPlayer).damage, (s.apply freshPlayer).attackSpeed,
        (s.apply freshPlayer).hasRicochet, (s.apply freshPlayer).maxHp,
        (s.apply freshPlayer).hp)) =
      (fun (q : String × Player ℚ) => (q.1, q.2.projectileCount, q.2.damage,
        q.2.attackSpeed, q.2.hasRicochet, q.2.maxHp, q.2.hp)) ∘
      (fun s : Skill ℚ => (s.id, s.apply freshPlayer)) from rfl, this]
  simp [freshPlayer, Player.new, hfl]
  norm_num

/-- C9. Whatever permutation of the copied catalog the sort with the random comparator produces,
`SkillSystem.getRandomSkills(count)` with count ≤ 6 returns exactly count entries, each an element
of `SKILLS`, with pairwise distinct ids, and leaves the catalog as it was; in particular
`getRandomSkills(3)` returns exactly 3 distinct catalog entries. -/
theorem getRandomSkills_spec (sort : List (Skill α) → List (Skill α))
    (hsort : (sort (SKILLS α)).Perm (SKILLS α)) (count : ℕ) (hcount : count ≤ 6) :
    ((SkillSystem.getRandomSkills sort (SKILLS α) count).1.length = count ∧
      (∀ s ∈ (SkillSystem.getRandomSkills sort (SKILLS α) count).1, s ∈ SKILLS α) ∧
      ((SkillSystem.getRandomSkills sort (SKILLS α) count).1.map Skill.id).Nodup ∧
      (SkillSystem.getRandomSkills sort (SKILLS α) count).2 = SKILLS α) ∧
    ((SkillSystem.getRandomSkills sort (SKILLS α) 3).1.length = 3 ∧
      (∀ s ∈ (SkillSystem.getRandomSkills sort (SKILLS α) 3).1, s ∈ SKILLS α) ∧
      ((SkillSystem.getRandomSkills sort (SKILLS α) 3).1.map Skill.id).Nodup) := by
  have hlen : (sort (SKILLS α)).length = 6 := hsort.length_eq
  have hnd : ((sort (SKILLS α)).map Skill.id).Nodup :=
    (hsort.map Skill.id).nodup_iff.mpr SKILLS_ids_nodup
  have gen : ∀ n : ℕ, n ≤ 6 →
      ((sort (SKILLS α)).take n).length = n ∧
      (∀ s ∈ (sort (SKILLS α)).take n, s ∈ SKILLS α) ∧
      (((sort (SKILLS α)).take n).map Skill.id).Nodup := by
    intro n hn
    refine ⟨?_, ?_, ?_⟩
    · rw [List.length_take, hlen]; exact min_eq_left hn
    · intro s hs
      exact hsort.subset (List.mem_of_mem_take hs)
    · rw [List.map_take]
      exact hnd.sublist (List.take_sublist _ _)
  exact ⟨⟨(gen count hcount).1, (gen count hcount).2.1, (gen count hcount).2.2, rfl⟩,
    gen 3 (by norm_num)⟩

/-- Witness of C9: when the sort happens to reverse the catalog, `getRandomSkills(3)` returns
hp_heal, hp_boost and ricochet. -/
theorem getRandomSkills_witness :
    (List.reverse (SKILLS ℚ)).Perm (SKILLS ℚ) ∧ 3 ≤ 6 ∧
    (SkillSystem.getRandomSkills List.reverse (SKILLS ℚ) 3).1.map Skill.id =
      ["hp_heal", "hp_boost", "ricochet"] ∧
    ((SkillSystem.getRandomSkills List.reverse (SKILLS ℚ) 3).1.map Skill.id).Nodup ∧
    (SkillSystem.getRandomSkills List.reverse (SKILLS ℚ) 3).1.length = 3 :=
  ⟨List.reverse_perm _, by norm_num, rfl,
    (getRandomSkills_spec List.reverse (List.reverse_perm _) 3 (by norm_num)).1.2.2.1,
    (getRandomSkills_spec List.reverse (List.reverse_perm _) 3 (by norm_num)).1.1⟩

/-! ### Player.update while entering -/

/-- C10. For a player with isEntering = true, `Player.update` returns normally, with no call of the
spawn callback, and moves only y: to y − 300 deltaTime when that is still above targetY, otherwise
exactly to targetY with isEntering cleared. The result does not depend on the key state, on the
nearest enemy, on the bounds or on the implementation; x, hp, attackTimer, invincibilityTimer, xp
and level are unchanged and y never ends below targetY. -/
theorem update_entering (impl : Impl) (m : MathOps α) (p : Player α) (deltaTime : α)
    (input : Keys) (gameWidth gameHeight : α) (nearestEnemy : Option (Enemy α))
    (h : p.isEntering = true) :
    p.update impl m deltaTime input gameWidth gameHeight nearestEnemy =
      Except.ok
        (if p.y - 300 * deltaTime > p.targetY then
          { p with y := p.y - 300 * deltaTime, isMoving := true }
        else
          { p with y := p.targetY, isEntering := false, isMoving := false }, []) ∧
    (∀ q shots, p.update impl m deltaTime input gameWidth gameHeight nearestEnemy =
        Except.ok (q, shots) →
      shots = [] ∧ q.targetY ≤ q.y ∧ q.x = p.x ∧ q.hp = p.hp ∧ q.attackTimer = p.attackTimer ∧
      q.invincibilityTimer = p.invincibilityTimer ∧ q.xp = p.xp ∧ q.level = p.level) ∧
    (∀ (impl2 : Impl) (m2 : MathOps α) (input2 : Keys) (gameWidth2 gameHeight2 : α)
        (nearestEnemy2 : Option (Enemy α)),
      p.update impl2 m2 deltaTime input2 gameWidth2 gameHeight2 nearestEnemy2 =
        p.update impl m deltaTime input gameWidth gameHeight nearestEnemy) := by
  have key : ∀ (impl : Impl) (m : MathOps α) (input : Keys) (gameWidth gameHeight : α)
      (nearestEnemy : Option (Enemy α)),
      p.update impl m deltaTime input gameWidth gameHeight nearestEnemy =
      Except.ok
        (if p.y - 300 * deltaTime > p.targetY then
          { p with y := p.y - 300 * deltaTime, isMoving := true }
        else
          { p with y := p.targetY, isEntering := false, isMoving := false }, []) := by
    intro impl m input gameWidth gameHeight nearestEnemy
    by_cases hy : p.y - 300 * deltaTime > p.targetY
    · simp [Player.update, Player.updateEntrance, h, hy, not_le.mpr hy]
    · simp [Player.update, Player.updateEntrance, h, hy, not_lt.mp hy]
  refine ⟨key _ _ _ _ _ _, fun q shots hq => ?_, fun _ _ _ _ _ _ => by rw [key, key]⟩
  rw [key] at hq
  injection hq with hq
  injection hq with hq1 hq2
  subst hq1
  subst hq2
  by_cases hy : p.y - 300 * deltaTime > p.targetY
  · simp [hy, le_of_lt hy]
  · simp [hy]

/-- Witness of C10: the fresh player starts at y = 900 with targetY = 650; after half a second it
is at 750, still entering, and after a full second it is exactly at 650 and Active, with a key
pressed and a nearest enemy supplied in both cases. -/
theorem update_entering_witness :
    freshPlayer.isEntering = true ∧
    freshPlayer.update Impl.bundled ratOps (1 / 2) { Keys.released with d := true } 480 800
        (some (Enemy.new 240 100)) =
      Except.ok ({ freshPlayer with y := 750, isMoving := true }, []) ∧
    freshPlayer.update Impl.modular ratOps 1 { Keys.released with d := true } 480 800
        (some (Enemy.new 240 100)) =
      Except.ok ({ freshPlayer with y := 650, isEntering := false, isMoving := false }, []) := by
  have h : freshPlayer.isEntering = true := rfl
  refine ⟨h, ?_, ?_⟩
  · rw [(update_entering Impl.bundled ratOps freshPlayer (1 / 2) { Keys.released with d := true }
      480 800 (some (Enemy.new 240 100)) h).1]
    norm_num [freshPlayer, Player.new]
  · rw [(update_entering Impl.modular ratOps freshPlayer 1 { Keys.released with d := true }
      480 800 (some (Enemy.new 240 100)) h).1]
    norm_num [freshPlayer, Player.new]

/-! ### Three ticks of contact -/

/-- The attack logic changes only attackTimer. -/
theorem Player.updateAttack_fields (impl : Impl) (m : MathOps α) (p : Player α) (deltaTime : α)
    (nearestEnemy : Option (Enemy α)) (q : Player α) (shots : List (SpawnRequest α))
    (hu : p.updateAttack impl m deltaTime nearestEnemy = Except.ok (q, shots)) :
    q.hp = p.hp ∧ q.isEntering = p.isEntering ∧ q.invincibilityTimer = p.invincibilityTimer := by
  unfold Player.updateAttack at hu
  cases nearestEnemy with
  | none =>
    simp only [Except.ok.injEq, Prod.mk.injEq] at hu
    obtain ⟨rfl, -⟩ := hu
    exact ⟨rfl, rfl, rfl⟩
  | some target =>
    cases impl with
    | modular =>
      by_cases ht : p.attackTimer - deltaTime ≤ 0
      · simp [ht] at hu
      · simp only [ht, if_false, Except.ok.injEq, Prod.mk.injEq] at hu
        obtain ⟨rfl, -⟩ := hu
        exact ⟨rfl, rfl, rfl⟩
    | bundled =>
      by_cases ht : p.attackTimer - deltaTime ≤ 0
      · simp only [ht, if_true, Except.ok.injEq, Prod.mk.injEq] at hu
        obtain ⟨rfl, -⟩ := hu
        exact ⟨rfl, rfl, rfl⟩
      · simp only [ht, if_false, Except.ok.injEq, Prod.mk.injEq] at hu
        obtain ⟨rfl, -⟩ := hu
        exact ⟨rfl, rfl, rfl⟩

/-- The movement step changes only x, y and isMoving. -/
theorem Player.updateMovement_fields (p : Player α) (axis : Vec2 α)
    (deltaTime gameWidth gameHeight : α) :
    (p.updateMovement axis deltaTime gameWidth gameHeight).hp = p.hp ∧
    (p.updateMovement axis deltaTime gameWidth gameHeight).isEntering = p.isEntering ∧
    (p.updateMovement axis deltaTime gameWidth gameHeight).invincibilityTimer =
      p.invincibilityTimer := by
  unfold Player.updateMovement
  split_ifs <;> exact ⟨rfl, rfl, rfl⟩

/-- The timer step changes only invincibilityTimer. -/
theorem Player.updateInvincibility_fields (p : Player α) (deltaTime : α) :
    (p.updateInvincibility deltaTime).hp = p.hp ∧
    (p.updateInvincibility deltaTime).isEntering = p.isEntering ∧
    (p.updateInvincibility deltaTime).invincibilityTimer =
      (if p.invincibilityTimer > 0 then p.invincibilityTimer - deltaTime
        else p.invincibilityTimer) := by
  unfold Player.updateInvincibility
  split_ifs <;> exact ⟨rfl, rfl, rfl⟩

/-- `Player.update` on an Active player: hp is kept, the player stays Active and the
invincibility timer counts down while it is positive. -/
theorem Player.update_active (impl : Impl) (m : MathOps α) (p : Player α) (deltaTime : α)
    (input : Keys) (gameWidth gameHeight : α) (nearestEnemy : Option (Enemy α))
    (q : Player α) (shots : List (SpawnRequest α)) (h : p.isEntering = false)
    (hu : p.update impl m deltaTime input gameWidth gameHeight nearestEnemy = Except.ok (q, shots)) :
    q.hp = p.hp ∧ q.isEntering = false ∧
    q.invincibilityTimer =
      (if p.invincibilityTimer > 0 then p.invincibilityTimer - deltaTime
        else p.invincibilityTimer) := by
  simp only [Player.update, h, Bool.false_eq_true, if_false] at hu
  obtain ⟨a1, a2, a3⟩ := Player.updateAttack_fields _ _ _ _ _ _ _ hu
  obtain ⟨b1, b2, b3⟩ := Player.updateMovement_fields (p.updateInvincibility deltaTime)
    (InputSystem.getAxis m.sqrt input) deltaTime gameWidth gameHeight
  obtain ⟨c1, c2, c3⟩ := Player.updateInvincibility_fields p deltaTime
  exact ⟨by rw [a1, b1, c1], by rw [a2, b2, c2, h], by rw [a3, b3, c3]⟩

/-- `Player.gainXp` changes only xp, level and xpToNextLevel. -/
theorem Player.gainXp_fields (p : Player α) (amount : α) :
    (p.gainXp amount).2.hp = p.hp ∧ (p.gainXp amount).2.isEntering = p.isEntering ∧
    (p.gainXp amount).2.invincibilityTimer = p.invincibilityTimer ∧
    (p.gainXp amount).2.x = p.x ∧ (p.gainXp amount).2.y = p.y ∧
    (p.gainXp amount).2.radius = p.radius := by
  simp only [Player.gainXp]
  split_ifs <;> exact ⟨rfl, rfl, rfl, rfl, rfl, rfl⟩

/-- The inner loop of the collision pass keeps hp, isEntering and invincibilityTimer of the player. -/
theorem Game.collideEnemies_player (wave : ℕ) (enemies : List (Enemy α)) :
    ∀ (proj : Projectile α) (player : Player α) (isPaused : Bool),
    (Game.collideEnemies wave proj player isPaused enemies).2.player.hp = player.hp ∧
    (Game.collideEnemies wave proj player isPaused enemies).2.player.isEntering =
      player.isEntering ∧
    (Game.collideEnemies wave proj player isPaused enemies).2.player.invincibilityTimer =
      player.invincibilityTimer := by
  induction enemies with
  | nil => intro proj player isPaused; exact ⟨rfl, rfl, rfl⟩
  | cons enemy rest ih =>
    intro proj player isPaused
    simp only [Game.collideEnemies]
    obtain ⟨g1, g2, g3, -⟩ := Player.gainXp_fields player (((20 + wave * 5 : ℕ) : α))
    split_ifs <;>
      first
        | exact ih _ _ _
        | exact ⟨(ih _ _ _).1.trans g1, (ih _ _ _).2.1.trans g2, (ih _ _ _).2.2.trans g3⟩

/-- The collision pass keeps hp, isEntering and invincibilityTimer of the player. -/
theorem Game.collideProjectiles_player (wave : ℕ) (projectiles : List (Projectile α)) :
    ∀ (player : Player α) (isPaused : Bool) (enemies : List (Enemy α)),
    (Game.collideProjectiles wave player isPaused enemies projectiles).2.player.hp = player.hp ∧
    (Game.collideProjectiles wave player isPaused enemies projectiles).2.player.isEntering =
      player.isEntering ∧
    (Game.collideProjectiles wave player isPaused enemies projectiles).2.player.invincibilityTimer =
      player.invincibilityTimer := by
  induction projectiles with
  | nil => intro player isPaused enemies; exact ⟨rfl, rfl, rfl⟩
  | cons proj rest ih =>
    intro player isPaused enemies
    simp only [Game.collideProjectiles]
    split_ifs with h1
    · obtain ⟨e1, e2, e3⟩ := Game.collideEnemies_player wave enemies proj player isPaused
      obtain ⟨i1, i2, i3⟩ := ih (Game.collideEnemies wave proj player isPaused enemies).2.player
        (Game.collideEnemies wave proj player isPaused enemies).2.isPaused
        (Game.collideEnemies wave proj player isPaused enemies).2.enemies
      exact ⟨i1.trans e1, i2.trans e2, i3.trans e3⟩
    · exact ih _ _ _

/-- The first part of a tick on an Active player: hp is kept, the player stays Active and the
invincibility timer counts down while it is positive. -/
theorem Game.simulate_player (impl : Impl) (m : MathOps α) (g s : Game α) (deltaTime : α)
    (h : g.player.isEntering = false) (hs : g.simulate impl m deltaTime = Except.ok s) :
    s.player.hp = g.player.hp ∧ s.player.isEntering = false ∧
    s.player.invincibilityTimer =
      (if g.player.invincibilityTimer > 0 then g.player.invincibilityTimer - deltaTime
        else g.player.invincibilityTimer) := by
  unfold Game.simulate at hs
  cases hu : g.player.update impl m deltaTime g.input g.width g.height g.nearestEnemy with
  | error e => simp [hu] at hs
  | ok updated =>
    obtain ⟨q, shots⟩ := updated
    obtain ⟨u1, u2, u3⟩ := Player.update_active impl m g.player deltaTime g.input g.width g.height
      g.nearestEnemy q shots h hu
    simp only [hu, Except.ok.injEq] at hs
    subst hs
    simp only []
    obtain ⟨c1, c2, c3⟩ := Game.collideProjectiles_player g.wave
      (List.map (fun (proj : Projectile α) => proj.update impl deltaTime g.width g.height)
        (g.projectiles ++ List.map (Game.createProjectile m.sqrt) shots))
      q g.isPaused
      (List.map (fun (enemy : Enemy α) => enemy.update m.sqrt deltaTime q) g.enemies)
    exact ⟨c1.trans u1, c2.trans u2, c3.trans u3⟩

/-- The contact loop does nothing to an invincible player. -/
theorem Game.contactLoop_invincible (enemies : List (Enemy α)) (player : Player α)
    (isGameOver : Bool) (h : player.invincibilityTimer > 0) :
    (Game.contactLoop player isGameOver enemies).1 = player := by
  induction enemies generalizing isGameOver with
  | nil => rfl
  | cons enemy rest ih =>
    have ht : player.takeDamage 10 = player := by simp [Player.takeDamage, h]
    simp only [Game.contactLoop, ht]
    split_ifs <;> exact ih _

/-- The contact loop on a player that is not invincible, with some enemy overlapping: exactly one
hit of 10 lands, and the invincibility timer is 1 afterwards. -/
theorem Game.contactLoop_hit (enemies : List (Enemy α)) (player : Player α)
    (isGameOver : Bool) (h : ¬ player.invincibilityTimer > 0)
    (hov : ∃ e ∈ enemies, Physics.checkCollision player.toCircle e.toRect = true) :
    (Game.contactLoop player isGameOver enemies).1 =
      { player with hp := player.hp - 10, invincibilityTimer := 1 } := by
  induction enemies generalizing isGameOver with
  | nil => obtain ⟨e, he, -⟩ := hov; cases he
  | cons enemy rest ih =>
    have ht : player.takeDamage 10 = { player with hp := player.hp - 10, invincibilityTimer := 1 } := by
      rw [Player.takeDamage_eq, if_neg h]
    by_cases hc : Physics.checkCollision player.toCircle enemy.toRect = true
    · have hinv : ({ player with hp := player.hp - 10, invincibilityTimer := 1 } :
          Player α).invincibilityTimer > 0 := by
        show (1 : α) > 0
        exact one_pos
      simp only [Game.contactLoop, hc, if_true, ht]
      split_ifs <;> exact Game.contactLoop_invincible rest _ _ hinv
    · simp only [Game.contactLoop, hc]
      obtain ⟨e, he, hce⟩ := hov
      rcases List.mem_cons.mp he with rfl | he
      · exact absurd hce hc
      · exact ih _ ⟨e, he, hce⟩

/-- Spawning enemies does not touch the player. -/
theorem Game.spawnEnemies_player (g : Game α) (count : ℕ) (random : ℕ → α) :
    (g.spawnEnemies count random).player = g.player := by
  unfold Game.spawnEnemies
  generalize List.range count = l
  induction l generalizing g with
  | nil => rfl
  | cons i rest ih => rw [List.foldl_cons, ih]

/-- The prune and the wave check do not touch the player. -/
theorem Game.waveCheck_prune_player (g : Game α) (random : ℕ → α) :
    (g.prune.waveCheck random).player = g.player := by
  unfold Game.waveCheck
  split_ifs
  · rw [Game.spawnEnemies_player]; rfl
  · rfl

/-- One tick on an Active player with an enemy overlapping at the contact pass: the player stays
Active; if the invincibility timer, after its countdown, is still positive, hp is kept and the
timer has the counted-down value; otherwise hp drops by 10 and the timer is 1. -/
theorem Game.update_contact (impl : Impl) (m : MathOps α) (g g1 : Game α) (deltaTime : α)
    (random : ℕ → α) (h : g.player.isEntering = false)
    (hu : g.update impl m deltaTime random = Except.ok g1)
    (hov : g.overlapsAtContact impl m deltaTime = true) :
    g1.player.isEntering = false ∧
    ((g.player.updateInvincibility deltaTime).invincibilityTimer > 0 →
      g1.player.hp = g.player.hp ∧
      g1.player.invincibilityTimer =
        (g.player.updateInvincibility deltaTime).invincibilityTimer) ∧
    (¬ (g.player.updateInvincibility deltaTime).invincibilityTimer > 0 →
      g1.player.hp = g.player.hp - 10 ∧ g1.player.invincibilityTimer = 1) := by
  unfold Game.update at hu
  unfold Game.overlapsAtContact at hov
  cases hs : g.simulate impl m deltaTime with
  | error e => simp [hs] at hu
  | ok s =>
    simp only [hs, Except.ok.injEq] at hu
    simp only [hs, List.any_eq_true] at hov
    obtain ⟨s1, s2, s3⟩ := Game.simulate_player impl m g s deltaTime h hs
    rw [← (Player.updateInvincibility_fields g.player deltaTime).2.2] at s3
    have hp1 : g1.player = (Game.contactLoop s.player s.isGameOver s.enemies).1 := by
      rw [← hu, Game.waveCheck_prune_player]
      rfl
    by_cases ht : (g.player.updateInvincibility deltaTime).invincibilityTimer > 0
    · have hl := Game.contactLoop_invincible s.enemies s.player s.isGameOver (by rw [s3]; exact ht)
      rw [hl] at hp1
      rw [hp1]
      exact ⟨s2, fun _ => ⟨s1, s3⟩, fun hn => absurd ht hn⟩
    · have hl := Game.contactLoop_hit s.enemies s.player s.isGameOver (by rw [s3]; exact ht) hov
      rw [hl] at hp1
      rw [hp1]
      refine ⟨s2, fun hn => absurd hn ht, fun _ => ⟨?_, rfl⟩⟩
      show s.player.hp - 10 = g.player.hp - 10
      rw [s1]

/-- The tick lemma for a frame: as `Game.update_contact`, for `Game.tick`. -/
theorem Game.tick_contact (impl : Impl) (m : MathOps α) (g g1 : Game α) (f : Frame α)
    (h : g.player.isEntering = false) (hu : g.tick impl m f = Except.ok g1)
    (hov : Game.overlapsAtContact impl m { g with input := f.keys } f.deltaTime = true) :
    g1.player.isEntering = false ∧
    ((g.player.updateInvincibility f.deltaTime).invincibilityTimer > 0 →
      g1.player.hp = g.player.hp ∧
      g1.player.invincibilityTimer =
        (g.player.updateInvincibility f.deltaTime).invincibilityTimer) ∧
    (¬ (g.player.updateInvincibility f.deltaTime).invincibilityTimer > 0 →
      g1.player.hp = g.player.hp - 10 ∧ g1.player.invincibilityTimer = 1) :=
  Game.update_contact impl m { g with input := f.keys } g1 f.deltaTime f.random h hu hov


/-- The rational square root of 0 is 0. -/
theorem ratOps_sqrt_zero : ratOps.sqrt 0 = 0 := by
  simp [ratOps, Rat.sqrt]

/-- The collision pass without projectiles changes nothing. -/
theorem Game.collideProjectiles_nil {α : Type} [LinearOrderedField α] [FloorRing α] (wave : ℕ)
    (player : Player α) (isPaused : Bool) (enemies : List (Enemy α)) :
    Game.collideProjectiles wave player isPaused enemies [] =
      ([], { player := player, isPaused := isPaused, enemies := enemies }) := rfl

/-- With no key pressed the axis is (0, 0). -/
theorem InputSystem.getAxis_released {α : Type} [LinearOrderedField α] [FloorRing α]
    (sqrt : α → α) : InputSystem.getAxis sqrt Keys.released = { x := 0, y := 0 } := by
  simp [InputSystem.getAxis, Keys.released]

/-- With the axis (0, 0) the movement step only clears isMoving. -/
theorem Player.updateMovement_zero {α : Type} [LinearOrderedField α] [FloorRing α]
    (p : Player α) (deltaTime gameWidth gameHeight : α) :
    p.updateMovement { x := 0, y := 0 } deltaTime gameWidth gameHeight =
      { p with isMoving := false } := by
  simp [Player.updateMovement]

/-- `Player.update` on `contactPlayerAt` for half a second with no key pressed, more than half a
second before the next shot. -/
theorem contactPlayerAt_update (impl : Impl) (hp inv timer : ℚ) (ht : 1 / 2 < timer)
    (target : Enemy ℚ) :
    (contactPlayerAt hp inv timer).update impl ratOps (1 / 2) Keys.released 480 800 (some target) =
      Except.ok (contactPlayerAt hp (if inv > 0 then inv - 1 / 2 else inv) (timer - 1 / 2), []) := by
  have ht2 : ¬ timer - 1 / 2 ≤ 0 := by linarith
  have hi : (contactPlayerAt hp inv timer).updateInvincibility (1 / 2) =
      contactPlayerAt hp (if inv > 0 then inv - 1 / 2 else inv) timer := by
    simp only [Player.updateInvincibility, contactPlayerAt]
    split_ifs <;> rfl
  have hE : (contactPlayerAt hp inv timer).isEntering = false := rfl
  simp only [Player.update, hE, Bool.false_eq_true, if_false, hi, InputSystem.getAxis_released,
    Player.updateMovement_zero]
  simp only [Player.updateAttack, contactPlayerAt, ht2, if_false]
  rfl

/-- The first part of the tick on `contactGameAt`. -/
theorem contactGameAt_simulate (impl : Impl) (hp inv timer : ℚ) (ht : 1 / 2 < timer) :
    Game.simulate impl ratOps { contactGameAt hp inv timer with input := halfSecond.keys }
        halfSecond.deltaTime =
      Except.ok (contactGameAt hp (if inv > 0 then inv - 1 / 2 else inv) (timer - 1 / 2)) := by
  have e : halfSecond.deltaTime = 1 / 2 := by norm_num [halfSecond]
  have hn : Game.nearestEnemy { contactGameAt hp inv timer with input := halfSecond.keys } =
      some (Enemy.new 240 650) := by
    simp [Game.nearestEnemy, contactGameAt]
  have hen : ∀ p : Player ℚ, p.x = 240 → p.y = 650 →
      (Enemy.new (240 : ℚ) 650).update ratOps.sqrt (1 / 2) p = Enemy.new 240 650 := by
    intro p hx hy
    simp [Enemy.update, Enemy.new, hx, hy, ratOps_sqrt_zero]
  rw [e]
  simp only [Game.simulate, hn]
  have hu := contactPlayerAt_update impl hp inv timer ht (Enemy.new 240 650)
  have hu2 : ({ contactGameAt hp inv timer with input := halfSecond.keys } : Game ℚ).player.update
      impl ratOps (1 / 2)
      ({ contactGameAt hp inv timer with input := halfSecond.keys } : Game ℚ).input
      ({ contactGameAt hp inv timer with input := halfSecond.keys } : Game ℚ).width
      ({ contactGameAt hp inv timer with input := halfSecond.keys } : Game ℚ).height
      (some (Enemy.new 240 650)) =
      Except.ok (contactPlayerAt hp (if inv > 0 then inv - 1 / 2 else inv) (timer - 1 / 2), []) := hu
  rw [hu2]
  simp only [contactGameAt, List.map_nil, List.append_nil, List.map_cons,
    Game.collideProjectiles_nil]
  rw [hen _ rfl rfl]
  rfl

/-- The enemy of `contactGameAt` overlaps its player. -/
theorem contactPlayerAt_overlap (hp inv timer : ℚ) :
    Physics.checkCollision (contactPlayerAt hp inv timer).toCircle
      (Enemy.new (240 : ℚ) 650).toRect = true := by
  simp [Physics.checkCollision, contactPlayerAt, Player.new, Player.toCircle, Enemy.new,
    Enemy.toRect]
  norm_num

/-- In a tick on `contactGameAt` the enemy overlaps the player at the contact pass. -/
theorem contactGameAt_overlap (impl : Impl) (hp inv timer : ℚ) (ht : 1 / 2 < timer) :
    Game.overlapsAtContact impl ratOps { contactGameAt hp inv timer with input := halfSecond.keys }
      halfSecond.deltaTime = true := by
  unfold Game.overlapsAtContact
  rw [contactGameAt_simulate impl hp inv timer ht]
  simp only [contactGameAt, List.any_cons, contactPlayerAt_overlap, Bool.true_or]

/-- The contact pass, the prune and the wave check on `contactGameAt`. -/
theorem contactGameAt_contactPass (hp inv timer : ℚ) (hhp : 10 < hp) :
    ((contactGameAt hp inv timer).contactPass.prune).waveCheck halfSecond.random =
      if inv > 0 then contactGameAt hp inv timer else contactGameAt (hp - 10) 1 timer := by
  have hc := fun h i => contactPlayerAt_overlap h i timer
  have h1 : ¬ (contactPlayerAt hp inv timer).hp ≤ 0 := by
    show ¬ hp ≤ 0
    linarith
  have h2 : ¬ (contactPlayerAt (hp - 10) 1 timer).hp ≤ 0 := by
    show ¬ hp - 10 ≤ 0
    linarith
  have htd : (contactPlayerAt hp inv timer).takeDamage 10 =
      if inv > 0 then contactPlayerAt hp inv timer else contactPlayerAt (hp - 10) 1 timer := by
    rw [Player.takeDamage_eq]
    rfl
  have hpass : (contactGameAt hp inv timer).contactPass =
      if inv > 0 then contactGameAt hp inv timer else contactGameAt (hp - 10) 1 timer := by
    simp only [Game.contactPass, contactGameAt, Game.contactLoop, hc, if_true, htd]
    by_cases hi : inv > 0
    · simp only [hi, if_true, h1, if_false]
    · simp only [hi, if_false, h2]
  rw [hpass]
  have hrest : ∀ h i : ℚ, ((contactGameAt h i timer).prune).waveCheck halfSecond.random =
      contactGameAt h i timer := by
    intro h i
    simp [Game.prune, Game.waveCheck, contactGameAt, Enemy.new]
  split_ifs <;> exact hrest _ _

/-- One tick of half a second on `contactGameAt`. -/
theorem contactGameAt_tick (impl : Impl) (hp inv timer : ℚ) (ht : 1 / 2 < timer)
    (hhp : 10 < hp) :
    (contactGameAt hp inv timer).tick impl ratOps halfSecond =
      Except.ok
        (if (if inv > 0 then inv - 1 / 2 else inv) > 0 then
          contactGameAt hp (if inv > 0 then inv - 1 / 2 else inv) (timer - 1 / 2)
        else contactGameAt (hp - 10) 1 (timer - 1 / 2)) := by
  unfold Game.tick Game.update
  rw [contactGameAt_simulate impl hp inv timer ht]
  simp only [contactGameAt_contactPass _ _ _ hhp]

/-- Three ticks of half a second on `contactGame`, evaluated: every tick succeeds with the enemy
on the player, and the game ends with hp 480. -/
theorem contactGame_ticks (impl : Impl) :
    Game.ticks impl ratOps contactGame [halfSecond, halfSecond, halfSecond] =
      Except.ok (contactGameAt 480 1 (17 / 2)) ∧
    Game.contactEveryTick impl ratOps contactGame
      [halfSecond, halfSecond, halfSecond] = true := by
  rw [show contactGame = contactGameAt 500 0 10 from rfl]
  have t1 : (contactGameAt 500 0 10).tick impl ratOps halfSecond =
      Except.ok (contactGameAt 490 1 (19 / 2)) := by
    rw [contactGameAt_tick impl 500 0 10 (by norm_num) (by norm_num)]
    norm_num
  have t2 : (contactGameAt 490 1 (19 / 2)).tick impl ratOps halfSecond =
      Except.ok (contactGameAt 490 (1 / 2) 9) := by
    rw [contactGameAt_tick impl 490 1 (19 / 2) (by norm_num) (by norm_num)]
    norm_num
  have t3 : (contactGameAt 490 (1 / 2) 9).tick impl ratOps halfSecond =
      Except.ok (contactGameAt 480 1 (17 / 2)) := by
    rw [contactGameAt_tick impl 490 (1 / 2) 9 (by norm_num) (by norm_num)]
    norm_num
  have o1 := contactGameAt_overlap impl 500 0 10 (by norm_num)
  have o2 := contactGameAt_overlap impl 490 1 (19 / 2) (by norm_num)
  have o3 := contactGameAt_overlap impl 490 (1 / 2) 9 (by norm_num)
  constructor
  · simp only [Game.ticks, t1, t2, t3]
  · simp only [Game.contactEveryTick, t1, t2, t3, o1, o2, o3, Bool.and_self]

/-- A tick whose contact pass is reached with an enemy overlapping the player returns normally. -/
theorem Game.tick_ok_of_overlap (impl : Impl) (m : MathOps α) (g : Game α) (f : Frame α)
    (hov : Game.overlapsAtContact impl m { g with input := f.keys } f.deltaTime = true) :
    ∃ g1 : Game α, g.tick impl m f = Except.ok g1 := by
  unfold Game.overlapsAtContact at hov
  unfold Game.tick Game.update
  cases hs : Game.simulate impl m { g with input := f.keys } f.deltaTime with
  | error e => simp [hs] at hov
  | ok s => exact ⟨_, rfl⟩

/-- C4, as amended. From an Active player with hp 500 and invincibilityTimer 0, three consecutive
`Game.update` ticks of 0.5 s each, with an enemy rectangle overlapping the player at the contact
pass of every tick, return normally and leave hp at 480: the contact of the first tick deals 10
damage (hp 490), the contact of the second tick is suppressed (hp 490), and by the third tick the
timer has counted down to exactly 0, which no longer blocks, so a second hit of 10 lands. -/
theorem contact_three_ticks (impl : Impl) (m : MathOps α) (g : Game α) (f1 f2 f3 : Frame α)
    (hd1 : f1.deltaTime = 0.5) (hd2 : f2.deltaTime = 0.5) (hd3 : f3.deltaTime = 0.5)
    (hactive : g.player.isEntering = false) (hhp : g.player.hp = 500)
    (hinv : g.player.invincibilityTimer = 0)
    (hcontact : Game.contactEveryTick impl m g [f1, f2, f3] = true) :
    ∃ g1 g2 g3 : Game α,
      Game.ticks impl m g [f1] = Except.ok g1 ∧ Game.ticks impl m g [f1, f2] = Except.ok g2 ∧
      Game.ticks impl m g [f1, f2, f3] = Except.ok g3 ∧
      g1.player.hp = 490 ∧ g2.player.hp = 490 ∧ g3.player.hp = 480 := by
  simp only [Game.contactEveryTick] at hcontact
  cases h1 : g.tick impl m f1 with
  | error e => simp [h1] at hcontact
  | ok g1 =>
    simp only [h1] at hcontact
    cases h2 : g1.tick impl m f2 with
    | error e => simp [h2] at hcontact
    | ok g2 =>
      simp only [h2, Bool.and_eq_true] at hcontact
      obtain ⟨c1, c2, c3, -⟩ := hcontact
      obtain ⟨g3, h3⟩ := Game.tick_ok_of_overlap impl m g2 f3 c3
      -- first tick: the timer is 0, the contact lands
      obtain ⟨a1, -, a3⟩ := Game.tick_contact impl m g g1 f1 hactive h1 c1
      have t1 : ¬ (g.player.updateInvincibility f1.deltaTime).invincibilityTimer > 0 := by
        simp [Player.updateInvincibility, hinv]
      obtain ⟨a4, a5⟩ := a3 t1
      -- second tick: the timer is 1, counts down to 1/2 and blocks the contact
      obtain ⟨b1, b2, -⟩ := Game.tick_contact impl m g1 g2 f2 a1 h2 c2
      have t2 : (g1.player.updateInvincibility f2.deltaTime).invincibilityTimer = 1 / 2 := by
        simp [Player.updateInvincibility, a5, hd2]; norm_num
      obtain ⟨b4, b5⟩ := b2 (by rw [t2]; norm_num)
      rw [t2] at b5
      -- third tick: the timer counts down to exactly 0, the contact lands again
      obtain ⟨-, -, d3⟩ := Game.tick_contact impl m g2 g3 f3 b1 h3 c3
      have t3 : ¬ (g2.player.updateInvincibility f3.deltaTime).invincibilityTimer > 0 := by
        simp [Player.updateInvincibility, b5, hd3]; norm_num
      obtain ⟨d4, -⟩ := d3 t3
      have e1 : g1.player.hp = 490 := by rw [a4, hhp]; norm_num
      have e2 : g2.player.hp = 490 := by rw [b4, e1]
      have e3 : g3.player.hp = 480 := by rw [d4, e2]; norm_num
      exact ⟨g1, g2, g3, by simp only [Game.ticks, h1], by simp only [Game.ticks, h1, h2],
        by simp only [Game.ticks, h1, h2, h3], e1, e2, e3⟩

/-- C4, the claim as stated fails. On `contactGame` (Active player, hp 500, invincibilityTimer 0, an
enemy sitting on the player) three ticks of 0.5 s succeed in both implementations, the enemy
overlaps the player at the contact pass of each of them, and hp is 480 afterwards, not 490. -/
theorem contact_three_ticks_counterexample :
    contactGame.player.isEntering = false ∧ contactGame.player.hp = 500 ∧
    contactGame.player.invincibilityTimer = 0 ∧ halfSecond.deltaTime = 0.5 ∧
    Game.contactEveryTick Impl.modular ratOps contactGame
      [halfSecond, halfSecond, halfSecond] = true ∧
    Game.contactEveryTick Impl.bundled ratOps contactGame
      [halfSecond, halfSecond, halfSecond] = true ∧
    (Game.ticks Impl.modular ratOps contactGame [halfSecond, halfSecond, halfSecond]).map
      (fun g => g.player.hp) = Except.ok 480 ∧
    (Game.ticks Impl.bundled ratOps contactGame [halfSecond, halfSecond, halfSecond]).map
      (fun g => g.player.hp) = Except.ok 480 ∧
    (480 : ℚ) ≠ 490 := by
  refine ⟨rfl, rfl, rfl, rfl, (contactGame_ticks Impl.modular).2, (contactGame_ticks Impl.bundled).2,
    ?_, ?_, by norm_num⟩
  · rw [(contactGame_ticks Impl.modular).1]; rfl
  · rw [(contactGame_ticks Impl.bundled).1]; rfl

/-- Witness of C4 as amended: the three ticks on `contactGame` in the bundled implementation. -/
theorem contact_three_ticks_witness :
    contactGame.player.isEntering = false ∧ contactGame.player.hp = 500 ∧
    contactGame.player.invincibilityTimer = 0 ∧
    Game.contactEveryTick Impl.bundled ratOps contactGame
      [halfSecond, halfSecond, halfSecond] = true ∧
    ∃ g1 g2 g3 : Game ℚ,
      Game.ticks Impl.bundled ratOps contactGame [halfSecond] = Except.ok g1 ∧
      Game.ticks Impl.bundled ratOps contactGame [halfSecond, halfSecond] = Except.ok g2 ∧
      Game.ticks Impl.bundled ratOps contactGame [halfSecond, halfSecond, halfSecond] =
        Except.ok g3 ∧
      g1.player.hp = 490 ∧ g2.player.hp = 490 ∧ g3.player.hp = 480 :=
  ⟨rfl, rfl, rfl, (contactGame_ticks Impl.bundled).2,
    contact_three_ticks Impl.bundled ratOps contactGame halfSecond halfSecond halfSecond
      rfl rfl rfl rfl rfl rfl (contactGame_ticks Impl.bundled).2⟩

/-! ### Player.update on an Active player: bounds and attack -/

/-- The attack logic keeps position and radius. -/
theorem Player.updateAttack_position (impl : Impl) (m : MathOps α) (p : Player α) (deltaTime : α)
    (nearestEnemy : Option (Enemy α)) (q : Player α) (shots : List (SpawnRequest α))
    (hu : p.updateAttack impl m deltaTime nearestEnemy = Except.ok (q, shots)) :
    q.x = p.x ∧ q.y = p.y ∧ q.radius = p.radius := by
  unfold Player.updateAttack at hu
  cases nearestEnemy with
  | none =>
    simp only [Except.ok.injEq, Prod.mk.injEq] at hu
    obtain ⟨rfl, -⟩ := hu
    exact ⟨rfl, rfl, rfl⟩
  | some target =>
    cases impl with
    | modular =>
      by_cases ht : p.attackTimer - deltaTime ≤ 0
      · simp [ht] at hu
      · simp only [ht, if_false, Except.ok.injEq, Prod.mk.injEq] at hu
        obtain ⟨rfl, -⟩ := hu
        exact ⟨rfl, rfl, rfl⟩
    | bundled =>
      by_cases ht : p.attackTimer - deltaTime ≤ 0
      · simp only [ht, if_true, Except.ok.injEq, Prod.mk.injEq] at hu
        obtain ⟨rfl, -⟩ := hu
        exact ⟨rfl, rfl, rfl⟩
      · simp only [ht, if_false, Except.ok.injEq, Prod.mk.injEq] at hu
        obtain ⟨rfl, -⟩ := hu
        exact ⟨rfl, rfl, rfl⟩

/-- The attack logic returns normally unless the modular implementation has to fire. -/
theorem Player.updateAttack_ok (impl : Impl) (m : MathOps α) (p : Player α) (deltaTime : α)
    (nearestEnemy : Option (Enemy α))
    (h : impl = Impl.bundled ∨ nearestEnemy = none ∨ 0 < p.attackTimer - deltaTime) :
    ∃ q shots, p.updateAttack impl m deltaTime nearestEnemy = Except.ok (q, shots) := by
  unfold Player.updateAttack
  cases nearestEnemy with
  | none => exact ⟨_, _, rfl⟩
  | some target =>
    by_cases ht : p.attackTimer - deltaTime ≤ 0
    · rcases h with h | h | h
      · subst h
        simp only [ht, if_true]
        exact ⟨_, _, rfl⟩
      · cases h
      · exact absurd h (not_lt.mpr ht)
    · simp only [ht, if_false]
      exact ⟨_, _, rfl⟩

/-- The movement step in closed form. -/
theorem Player.updateMovement_eq (p : Player α) (axis : Vec2 α)
    (deltaTime gameWidth gameHeight : α) :
    p.updateMovement axis deltaTime gameWidth gameHeight =
      if axis.x ≠ 0 ∨ axis.y ≠ 0 then
        { p with
          isMoving := true
          x := max p.radius (min (gameWidth - p.radius) (p.x + axis.x * p.speed * deltaTime))
          y := max p.radius (min (gameHeight - p.radius) (p.y + axis.y * p.speed * deltaTime)) }
      else { p with isMoving := false } := by
  unfold Player.updateMovement
  split_ifs <;> rfl

/-- The position after the movement step: inside the bounds when it was inside before, and inside
in any case when the axis is not zero. -/
theorem Player.updateMovement_bounds (p : Player α) (axis : Vec2 α)
    (deltaTime gameWidth gameHeight : α)
    (hw : 2 * p.radius ≤ gameWidth) (hh : 2 * p.radius ≤ gameHeight) :
    (p.updateMovement axis deltaTime gameWidth gameHeight).radius = p.radius ∧
    ((p.radius ≤ p.x ∧ p.x ≤ gameWidth - p.radius ∧
        p.radius ≤ p.y ∧ p.y ≤ gameHeight - p.radius) ∨ (axis.x ≠ 0 ∨ axis.y ≠ 0) →
      p.radius ≤ (p.updateMovement axis deltaTime gameWidth gameHeight).x ∧
      (p.updateMovement axis deltaTime gameWidth gameHeight).x ≤ gameWidth - p.radius ∧
      p.radius ≤ (p.updateMovement axis deltaTime gameWidth gameHeight).y ∧
      (p.updateMovement axis deltaTime gameWidth gameHeight).y ≤ gameHeight - p.radius) := by
  have hw2 : p.radius ≤ gameWidth - p.radius := by linarith
  have hh2 : p.radius ≤ gameHeight - p.radius := by linarith
  rw [Player.updateMovement_eq]
  by_cases ha : axis.x ≠ 0 ∨ axis.y ≠ 0
  · rw [if_pos ha]
    exact ⟨rfl, fun _ => ⟨le_max_left _ _, max_le hw2 (min_le_left _ _), le_max_left _ _,
      max_le hh2 (min_le_left _ _)⟩⟩
  · rw [if_neg ha]
    refine ⟨rfl, fun h => ?_⟩
    rcases h with h | h
    · exact h
    · exact absurd h ha

/-- The timer step keeps position and radius. -/
theorem Player.updateInvincibility_position (p : Player α) (deltaTime : α) :
    (p.updateInvincibility deltaTime).x = p.x ∧ (p.updateInvincibility deltaTime).y = p.y ∧
    (p.updateInvincibility deltaTime).radius = p.radius ∧
    (p.updateInvincibility deltaTime).attackTimer = p.attackTimer := by
  unfold Player.updateInvincibility
  split_ifs <;> exact ⟨rfl, rfl, rfl, rfl⟩

/-- C11. For an Active player and bounds of at least twice the radius, `Player.update` keeps the
position inside [radius, gameWidth − radius] × [radius, gameHeight − radius] when it was inside
before, and puts it inside in any case when the axis is not zero; the same holds of the movement
step for an arbitrary axis. The update returns normally in the bundled implementation, and in the
modular one whenever it does not have to fire. -/
theorem update_keeps_bounds (impl : Impl) (m : MathOps α) (p : Player α) (deltaTime : α)
    (input : Keys) (gameWidth gameHeight : α) (nearestEnemy : Option (Enemy α))
    (hactive : p.isEntering = false)
    (hw : 2 * p.radius ≤ gameWidth) (hh : 2 * p.radius ≤ gameHeight) :
    (impl = Impl.bundled ∨ nearestEnemy = none ∨ 0 < p.attackTimer - deltaTime →
      ∃ q shots, p.update impl m deltaTime input gameWidth gameHeight nearestEnemy =
        Except.ok (q, shots)) ∧
    (∀ q shots, p.update impl m deltaTime input gameWidth gameHeight nearestEnemy =
        Except.ok (q, shots) →
      q.radius = p.radius ∧
      ((p.radius ≤ p.x ∧ p.x ≤ gameWidth - p.radius ∧
          p.radius ≤ p.y ∧ p.y ≤ gameHeight - p.radius) ∨
        ((InputSystem.getAxis m.sqrt input).x ≠ 0 ∨ (InputSystem.getAxis m.sqrt input).y ≠ 0) →
        q.radius ≤ q.x ∧ q.x ≤ gameWidth - q.radius ∧
        q.radius ≤ q.y ∧ q.y ≤ gameHeight - q.radius)) ∧
    (∀ axis : Vec2 α,
      (p.radius ≤ p.x ∧ p.x ≤ gameWidth - p.radius ∧
          p.radius ≤ p.y ∧ p.y ≤ gameHeight - p.radius) ∨ (axis.x ≠ 0 ∨ axis.y ≠ 0) →
      p.radius ≤ (p.updateMovement axis deltaTime gameWidth gameHeight).x ∧
      (p.updateMovement axis deltaTime gameWidth gameHeight).x ≤ gameWidth - p.radius ∧
      p.radius ≤ (p.updateMovement axis deltaTime gameWidth gameHeight).y ∧
      (p.updateMovement axis deltaTime gameWidth gameHeight).y ≤ gameHeight - p.radius) := by
  obtain ⟨i1, i2, i3, i4⟩ := Player.updateInvincibility_position p deltaTime
  refine ⟨fun hok => ?_, fun q shots hu => ?_,
    fun axis h => (Player.updateMovement_bounds p axis deltaTime gameWidth gameHeight hw hh).2 h⟩
  · simp only [Player.update, hactive, Bool.false_eq_true, if_false]
    apply Player.updateAttack_ok
    rcases hok with h | h | h
    · exact Or.inl h
    · exact Or.inr (Or.inl h)
    · refine Or.inr (Or.inr ?_)
      rw [Player.updateMovement_eq]
      split_ifs <;> (show 0 < (p.updateInvincibility deltaTime).attackTimer - deltaTime) <;>
        rw [i4] <;> exact h
  · simp only [Player.update, hactive, Bool.false_eq_true, if_false] at hu
    obtain ⟨a1, a2, a3⟩ := Player.updateAttack_position _ _ _ _ _ _ _ hu
    obtain ⟨b1, b2⟩ := Player.updateMovement_bounds (p.updateInvincibility deltaTime)
      (InputSystem.getAxis m.sqrt input) deltaTime gameWidth gameHeight
      (by rw [i3]; exact hw) (by rw [i3]; exact hh)
    rw [i1, i2, i3] at b2
    rw [i3] at b1
    rw [a1, a2, a3, b1]
    exact ⟨rfl, b2⟩

/-- Witness of C11: the Active player at (240, 650) in a field of 480 by 800, with the right key
pressed for 10 seconds, ends at the right border x = 465. -/
theorem update_keeps_bounds_witness :
    (contactPlayerAt 500 0 0).isEntering = false ∧
    2 * (contactPlayerAt 500 0 0).radius ≤ (480 : ℚ) ∧
    2 * (contactPlayerAt 500 0 0).radius ≤ (800 : ℚ) ∧
    ((contactPlayerAt 500 0 0).updateMovement { x := 1, y := 0 } 10 480 800).x = 465 ∧
    ((contactPlayerAt 500 0 0).updateMovement { x := 1, y := 0 } 10 480 800).y = 650 ∧
    ∃ q shots, (contactPlayerAt 500 0 0).update Impl.bundled ratOps 10
        { Keys.released with d := true } 480 800 none = Except.ok (q, shots) := by
  have h1 : (contactPlayerAt 500 0 0).isEntering = false := rfl
  have h2 : 2 * (contactPlayerAt 500 0 0).radius ≤ (480 : ℚ) := by
    norm_num [contactPlayerAt, Player.new]
  have h3 : 2 * (contactPlayerAt 500 0 0).radius ≤ (800 : ℚ) := by
    norm_num [contactPlayerAt, Player.new]
  refine ⟨h1, h2, h3, ?_, ?_,
    (update_keeps_bounds Impl.bundled ratOps (contactPlayerAt 500 0 0) 10
      { Keys.released with d := true } 480 800 none h1 h2 h3).1 (Or.inl rfl)⟩
  · rw [Player.updateMovement_eq]
    norm_num [contactPlayerAt, Player.new]
  · rw [Player.updateMovement_eq]
    norm_num [contactPlayerAt, Player.new]

/-- `Player.shoot` as a map over the shot indices 0, …, projectileCount − 1. -/
theorem Player.shoot_eq (m : MathOps α) (p : Player α) (target : Enemy α) :
    p.shoot m target =
      (List.range p.projectileCount).map (fun (i : ℕ) =>
        ({ x := p.x
           y := p.y
           tx := p.x + m.cos (m.atan2 (target.y - p.y) (target.x - p.x) +
              (if p.projectileCount > 1 then ((i : α) - ((p.projectileCount : α) - 1) / 2) * 0.2
                else 0)) * 100
           ty := p.y + m.sin (m.atan2 (target.y - p.y) (target.x - p.x) +
              (if p.projectileCount > 1 then ((i : α) - ((p.projectileCount : α) - 1) / 2) * 0.2
                else 0)) * 100
           isPlayer := true
           damage := p.damage } : SpawnRequest α)) := by
  have h : ∀ l : List ℕ, (l >>= fun (a : ℕ) => (pure (Nat.cast a : α) : List α)) =
      l.map (fun (a : ℕ) => (Nat.cast a : α)) := by
    intro l
    induction l with
    | nil => rfl
    | cons a l ih =>
      simp only [List.bind_eq_flatMap, List.pure_def, List.flatMap_cons, List.map_cons] at ih ⊢
      rw [ih]
      rfl
  simp only [Player.shoot, h, List.map_map]
  rfl

/-- The number of callback calls of `Player.shoot` is projectileCount. -/
theorem Player.shoot_length (m : MathOps α) (p : Player α) (target : Enemy α) :
    (p.shoot m target).length = p.projectileCount := by
  rw [Player.shoot_eq, List.length_map, List.length_range]

/-- The attack logic in closed form, with t = attackTimer − deltaTime: when t ≤ 0 and a nearest
enemy is supplied, the bundled implementation fires and sets attackTimer to attackSpeed, and the
modular implementation throws; otherwise attackTimer becomes t and nothing is fired. -/
theorem Player.updateAttack_eq (impl : Impl) (m : MathOps α) (p : Player α) (deltaTime : α)
    (nearestEnemy : Option (Enemy α)) :
    p.updateAttack impl m deltaTime nearestEnemy =
      match nearestEnemy with
      | some target =>
        if p.attackTimer - deltaTime ≤ 0 then
          match impl with
          | Impl.bundled =>
            Except.ok ({ p with attackTimer := p.attackSpeed },
              ({ p with attackTimer := p.attackTimer - deltaTime } : Player α).shoot m target)
          | Impl.modular => Except.error "TypeError: this.shoot is not a function"
        else Except.ok ({ p with attackTimer := p.attackTimer - deltaTime }, [])
      | none => Except.ok ({ p with attackTimer := p.attackTimer - deltaTime }, []) := by
  unfold Player.updateAttack
  cases nearestEnemy with
  | none => rfl
  | some target =>
    cases impl <;> rfl

/-- C12, the defect. An Active player whose attackTimer is 0, updated for 1/60 s with a nearest
enemy supplied: the modular `Player.update` throws a TypeError, because the class of
src/src/entities/player.js has no method shoot, where the claim says that it fires; the bundled
`Player.update` on the same input fires one shot and sets attackTimer to attackSpeed = 1/2. With no
nearest enemy both return normally, fire nothing and leave attackTimer at −1/60. -/
theorem update_attack_modular_throws :
    (contactPlayerAt 500 0 0).isEntering = false ∧
    (contactPlayerAt 500 0 0).attackTimer - 1 / 60 ≤ 0 ∧
    (contactPlayerAt 500 0 0).update Impl.modular ratOps (1 / 60) Keys.released 480 800
        (some (Enemy.new 240 100)) =
      Except.error "TypeError: this.shoot is not a function" ∧
    (∃ q shots, (contactPlayerAt 500 0 0).update Impl.bundled ratOps (1 / 60) Keys.released 480 800
        (some (Enemy.new 240 100)) = Except.ok (q, shots) ∧
      shots.length = 1 ∧ q.attackTimer = 1 / 2) ∧
    (contactPlayerAt 500 0 0).update Impl.modular ratOps (1 / 60) Keys.released 480 800 none =
      Except.ok (contactPlayerAt 500 0 (-(1 / 60)), []) ∧
    (contactPlayerAt 500 0 0).update Impl.bundled ratOps (1 / 60) Keys.released 480 800 none =
      Except.ok (contactPlayerAt 500 0 (-(1 / 60)), []) := by
  have hE : (contactPlayerAt 500 0 0).isEntering = false := rfl
  have hi : (contactPlayerAt 500 0 0).updateInvincibility (1 / 60) = contactPlayerAt 500 0 0 := by
    simp [Player.updateInvincibility, contactPlayerAt]
  have hstep : ∀ impl ne, (contactPlayerAt 500 0 0).update impl ratOps (1 / 60) Keys.released
      480 800 ne = (contactPlayerAt 500 0 0).updateAttack impl ratOps (1 / 60) ne := by
    intro impl ne
    simp only [Player.update, hE, Bool.false_eq_true, if_false, hi,
      InputSystem.getAxis_released, Player.updateMovement_zero]
    rfl
  have ht : (contactPlayerAt 500 0 0).attackTimer - 1 / 60 ≤ 0 := by
    norm_num [contactPlayerAt]
  refine ⟨hE, ht, ?_, ?_, ?_, ?_⟩
  · rw [hstep, Player.updateAttack_eq]
    simp only [ht, if_true]
  · refine ⟨{ contactPlayerAt 500 0 0 with attackTimer := (contactPlayerAt 500 0 0).attackSpeed },
      ({ contactPlayerAt 500 0 0 with
          attackTimer := (contactPlayerAt 500 0 0).attackTimer - 1 / 60 } : Player ℚ).shoot ratOps
        (Enemy.new 240 100), ?_, ?_, ?_⟩
    · rw [hstep, Player.updateAttack_eq]
      simp only [ht, if_true]
    · rw [Player.shoot_length]; rfl
    · norm_num [contactPlayerAt, Player.new]
  · rw [hstep, Player.updateAttack_eq]
    simp only [contactPlayerAt]
    norm_num
  · rw [hstep, Player.updateAttack_eq]
    simp only [contactPlayerAt]
    norm_num

/-! ### Player.shoot -/

/-- `Player.shoot` in terms of `finalAngle`: shot i aims 100 units along the angle `finalAngle i`. -/
theorem Player.shoot_eq_finalAngle (m : MathOps α) (p : Player α) (target : Enemy α) :
    p.shoot m target =
      (List.range p.projectileCount).map (fun (i : ℕ) =>
        ({ x := p.x
           y := p.y
           tx := p.x + m.cos (p.finalAngle m target i) * 100
           ty := p.y + m.sin (p.finalAngle m target i) * 100
           isPlayer := true
           damage := p.damage } : SpawnRequest α)) := by
  rw [Player.shoot_eq]
  rfl

/-- For a shot index below projectileCount the offset is (i − (n − 1)/2) · 0.2, also when n = 1. -/
theorem Player.angleOffset_eq (p : Player α) (i : ℕ) (hi : i < p.projectileCount) :
    p.angleOffset i = ((i : α) - ((p.projectileCount : α) - 1) / 2) * 0.2 := by
  unfold Player.angleOffset
  by_cases h : p.projectileCount > 1
  · simp only [h, if_true]
  · have hn : p.projectileCount = 1 := by omega
    have hi0 : i = 0 := by omega
    simp only [h, if_false, hn, hi0]
    norm_num

/-- The offsets are symmetric about 0. -/
theorem Player.angleOffset_symm (p : Player α) (i : ℕ) (hi : i < p.projectileCount) :
    p.angleOffset i = - p.angleOffset (p.projectileCount - 1 - i) := by
  rw [Player.angleOffset_eq p i hi, Player.angleOffset_eq p _ (by omega)]
  have hc : ((p.projectileCount - 1 - i : ℕ) : α) = (p.projectileCount : α) - 1 - (i : α) := by
    rw [Nat.cast_sub (by omega), Nat.cast_sub (by omega)]
    norm_num
  rw [hc]
  ring

/-- C13. `Player.shoot` with projectileCount = n calls the callback exactly n times, for
i = 0, …, n − 1 in order, each with origin (x, y), isPlayerOwned = true, damage = player.damage
and the aim point (x + 100 cos θ_i, y + 100 sin θ_i), where θ_i is the angle to the target plus
(i − (n − 1)/2) · 0.2; the offsets are symmetric about the direct angle, and when cos and sin
satisfy cos² + sin² = 1 every aim point is at distance exactly 100 from the player and differs from
the origin. -/
theorem shoot_spec (m : MathOps α) (p : Player α) (target : Enemy α)
    (htrig : ∀ θ : α, m.cos θ ^ 2 + m.sin θ ^ 2 = 1) :
    p.shoot m target =
      (List.range p.projectileCount).map (fun (i : ℕ) =>
        ({ x := p.x
           y := p.y
           tx := p.x + 100 * m.cos (m.atan2 (target.y - p.y) (target.x - p.x) +
              ((i : α) - ((p.projectileCount : α) - 1) / 2) * 0.2)
           ty := p.y + 100 * m.sin (m.atan2 (target.y - p.y) (target.x - p.x) +
              ((i : α) - ((p.projectileCount : α) - 1) / 2) * 0.2)
           isPlayer := true
           damage := p.damage } : SpawnRequest α)) ∧
    (p.shoot m target).length = p.projectileCount ∧
    (∀ i : ℕ, i < p.projectileCount →
      p.angleOffset i = ((i : α) - ((p.projectileCount : α) - 1) / 2) * 0.2 ∧
      p.angleOffset i = - p.angleOffset (p.projectileCount - 1 - i)) ∧
    (∀ r ∈ p.shoot m target,
      (r.tx - r.x) ^ 2 + (r.ty - r.y) ^ 2 = 100 ^ 2 ∧ (r.tx, r.ty) ≠ (r.x, r.y)) := by
  refine ⟨?_, Player.shoot_length m p target,
    fun i hi => ⟨Player.angleOffset_eq p i hi, Player.angleOffset_symm p i hi⟩, ?_⟩
  · rw [Player.shoot_eq_finalAngle]
    apply List.map_congr_left
    intro i hi
    have hi2 : i < p.projectileCount := List.mem_range.mp hi
    simp only [Player.finalAngle, Player.angleOffset_eq p i hi2, mul_comm (100 : α)]
  · intro r hr
    rw [Player.shoot_eq_finalAngle] at hr
    obtain ⟨i, -, rfl⟩ := List.mem_map.mp hr
    have hd : (p.x + m.cos (p.finalAngle m target i) * 100 - p.x) ^ 2 +
        (p.y + m.sin (p.finalAngle m target i) * 100 - p.y) ^ 2 = 100 ^ 2 := by
      have := htrig (p.finalAngle m target i)
      linear_combination 100 ^ 2 * this
    refine ⟨hd, fun heq => ?_⟩
    simp only [Prod.mk.injEq] at heq
    simp only [heq.1, heq.2, sub_self] at hd
    norm_num at hd

/-- Witness of C13: the player with three projectiles and the real cosine and sine. -/
theorem shoot_spec_witness :
    (∀ θ : ℝ, Real.cos θ ^ 2 + Real.sin θ ^ 2 = 1) ∧
    (({ Player.new (240 : ℝ) 650 false 800 with projectileCount := 3 } : Player ℝ).shoot
        (MathOps.mk Real.sqrt (fun y x => Complex.arg ⟨x, y⟩) Real.cos Real.sin)
        (Enemy.new 240 100)).length = 3 ∧
    ∀ r ∈ ({ Player.new (240 : ℝ) 650 false 800 with projectileCount := 3 } : Player ℝ).shoot
        (MathOps.mk Real.sqrt (fun y x => Complex.arg ⟨x, y⟩) Real.cos Real.sin)
        (Enemy.new 240 100),
      (r.tx - r.x) ^ 2 + (r.ty - r.y) ^ 2 = 100 ^ 2 ∧ (r.tx, r.ty) ≠ (r.x, r.y) :=
  ⟨Real.cos_sq_add_sin_sq,
    (shoot_spec (MathOps.mk Real.sqrt (fun y x => Complex.arg ⟨x, y⟩) Real.cos Real.sin)
      { Player.new (240 : ℝ) 650 false 800 with projectileCount := 3 } (Enemy.new 240 100)
      Real.cos_sq_add_sin_sq).2.1,
    (shoot_spec (MathOps.mk Real.sqrt (fun y x => Complex.arg ⟨x, y⟩) Real.cos Real.sin)
      { Player.new (240 : ℝ) 650 false 800 with projectileCount := 3 } (Enemy.new 240 100)
      Real.cos_sq_add_sin_sq).2.2.2⟩

/-- C14, as amended. For projectileCount n > 1 the shots of one `Player.shoot` call are 0.2 rad
apart: shot i aims along the direct angle plus `angleOffset i`, adjacent offsets differ by 0.2,
the offset of the last shot minus that of the first is 0.2 · (n − 1), which is 0.2 only for n = 2,
and the offsets are centred on 0. -/
theorem shoot_fan_span (m : MathOps α) (p : Player α) (target : Enemy α)
    (hn : p.projectileCount > 1) :
    p.shoot m target =
      (List.range p.projectileCount).map (fun (i : ℕ) =>
        ({ x := p.x
           y := p.y
           tx := p.x + m.cos (m.atan2 (target.y - p.y) (target.x - p.x) + p.angleOffset i) * 100
           ty := p.y + m.sin (m.atan2 (target.y - p.y) (target.x - p.x) + p.angleOffset i) * 100
           isPlayer := true
           damage := p.damage } : SpawnRequest α)) ∧
    (∀ i : ℕ, p.angleOffset (i + 1) - p.angleOffset i = 0.2) ∧
    p.angleOffset (p.projectileCount - 1) - p.angleOffset 0 =
      0.2 * ((p.projectileCount : α) - 1) ∧
    (p.angleOffset (p.projectileCount - 1) - p.angleOffset 0 = 0.2 ↔ p.projectileCount = 2) ∧
    (∀ i : ℕ, i < p.projectileCount →
      p.angleOffset i + p.angleOffset (p.projectileCount - 1 - i) = 0) := by
  have hspan : p.angleOffset (p.projectileCount - 1) - p.angleOffset 0 =
      0.2 * ((p.projectileCount : α) - 1) := by
    simp only [Player.angleOffset, hn, if_true]
    rw [Nat.cast_sub (by omega)]
    push_cast
    ring
  refine ⟨Player.shoot_eq_finalAngle m p target, fun i => ?_, hspan, ?_, fun i hi => ?_⟩
  · simp only [Player.angleOffset, hn, if_true]
    push_cast
    ring
  · rw [hspan]
    constructor
    · intro h
      have h2 : ((p.projectileCount : α) - 1) = 1 := by
        have h02 : (0.2 : α) ≠ 0 := by norm_num
        have : (0.2 : α) * ((p.projectileCount : α) - 1) = 0.2 * 1 := by rw [h, mul_one]
        exact mul_left_cancel₀ h02 this
      have h3 : (p.projectileCount : α) = ((2 : ℕ) : α) := by
        push_cast
        linarith
      exact Nat.cast_injective h3
    · intro h
      rw [h]
      norm_num
  · rw [Player.angleOffset_symm p i hi]
    ring

/-- C14, the claim as stated fails. With three projectiles the offsets are −0.2, 0 and 0.2: the
angle between the first and the last shot is 0.4, not 0.2. -/
theorem shoot_fan_span_counterexample :
    (multishotPlayer 3).projectileCount > 1 ∧
    (multishotPlayer 3).angleOffset 0 = -(1 / 5) ∧ (multishotPlayer 3).angleOffset 1 = 0 ∧
    (multishotPlayer 3).angleOffset 2 = 1 / 5 ∧
    (multishotPlayer 3).angleOffset 2 - (multishotPlayer 3).angleOffset 0 = 2 / 5 ∧
    (multishotPlayer 3).angleOffset 2 - (multishotPlayer 3).angleOffset 0 ≠ 0.2 := by
  simp only [Player.angleOffset, multishotPlayer]
  norm_num

/-- Witness of C14 as amended: three projectiles, the total span is 0.2 · 2. -/
theorem shoot_fan_span_witness :
    (multishotPlayer 3).projectileCount > 1 ∧
    (multishotPlayer 3).angleOffset ((multishotPlayer 3).projectileCount - 1) -
        (multishotPlayer 3).angleOffset 0 =
      0.2 * (((multishotPlayer 3).projectileCount : ℚ) - 1) :=
  ⟨by simp [multishotPlayer],
    (shoot_fan_span ratOps (multishotPlayer 3) (Enemy.new 240 100)
      (by simp [multishotPlayer])).2.2.1⟩

/-! ### Enemy.update and Enemy.takeDamage -/

/-- `Enemy.update` in closed form. -/
theorem Enemy.update_eq (sqrt : α → α) (e : Enemy α) (deltaTime : α) (player : Player α) :
    e.update sqrt deltaTime player =
      if e.distance sqrt player > 0 then
        { e with
          x := e.x + ((player.x - e.x) / e.distance sqrt player) * e.speed * deltaTime
          y := e.y + ((player.y - e.y) / e.distance sqrt player) * e.speed * deltaTime }
      else e := by
  simp only [Enemy.update, Enemy.distance]

/-- `Enemy.update` in exact arithmetic over the reals, with d the distance to the player: when
d > 0 the enemy moves by speed · deltaTime along the unit vector (dx/d, dy/d) towards the player,
and its new distance to the player is |d − speed · deltaTime|; when d = 0 (the only other case)
the position is unchanged; hp, markedForDeletion and the other fields never change. -/
theorem Enemy.update_pursuit (e : Enemy ℝ) (deltaTime : ℝ) (player : Player ℝ) :
    (0 < e.distance Real.sqrt player →
      (e.update Real.sqrt deltaTime player).x =
        e.x + (player.x - e.x) / e.distance Real.sqrt player * (e.speed * deltaTime) ∧
      (e.update Real.sqrt deltaTime player).y =
        e.y + (player.y - e.y) / e.distance Real.sqrt player * (e.speed * deltaTime) ∧
      ((player.x - e.x) / e.distance Real.sqrt player) ^ 2 +
        ((player.y - e.y) / e.distance Real.sqrt player) ^ 2 = 1 ∧
      (e.update Real.sqrt deltaTime player).distance Real.sqrt player =
        |e.distance Real.sqrt player - e.speed * deltaTime|) ∧
    (e.distance Real.sqrt player = 0 →
      (e.update Real.sqrt deltaTime player).x = e.x ∧
      (e.update Real.sqrt deltaTime player).y = e.y) ∧
    (0 < e.distance Real.sqrt player ∨ e.distance Real.sqrt player = 0) ∧
    (e.distance Real.sqrt player = 0 ↔ e.x = player.x ∧ e.y = player.y) ∧
    (e.update Real.sqrt deltaTime player).hp = e.hp ∧
    (e.update Real.sqrt deltaTime player).markedForDeletion = e.markedForDeletion ∧
    (e.update Real.sqrt deltaTime player).maxHp = e.maxHp ∧
    (e.update Real.sqrt deltaTime player).speed = e.speed ∧
    (e.update Real.sqrt deltaTime player).width = e.width ∧
    (e.update Real.sqrt deltaTime player).height = e.height := by
  have hnn : 0 ≤ (player.x - e.x) * (player.x - e.x) + (player.y - e.y) * (player.y - e.y) := by
    nlinarith [mul_self_nonneg (player.x - e.x), mul_self_nonneg (player.y - e.y)]
  have hd : e.distance Real.sqrt player =
      Real.sqrt ((player.x - e.x) * (player.x - e.x) + (player.y - e.y) * (player.y - e.y)) := rfl
  have hsq : e.distance Real.sqrt player ^ 2 =
      (player.x - e.x) * (player.x - e.x) + (player.y - e.y) * (player.y - e.y) := by
    rw [hd, Real.sq_sqrt hnn]
  have hge : 0 ≤ e.distance Real.sqrt player := by rw [hd]; exact Real.sqrt_nonneg _
  refine ⟨fun hpos => ?_, fun h0 => ?_, ?_, ?_, ?_, ?_, ?_, ?_, ?_, ?_⟩
  · have hne : e.distance Real.sqrt player ≠ 0 := ne_of_gt hpos
    have hx : (e.update Real.sqrt deltaTime player).x =
        e.x + (player.x - e.x) / e.distance Real.sqrt player * (e.speed * deltaTime) := by
      rw [Enemy.update_eq, if_pos hpos]
      show e.x + (player.x - e.x) / e.distance Real.sqrt player * e.speed * deltaTime = _
      ring
    have hy : (e.update Real.sqrt deltaTime player).y =
        e.y + (player.y - e.y) / e.distance Real.sqrt player * (e.speed * deltaTime) := by
      rw [Enemy.update_eq, if_pos hpos]
      show e.y + (player.y - e.y) / e.distance Real.sqrt player * e.speed * deltaTime = _
      ring
    have hunit : ((player.x - e.x) / e.distance Real.sqrt player) ^ 2 +
        ((player.y - e.y) / e.distance Real.sqrt player) ^ 2 = 1 := by
      rw [div_pow, div_pow, ← add_div, hsq, div_eq_one_iff_eq (by rw [← hsq]; positivity)]
      ring
    refine ⟨hx, hy, hunit, ?_⟩
    have hnew : (e.update Real.sqrt deltaTime player).distance Real.sqrt player =
        Real.sqrt ((e.distance Real.sqrt player - e.speed * deltaTime) ^ 2) := by
      show Real.sqrt ((player.x - (e.update Real.sqrt deltaTime player).x) *
          (player.x - (e.update Real.sqrt deltaTime player).x) +
          (player.y - (e.update Real.sqrt deltaTime player).y) *
          (player.y - (e.update Real.sqrt deltaTime player).y)) = _
      rw [hx, hy]
      congr 1
      have e1 : player.x - (e.x + (player.x - e.x) / e.distance Real.sqrt player *
          (e.speed * deltaTime)) =
          (player.x - e.x) / e.distance Real.sqrt player *
            (e.distance Real.sqrt player - e.speed * deltaTime) := by
        field_simp
        ring
      have e2 : player.y - (e.y + (player.y - e.y) / e.distance Real.sqrt player *
          (e.speed * deltaTime)) =
          (player.y - e.y) / e.distance Real.sqrt player *
            (e.distance Real.sqrt player - e.speed * deltaTime) := by
        field_simp
        ring
      rw [e1, e2]
      linear_combination (e.distance Real.sqrt player - e.speed * deltaTime) ^ 2 * hunit
    rw [hnew, Real.sqrt_sq_eq_abs]
  · rw [Enemy.update_eq, if_neg (by rw [h0]; exact lt_irrefl _)]
    exact ⟨rfl, rfl⟩
  · rcases hge.lt_or_eq with h | h
    · exact Or.inl h
    · exact Or.inr h.symm
  · rw [hd, Real.sqrt_eq_zero hnn]
    constructor
    · intro h
      have h1 : (player.x - e.x) * (player.x - e.x) = 0 := by
        nlinarith [mul_self_nonneg (player.x - e.x), mul_self_nonneg (player.y - e.y)]
      have h2 : (player.y - e.y) * (player.y - e.y) = 0 := by
        nlinarith [mul_self_nonneg (player.x - e.x), mul_self_nonneg (player.y - e.y)]
      have h3 := mul_self_eq_zero.mp h1
      have h4 := mul_self_eq_zero.mp h2
      exact ⟨by linarith, by linarith⟩
    · rintro ⟨h1, h2⟩
      rw [h1, h2]
      ring
  all_goals (rw [Enemy.update_eq]; split_ifs <;> rfl)

/-- In exact arithmetic, an enemy at (0, 0) with speed 80 and the player at (3, 4), at distance
5: after 1/80 s the enemy has moved by 1 to (3/5, 4/5) and is at distance 4. -/
theorem Enemy.update_pursuit_example :
    Enemy.distance Real.sqrt (Enemy.new 0 0) (Player.new 3 4 false 800) = 5 ∧
    ((Enemy.new (0 : ℝ) 0).update Real.sqrt (1 / 80) (Player.new 3 4 false 800)).x = 3 / 5 ∧
    ((Enemy.new (0 : ℝ) 0).update Real.sqrt (1 / 80) (Player.new 3 4 false 800)).y = 4 / 5 ∧
    Enemy.distance Real.sqrt
      ((Enemy.new (0 : ℝ) 0).update Real.sqrt (1 / 80) (Player.new 3 4 false 800))
      (Player.new 3 4 false 800) = 4 := by
  have hd : Enemy.distance Real.sqrt (Enemy.new 0 0) (Player.new 3 4 false 800) = 5 := by
    show Real.sqrt ((3 - 0) * (3 - 0) + (4 - 0) * (4 - 0)) = 5
    rw [show ((3 : ℝ) - 0) * (3 - 0) + (4 - 0) * (4 - 0) = 5 ^ 2 by norm_num]
    exact Real.sqrt_sq (by norm_num)
  obtain ⟨h1, h2, -, h4⟩ := (Enemy.update_pursuit (Enemy.new 0 0) (1 / 80)
    (Player.new 3 4 false 800)).1 (by rw [hd]; norm_num)
  rw [hd] at h1 h2 h4
  refine ⟨hd, ?_, ?_, ?_⟩
  · rw [h1]; norm_num [Enemy.new, Player.new]
  · rw [h2]; norm_num [Enemy.new, Player.new]
  · rw [h4]; norm_num [Enemy.new, abs_of_pos]

/-- C16. `Enemy.takeDamage(amount)` sets hp to hp − amount and markedForDeletion to the old flag
or (new hp ≤ 0), so it never clears the flag; a fresh enemy (hp 30) hit three times by 10 is
unmarked after the first hit (hp 20) and the second (hp 10) and marked at the third (hp 0). -/
theorem enemy_takeDamage_spec (e : Enemy α) (amount x y : α) :
    e.takeDamage amount =
      { e with hp := e.hp - amount
               markedForDeletion := e.markedForDeletion || decide (e.hp - amount ≤ 0) } ∧
    (e.markedForDeletion = true → (e.takeDamage amount).markedForDeletion = true) ∧
    (Enemy.new x y).markedForDeletion = false ∧
    ((Enemy.new x y).takeDamage 10).hp = 20 ∧
    ((Enemy.new x y).takeDamage 10).markedForDeletion = false ∧
    (((Enemy.new x y).takeDamage 10).takeDamage 10).hp = 10 ∧
    (((Enemy.new x y).takeDamage 10).takeDamage 10).markedForDeletion = false ∧
    ((((Enemy.new x y).takeDamage 10).takeDamage 10).takeDamage 10).hp = 0 ∧
    ((((Enemy.new x y).takeDamage 10).takeDamage 10).takeDamage 10).markedForDeletion = true := by
  have key : ∀ (e : Enemy α) (amount : α), e.takeDamage amount =
      { e with hp := e.hp - amount
               markedForDeletion := e.markedForDeletion || decide (e.hp - amount ≤ 0) } := by
    intro e amount
    simp only [Enemy.takeDamage]
    by_cases h : e.hp - amount ≤ 0
    · simp [h]
    · simp [h]
  refine ⟨key e amount, fun h => by rw [key]; simp [h], rfl, ?_, ?_, ?_, ?_, ?_, ?_⟩ <;>
    simp only [key, Enemy.new] <;> norm_num

/-! ### Projectile -/

/-- Both variants of `Projectile.update` move the projectile and may set markedForDeletion; they
change nothing else. -/
theorem Projectile.update_fields (impl : Impl) (p : Projectile α)
    (deltaTime gameWidth gameHeight : α) :
    (p.update impl deltaTime gameWidth gameHeight).x = (p.move deltaTime).x ∧
    (p.update impl deltaTime gameWidth gameHeight).y = (p.move deltaTime).y ∧
    (p.update impl deltaTime gameWidth gameHeight).vx = p.vx ∧
    (p.update impl deltaTime gameWidth gameHeight).vy = p.vy ∧
    (p.update impl deltaTime gameWidth gameHeight).damage = p.damage ∧
    (p.update impl deltaTime gameWidth gameHeight).isPlayerProjectile = p.isPlayerProjectile ∧
    (p.update impl deltaTime gameWidth gameHeight).speed = p.speed ∧
    (p.update impl deltaTime gameWidth gameHeight).radius = p.radius := by
  cases impl
  · simp only [Projectile.update, Projectile.update2D]
    split_ifs <;> exact ⟨rfl, rfl, rfl, rfl, rfl, rfl, rfl, rfl⟩
  · simp only [Projectile.update, Projectile.update3D]
    split_ifs <;> exact ⟨rfl, rfl, rfl, rfl, rfl, rfl, rfl, rfl⟩

/-- The velocity of a new projectile is NaN when `Math.sqrt` returns 0 for the squared distance to
the target. -/
theorem Projectile.new_nan (sqrt : α → α) (x y targetX targetY : α) (isPlayerProjectile : Bool)
    (h : sqrt ((targetX - x) * (targetX - x) + (targetY - y) * (targetY - y)) = 0) :
    (Projectile.new sqrt x y targetX targetY isPlayerProjectile).vx = none ∧
    (Projectile.new sqrt x y targetX targetY isPlayerProjectile).vy = none := by
  simp [Projectile.new, jsDiv, h]

/-- A projectile with NaN velocity has a NaN position after an update, is not marked for deletion
by the update and collides with no enemy. -/
theorem Projectile.update_nan (impl : Impl) (p : Projectile α)
    (deltaTime gameWidth gameHeight : α) (hx : p.vx = none) (hy : p.vy = none) :
    (p.update impl deltaTime gameWidth gameHeight).x = none ∧
    (p.update impl deltaTime gameWidth gameHeight).y = none ∧
    (p.update impl deltaTime gameWidth gameHeight).markedForDeletion = p.markedForDeletion ∧
    ∀ enemy : Enemy α,
      (p.update impl deltaTime gameWidth gameHeight).checkCollision enemy = false := by
  have hmx : (p.move deltaTime).x = none := by
    simp only [Projectile.move, hx]
    cases p.x <;> rfl
  have hmy : (p.move deltaTime).y = none := by
    simp only [Projectile.move, hy]
    cases p.y <;> rfl
  have hmm : (p.move deltaTime).markedForDeletion = p.markedForDeletion := rfl
  obtain ⟨f1, f2, -⟩ := Projectile.update_fields impl p deltaTime gameWidth gameHeight
  refine ⟨f1.trans hmx, f2.trans hmy, ?_, fun enemy => ?_⟩
  · cases impl
    · simp only [Projectile.update, Projectile.update2D, hmx, hmy, jsLt, jsGt, Bool.or_self,
        Bool.false_eq_true, if_false, hmm]
    · simp only [Projectile.update, Projectile.update3D, hmx, hmy, jsLt, jsGt, Bool.or_self,
        Bool.false_eq_true, if_false, hmm]
  · simp only [Projectile.checkCollision, f1.trans hmx]

/-- C17, the defect. A projectile constructed with its target equal to its origin divides 0 by the
distance 0: over the reals, for every origin, its velocity is NaN in both components, not (0, 0);
after any update of either implementation its position is NaN, it is not marked for deletion and
it collides with no enemy. The same is computed over the rationals at the origin (240, 650). -/
theorem projectile_zero_distance_nan (x y : ℝ) (isPlayerProjectile : Bool) :
    (Projectile.new Real.sqrt x y x y isPlayerProjectile).vx = none ∧
    (Projectile.new Real.sqrt x y x y isPlayerProjectile).vy = none ∧
    (Projectile.new Real.sqrt x y x y isPlayerProjectile).vx ≠ some 0 ∧
    (∀ (impl : Impl) (deltaTime gameWidth gameHeight : ℝ),
      ((Projectile.new Real.sqrt x y x y isPlayerProjectile).update impl deltaTime gameWidth
        gameHeight).x = none ∧
      ((Projectile.new Real.sqrt x y x y isPlayerProjectile).update impl deltaTime gameWidth
        gameHeight).y = none ∧
      ((Projectile.new Real.sqrt x y x y isPlayerProjectile).update impl deltaTime gameWidth
        gameHeight).markedForDeletion = false ∧
      ∀ enemy : Enemy ℝ,
        ((Projectile.new Real.sqrt x y x y isPlayerProjectile).update impl deltaTime gameWidth
          gameHeight).checkCollision enemy = false) ∧
    (Projectile.new ratOps.sqrt 240 650 240 650 true).vx = none ∧
    (Projectile.new ratOps.sqrt 240 650 240 650 true).vy = none ∧
    ((Projectile.new ratOps.sqrt 240 650 240 650 true).update Impl.modular (1 / 60) 480 800).x =
      none := by
  have h0 : Real.sqrt ((x - x) * (x - x) + (y - y) * (y - y)) = 0 := by
    rw [sub_self, sub_self]; norm_num
  have hq : ratOps.sqrt (((240 : ℚ) - 240) * (240 - 240) + (650 - 650) * (650 - 650)) = 0 := by
    rw [sub_self, sub_self]; norm_num [ratOps_sqrt_zero]
  obtain ⟨h1, h2⟩ := Projectile.new_nan Real.sqrt x y x y isPlayerProjectile h0
  obtain ⟨q1, q2⟩ := Projectile.new_nan ratOps.sqrt 240 650 240 650 true hq
  refine ⟨h1, h2, by rw [h1]; exact fun h => Option.noConfusion h, fun impl dt gw gh => ?_, q1, q2,
    (Projectile.update_nan Impl.modular _ (1 / 60) 480 800 q1 q2).1⟩
  obtain ⟨u1, u2, u3, u4⟩ := Projectile.update_nan impl
    (Projectile.new Real.sqrt x y x y isPlayerProjectile) dt gw gh h1 h2
  exact ⟨u1, u2, u3, u4⟩

/-- In exact arithmetic over the reals, a projectile constructed at (x, y) towards a different
target has the velocity k · (targetX − x, targetY − y) for some k > 0, with vx² + vy² = 400²; and
every `Projectile.update`, of either implementation and on any projectile, keeps vx, vy, damage
and isPlayerProjectile and moves a defined position by exactly (vx · deltaTime, vy · deltaTime). -/
theorem Projectile.new_velocity (x y targetX targetY : ℝ) (isPlayerProjectile : Bool)
    (h : (targetX, targetY) ≠ (x, y)) :
    (∃ k : ℝ, 0 < k ∧
      (Projectile.new Real.sqrt x y targetX targetY isPlayerProjectile).vx =
        some (k * (targetX - x)) ∧
      (Projectile.new Real.sqrt x y targetX targetY isPlayerProjectile).vy =
        some (k * (targetY - y)) ∧
      (k * (targetX - x)) ^ 2 + (k * (targetY - y)) ^ 2 = 400 ^ 2) ∧
    (∀ (p : Projectile ℝ) (impl : Impl) (deltaTime gameWidth gameHeight : ℝ),
      (p.update impl deltaTime gameWidth gameHeight).vx = p.vx ∧
      (p.update impl deltaTime gameWidth gameHeight).vy = p.vy ∧
      (p.update impl deltaTime gameWidth gameHeight).damage = p.damage ∧
      (p.update impl deltaTime gameWidth gameHeight).isPlayerProjectile = p.isPlayerProjectile ∧
      (∀ px vx : ℝ, p.x = some px → p.vx = some vx →
        (p.update impl deltaTime gameWidth gameHeight).x = some (px + vx * deltaTime)) ∧
      (∀ py vy : ℝ, p.y = some py → p.vy = some vy →
        (p.update impl deltaTime gameWidth gameHeight).y = some (py + vy * deltaTime))) := by
  constructor
  · have hpos : 0 < (targetX - x) * (targetX - x) + (targetY - y) * (targetY - y) := by
      by_contra hc
      have h1 : (targetX - x) * (targetX - x) = 0 := by
        nlinarith [mul_self_nonneg (targetX - x), mul_self_nonneg (targetY - y)]
      have h2 : (targetY - y) * (targetY - y) = 0 := by
        nlinarith [mul_self_nonneg (targetX - x), mul_self_nonneg (targetY - y)]
      have h3 := mul_self_eq_zero.mp h1
      have h4 := mul_self_eq_zero.mp h2
      exact h (by rw [Prod.mk.injEq]; exact ⟨by linarith, by linarith⟩)
    have hd : 0 < Real.sqrt ((targetX - x) * (targetX - x) + (targetY - y) * (targetY - y)) :=
      Real.sqrt_pos.mpr hpos
    have hsq : Real.sqrt ((targetX - x) * (targetX - x) + (targetY - y) * (targetY - y)) ^ 2 =
        (targetX - x) * (targetX - x) + (targetY - y) * (targetY - y) := Real.sq_sqrt hpos.le
    refine ⟨400 / Real.sqrt ((targetX - x) * (targetX - x) + (targetY - y) * (targetY - y)),
      by positivity, ?_, ?_, ?_⟩
    · simp only [Projectile.new, jsDiv, hd.ne', if_false, Option.map_some']
      congr 1
      field_simp
      ring
    · simp only [Projectile.new, jsDiv, hd.ne', if_false, Option.map_some']
      congr 1
      field_simp
      ring
    · rw [mul_pow, mul_pow, ← mul_add, div_pow]
      rw [show (targetX - x) ^ 2 + (targetY - y) ^ 2 =
        (targetX - x) * (targetX - x) + (targetY - y) * (targetY - y) by ring, hsq]
      field_simp
  · intro p impl dt gw gh
    obtain ⟨f1, f2, f3, f4, f5, f6, -⟩ := Projectile.update_fields impl p dt gw gh
    refine ⟨f3, f4, f5, f6, fun px vx hx hv => ?_, fun py vy hy hv => ?_⟩
    · rw [f1]
      simp [Projectile.move, hx, hv]
    · rw [f2]
      simp [Projectile.move, hy, hv]

/-- In exact arithmetic, the projectile from (0, 0) towards (3, 4) has the velocity
(240, 320). -/
theorem Projectile.new_velocity_example :
    ((3 : ℝ), (4 : ℝ)) ≠ (0, 0) ∧
    ∃ k : ℝ, 0 < k ∧
      (Projectile.new Real.sqrt 0 0 3 4 true).vx = some (k * (3 - 0)) ∧
      (Projectile.new Real.sqrt 0 0 3 4 true).vy = some (k * (4 - 0)) ∧
      (k * (3 - 0)) ^ 2 + (k * (4 - 0)) ^ 2 = 400 ^ 2 :=
  ⟨by norm_num, (Projectile.new_velocity 0 0 3 4 true (by norm_num)).1⟩

/-! ### The nearest-enemy scan -/

/-- The invariant of the nearest-enemy scan. After the enemies `pre` the accumulator is
(null, Infinity) when `pre` is empty, and otherwise holds an enemy of `pre` with its squared
distance, which is smaller than that of every earlier enemy and at most that of every later one. -/
theorem Game.nearestEnemy_scan (player : Player α) (l : List (Enemy α)) :
    ∀ (pre : List (Enemy α)) (acc : Option (Enemy α) × Option α),
      ((acc = (none, none) ∧ pre = []) ∨
        ∃ e before after, acc = (some e, some (e.distSq player)) ∧ pre = before ++ e :: after ∧
          (∀ a ∈ before, e.distSq player < a.distSq player) ∧
          (∀ a ∈ after, e.distSq player ≤ a.distSq player)) →
      ((l.foldl
          (fun (acc : Option (Enemy α) × Option α) enemy =>
            let dx := enemy.x - player.x
            let dy := enemy.y - player.y
            let dist := dx * dx + dy * dy
            let closer : Bool :=
              match acc.2 with
              | none => true
              | some minDistance => decide (dist < minDistance)
            if closer then (some enemy, some dist) else acc)
          acc = (none, none) ∧ pre ++ l = []) ∨
        ∃ e before after,
          l.foldl
            (fun (acc : Option (Enemy α) × Option α) enemy =>
              let dx := enemy.x - player.x
              let dy := enemy.y - player.y
              let dist := dx * dx + dy * dy
              let closer : Bool :=
                match acc.2 with
                | none => true
                | some minDistance => decide (dist < minDistance)
              if closer then (some enemy, some dist) else acc)
            acc = (some e, some (e.distSq player)) ∧
          pre ++ l = before ++ e :: after ∧
          (∀ a ∈ before, e.distSq player < a.distSq player) ∧
          (∀ a ∈ after, e.distSq player ≤ a.distSq player)) := by
  induction l with
  | nil =>
    intro pre acc h
    simpa using h
  | cons x rest ih =>
    intro pre acc h
    rw [List.foldl_cons, show pre ++ x :: rest = (pre ++ [x]) ++ rest by simp]
    apply ih
    right
    rcases h with ⟨rfl, rfl⟩ | ⟨e, before, after, rfl, rfl, hb, ha⟩
    · exact ⟨x, [], [], rfl, rfl, by simp, by simp⟩
    · by_cases hlt : x.distSq player < e.distSq player
      · refine ⟨x, before ++ e :: after, [], ?_, by simp, ?_, by simp⟩
        · have : decide ((x.x - player.x) * (x.x - player.x) + (x.y - player.y) * (x.y - player.y) <
              e.distSq player) = true := decide_eq_true hlt
          simp only [this, if_true]
          rfl
        · intro a ha'
          rcases List.mem_append.mp ha' with h1 | h1
          · exact lt_trans hlt (hb a h1)
          · rcases List.mem_cons.mp h1 with rfl | h2
            · exact hlt
            · exact lt_of_lt_of_le hlt (ha a h2)
      · refine ⟨e, before, after ++ [x], ?_, by simp, hb, ?_⟩
        · have : decide ((x.x - player.x) * (x.x - player.x) + (x.y - player.y) * (x.y - player.y) <
              e.distSq player) = false := decide_eq_false hlt
          simp only [this, Bool.false_eq_true, if_false]
        · intro a ha'
          rcases List.mem_append.mp ha' with h1 | h1
          · exact ha a h1
          · rcases List.mem_singleton.mp h1 with rfl
            exact not_lt.mp hlt

/-- In exact arithmetic, the nearest-enemy scan at the start of `Game.update` yields null exactly
when the enemy list is empty; otherwise it yields an enemy of the list whose squared distance to
the player is smaller than that of every enemy before it in the list and at most that of every
enemy after it: a nearest enemy and, among equally near ones, the first in list order. -/
theorem Game.nearestEnemy_minimal (g : Game α) :
    (g.nearestEnemy = none ↔ g.enemies = []) ∧
    (∀ e, g.nearestEnemy = some e →
      ∃ before after, g.enemies = before ++ e :: after ∧
        (∀ a ∈ before, e.distSq g.player < a.distSq g.player) ∧
        (∀ a ∈ after, e.distSq g.player ≤ a.distSq g.player)) ∧
    (g.enemies ≠ [] → ∃ e, g.nearestEnemy = some e ∧ e ∈ g.enemies ∧
      ∀ a ∈ g.enemies, e.distSq g.player ≤ a.distSq g.player) := by
  have scan := Game.nearestEnemy_scan g.player g.enemies [] (none, none) (Or.inl ⟨rfl, rfl⟩)
  rw [List.nil_append] at scan
  have h1 : g.nearestEnemy = none ↔ g.enemies = [] := by
    unfold Game.nearestEnemy
    rcases scan with ⟨hacc, hnil⟩ | ⟨e, before, after, hacc, hl, -, -⟩
    · rw [hacc]; exact ⟨fun _ => hnil, fun _ => rfl⟩
    · rw [hacc, hl]; simp
  have h2 : ∀ e, g.nearestEnemy = some e →
      ∃ before after, g.enemies = before ++ e :: after ∧
        (∀ a ∈ before, e.distSq g.player < a.distSq g.player) ∧
        (∀ a ∈ after, e.distSq g.player ≤ a.distSq g.player) := by
    intro e he
    unfold Game.nearestEnemy at he
    rcases scan with ⟨hacc, hnil⟩ | ⟨e', before, after, hacc, hl, hb, ha⟩
    · rw [hacc] at he; cases he
    · rw [hacc] at he
      simp only [Option.some.injEq] at he
      subst he
      exact ⟨before, after, hl, hb, ha⟩
  refine ⟨h1, h2, fun hne => ?_⟩
  cases hn : g.nearestEnemy with
  | none => exact absurd (h1.mp hn) hne
  | some e =>
    obtain ⟨before, after, hl, hb, ha⟩ := h2 e hn
    refine ⟨e, rfl, by rw [hl]; simp, fun a hmem => ?_⟩
    rw [hl] at hmem
    rcases List.mem_append.mp hmem with h | h
    · exact le_of_lt (hb a h)
    · rcases List.mem_cons.mp h with rfl | h'
      · exact le_refl _
      · exact ha a h'

/-! ### The collision pass and XP -/

/-- The amount handed to `gainXp`, `20 + this.wave * 5`, is 20 + 5 · wave. -/
theorem Game.killXp_cast (wave : ℕ) : (((20 + wave * 5 : ℕ) : α)) = 20 + 5 * (wave : α) := by
  push_cast
  ring

/-- `Enemy.takeDamage`: the hp and the flag afterwards. -/
theorem Enemy.takeDamage_fields (e : Enemy α) (amount : α) :
    (e.takeDamage amount).hp = e.hp - amount ∧
    (e.takeDamage amount).markedForDeletion =
      (e.markedForDeletion || decide (e.hp - amount ≤ 0)) := by
  simp only [Enemy.takeDamage]
  by_cases h : e.hp - amount ≤ 0
  · simp [h]
  · simp [h]

/-- Counting newly marked enemies, one position at a time. -/
theorem Game.newlyMarked_cons (b a : Enemy α) (bs as : List (Enemy α)) :
    Game.newlyMarked (b :: bs) (a :: as) =
      Game.newlyMarked bs as +
        (if (!b.markedForDeletion && a.markedForDeletion) = true then 1 else 0) := by
  simp only [Game.newlyMarked, List.zip_cons_cons, List.countP_cons]

/-- Calls of `gainXp` compose: a + b calls are a calls followed by b calls. -/
theorem Player.gainXpTimes_add (amount : α) (a b : ℕ) (p : Player α) :
    Player.gainXpTimes amount (a + b) p =
      ((Player.gainXpTimes amount b (Player.gainXpTimes amount a p).1).1,
        (Player.gainXpTimes amount a p).2 ||
          (Player.gainXpTimes amount b (Player.gainXpTimes amount a p).1).2) := by
  induction a generalizing p with
  | zero => simp [Player.gainXpTimes]
  | succ a ih =>
    rw [Nat.add_right_comm]
    simp only [Player.gainXpTimes, ih, Bool.or_assoc]

/-- Newly marked enemies add up along two passes in which a marked enemy is never changed. -/
theorem Game.newlyMarked_trans (b m a : List (Enemy α))
    (h1 : List.Forall₂ (fun x y : Enemy α => x.markedForDeletion = true → y = x) b m)
    (h2 : List.Forall₂ (fun x y : Enemy α => x.markedForDeletion = true → y = x) m a) :
    List.Forall₂ (fun x y : Enemy α => x.markedForDeletion = true → y = x) b a ∧
    Game.newlyMarked b a = Game.newlyMarked b m + Game.newlyMarked m a := by
  induction h1 generalizing a with
  | nil =>
    cases h2
    exact ⟨List.Forall₂.nil, rfl⟩
  | @cons x y bs ms hxy hrest ih =>
    cases h2 with
    | @cons _ z _ as hyz hrest2 =>
      obtain ⟨i1, i2⟩ := ih as hrest2
      refine ⟨List.Forall₂.cons (fun hx => ?_) i1, ?_⟩
      · have := hxy hx
        rw [hyz (by rw [this]; exact hx), this]
      · rw [Game.newlyMarked_cons, Game.newlyMarked_cons, Game.newlyMarked_cons, i2]
        cases hxm : x.markedForDeletion with
        | true =>
          have e1 := hxy hxm
          have e2 := hyz (by rw [e1]; exact hxm)
          rw [e2, e1, hxm]
          simp
        | false =>
          cases hym : y.markedForDeletion with
          | true =>
            have e2 := hyz hym
            rw [e2, hym]
            simp
            omega
          | false =>
            simp
            omega

/-- The inner loop of the collision pass never changes an enemy that is marked for deletion, and
the player and the pause flag afterwards are those after one `gainXp(20 + 5 wave)` call per newly
marked enemy. -/
theorem Game.collideEnemies_xp (wave : ℕ) (enemies : List (Enemy α)) :
    ∀ (proj : Projectile α) (player : Player α) (isPaused : Bool),
    List.Forall₂ (fun x y : Enemy α => x.markedForDeletion = true → y = x) enemies
      (Game.collideEnemies wave proj player isPaused enemies).2.enemies ∧
    (Game.collideEnemies wave proj player isPaused enemies).2.player =
      (Player.gainXpTimes (20 + 5 * (wave : α))
        (Game.newlyMarked enemies
          (Game.collideEnemies wave proj player isPaused enemies).2.enemies) player).1 ∧
    (Game.collideEnemies wave proj player isPaused enemies).2.isPaused =
      (isPaused || (Player.gainXpTimes (20 + 5 * (wave : α))
        (Game.newlyMarked enemies
          (Game.collideEnemies wave proj player isPaused enemies).2.enemies) player).2) := by
  induction enemies with
  | nil =>
    intro proj player isPaused
    simp [Game.collideEnemies, Game.newlyMarked, Player.gainXpTimes]
  | cons enemy rest ih =>
    intro proj player isPaused
    simp only [Game.collideEnemies, Game.killXp_cast]
    by_cases hhit : (!proj.markedForDeletion && !enemy.markedForDeletion &&
        proj.checkCollision enemy) = true
    · have hun : enemy.markedForDeletion = false := by
        simp only [Bool.and_eq_true, Bool.not_eq_true'] at hhit
        exact hhit.1.2
      rw [if_pos hhit]
      by_cases hkill : (enemy.takeDamage proj.damage).hp ≤ 0
      · have hmark : (enemy.takeDamage proj.damage).markedForDeletion = true := by
          rw [(Enemy.takeDamage_fields enemy proj.damage).1] at hkill
          rw [(Enemy.takeDamage_fields enemy proj.damage).2]
          simp [hkill]
        rw [if_pos hkill]
        obtain ⟨i1, i2, i3⟩ := ih { proj with markedForDeletion := true }
          (player.gainXp (20 + 5 * (wave : α))).2
          (if (player.gainXp (20 + 5 * (wave : α))).1 = true then true else isPaused)
        refine ⟨List.Forall₂.cons (fun h => by rw [hun] at h; cases h) i1, ?_, ?_⟩
        · rw [Game.newlyMarked_cons, hun, hmark]
          simp only [Bool.not_false, Bool.and_self, if_true, Player.gainXpTimes]
          exact i2
        · rw [Game.newlyMarked_cons, hun, hmark]
          simp only [Bool.not_false, Bool.and_self, if_true, Player.gainXpTimes]
          show _ = (isPaused || ((player.gainXp (20 + 5 * (wave : α))).1 || _))
          rw [i3]
          cases (player.gainXp (20 + 5 * (wave : α))).1 <;> cases isPaused <;> simp
      · have hmark : (enemy.takeDamage proj.damage).markedForDeletion = false := by
          rw [(Enemy.takeDamage_fields enemy proj.damage).1] at hkill
          rw [(Enemy.takeDamage_fields enemy proj.damage).2]
          simp [hkill, hun]
        rw [if_neg hkill]
        obtain ⟨i1, i2, i3⟩ := ih { proj with markedForDeletion := true } player isPaused
        refine ⟨List.Forall₂.cons (fun h => by rw [hun] at h; cases h) i1, ?_, ?_⟩
        · rw [Game.newlyMarked_cons, hun, hmark]
          simp only [Bool.not_false, Bool.and_false, Bool.false_eq_true, if_false, add_zero]
          exact i2
        · rw [Game.newlyMarked_cons, hun, hmark]
          simp only [Bool.not_false, Bool.and_false, Bool.false_eq_true, if_false, add_zero]
          exact i3
    · rw [if_neg hhit]
      obtain ⟨i1, i2, i3⟩ := ih proj player isPaused
      refine ⟨List.Forall₂.cons (fun _ => rfl) i1, ?_, ?_⟩
      · rw [Game.newlyMarked_cons]
        have : (!enemy.markedForDeletion && enemy.markedForDeletion) = false := by
          cases enemy.markedForDeletion <;> rfl
        simp only [this, Bool.false_eq_true, if_false, add_zero]
        exact i2
      · rw [Game.newlyMarked_cons]
        have : (!enemy.markedForDeletion && enemy.markedForDeletion) = false := by
          cases enemy.markedForDeletion <;> rfl
        simp only [this, Bool.false_eq_true, if_false, add_zero]
        exact i3

/-- No enemy is newly marked between a list and itself. -/
theorem Game.newlyMarked_self (l : List (Enemy α)) : Game.newlyMarked l l = 0 := by
  induction l with
  | nil => rfl
  | cons x rest ih =>
    rw [Game.newlyMarked_cons, ih]
    cases x.markedForDeletion <;> rfl

/-- The collision pass never changes an enemy that is marked for deletion, and the player and the
pause flag afterwards are those after one `gainXp(20 + 5 wave)` call per newly marked enemy. -/
theorem Game.collideProjectiles_xp (wave : ℕ) (projectiles : List (Projectile α)) :
    ∀ (player : Player α) (isPaused : Bool) (enemies : List (Enemy α)),
    List.Forall₂ (fun x y : Enemy α => x.markedForDeletion = true → y = x) enemies
      (Game.collideProjectiles wave player isPaused enemies projectiles).2.enemies ∧
    (Game.collideProjectiles wave player isPaused enemies projectiles).2.player =
      (Player.gainXpTimes (20 + 5 * (wave : α))
        (Game.newlyMarked enemies
          (Game.collideProjectiles wave player isPaused enemies projectiles).2.enemies)
        player).1 ∧
    (Game.collideProjectiles wave player isPaused enemies projectiles).2.isPaused =
      (isPaused || (Player.gainXpTimes (20 + 5 * (wave : α))
        (Game.newlyMarked enemies
          (Game.collideProjectiles wave player isPaused enemies projectiles).2.enemies)
        player).2) := by
  induction projectiles with
  | nil =>
    intro player isPaused enemies
    simp only [Game.collideProjectiles, Game.newlyMarked_self, Player.gainXpTimes,
      Bool.or_false, and_self, and_true]
    exact List.forall₂_same.mpr (fun _ _ _ => rfl)
  | cons proj rest ih =>
    intro player isPaused enemies
    simp only [Game.collideProjectiles]
    by_cases hp : proj.isPlayerProjectile = true
    · rw [if_pos hp]
      obtain ⟨e1, e2, e3⟩ := Game.collideEnemies_xp wave enemies proj player isPaused
      obtain ⟨i1, i2, i3⟩ := ih (Game.collideEnemies wave proj player isPaused enemies).2.player
        (Game.collideEnemies wave proj player isPaused enemies).2.isPaused
        (Game.collideEnemies wave proj player isPaused enemies).2.enemies
      obtain ⟨t1, t2⟩ := Game.newlyMarked_trans _ _ _ e1 i1
      refine ⟨t1, ?_, ?_⟩
      · show (Game.collideProjectiles wave _ _ _ rest).2.player = _
        rw [t2, Player.gainXpTimes_add, i2, ← e2]
      · show (Game.collideProjectiles wave _ _ _ rest).2.isPaused = _
        rw [t2, Player.gainXpTimes_add, i3, ← e2, e3, Bool.or_assoc]
    · rw [if_neg hp]
      exact ih player isPaused enemies

/-- C20. In the collision pass of `Game.update`: one hit, of a projectile not marked for deletion
on an overlapping enemy not marked for deletion, damages the enemy and marks the projectile, and
when it leaves the enemy with hp ≤ 0 it calls `gainXp` once with 20 + 5 · wave and pauses the game
when that call returns true; without such a hit nothing changes. Over the whole pass an enemy
that is marked for deletion is never changed again, and the player and the pause flag afterwards
are those after exactly one `gainXp(20 + 5 · wave)` call per enemy newly marked in the pass, the
flag being raised exactly when one of these calls returned true. `Game.update` runs the pass with
the wave of the game before the wave check. -/
theorem collision_pass_xp (wave : ℕ) (player : Player α) (isPaused : Bool)
    (enemies : List (Enemy α)) (projectiles : List (Projectile α))
    (proj : Projectile α) (enemy : Enemy α) :
    Game.collideEnemies wave proj player isPaused [enemy] =
      (if (!proj.markedForDeletion && !enemy.markedForDeletion &&
          proj.checkCollision enemy) = true then
        ({ proj with markedForDeletion := true },
          { player :=
              if (enemy.takeDamage proj.damage).hp ≤ 0 then
                (player.gainXp (20 + 5 * (wave : α))).2
              else player
            isPaused :=
              if (enemy.takeDamage proj.damage).hp ≤ 0 then
                (isPaused || (player.gainXp (20 + 5 * (wave : α))).1)
              else isPaused
            enemies := [enemy.takeDamage proj.damage] })
      else (proj, { player := player, isPaused := isPaused, enemies := [enemy] })) ∧
    List.Forall₂ (fun x y : Enemy α => x.markedForDeletion = true → y = x) enemies
      (Game.collideProjectiles wave player isPaused enemies projectiles).2.enemies ∧
    (Game.collideProjectiles wave player isPaused enemies projectiles).2.player =
      (Player.gainXpTimes (20 + 5 * (wave : α))
        (Game.newlyMarked enemies
          (Game.collideProjectiles wave player isPaused enemies projectiles).2.enemies)
        player).1 ∧
    (Game.collideProjectiles wave player isPaused enemies projectiles).2.isPaused =
      (isPaused || (Player.gainXpTimes (20 + 5 * (wave : α))
        (Game.newlyMarked enemies
          (Game.collideProjectiles wave player isPaused enemies projectiles).2.enemies)
        player).2) ∧
    (∀ (impl : Impl) (m : MathOps α) (g : Game α) (deltaTime : α) (updated : Player α)
        (shots : List (SpawnRequest α)),
      g.player.update impl m deltaTime g.input g.width g.height g.nearestEnemy =
        Except.ok (updated, shots) →
      ∃ s : Game α, g.simulate impl m deltaTime = Except.ok s ∧ s.wave = g.wave ∧
        List.Forall₂ (fun x y : Enemy α => x.markedForDeletion = true → y = x)
          (g.enemies.map (fun (e : Enemy α) => e.update m.sqrt deltaTime updated)) s.enemies ∧
        s.player =
          (Player.gainXpTimes (20 + 5 * (g.wave : α))
            (Game.newlyMarked
              (g.enemies.map (fun (e : Enemy α) => e.update m.sqrt deltaTime updated)) s.enemies)
            updated).1 ∧
        s.isPaused =
          (g.isPaused || (Player.gainXpTimes (20 + 5 * (g.wave : α))
            (Game.newlyMarked
              (g.enemies.map (fun (e : Enemy α) => e.update m.sqrt deltaTime updated)) s.enemies)
            updated).2)) := by
  obtain ⟨p1, p2, p3⟩ := Game.collideProjectiles_xp wave projectiles player isPaused enemies
  refine ⟨?_, p1, p2, p3, ?_⟩
  · simp only [Game.collideEnemies, Game.killXp_cast]
    by_cases hhit : (!proj.markedForDeletion && !enemy.markedForDeletion &&
        proj.checkCollision enemy) = true
    · rw [if_pos hhit, if_pos hhit]
      by_cases hkill : (enemy.takeDamage proj.damage).hp ≤ 0
      · rw [if_pos hkill, if_pos hkill, if_pos hkill]
        cases (player.gainXp (20 + 5 * (wave : α))).1 <;> cases isPaused <;> rfl
      · rw [if_neg hkill, if_neg hkill, if_neg hkill]
    · rw [if_neg hhit, if_neg hhit]
  · intro impl m g deltaTime updated shots hu
    simp only [Game.simulate, hu]
    refine ⟨_, rfl, rfl, ?_⟩
    exact Game.collideProjectiles_xp g.wave _ updated g.isPaused _

/-- Witness of C20: in wave 1, a projectile of damage 10 resting on an enemy with hp 10 kills it;
the player, at xp 0, is granted 20 + 5 · 1 = 25 XP by one call, which does not level up, and the
game is not paused. -/
theorem collision_pass_xp_witness :
    Game.newlyMarked [({ Enemy.new 100 100 with hp := 10 } : Enemy ℚ)]
      (Game.collideProjectiles 1 (contactPlayerAt 500 0 10) false
        [{ Enemy.new 100 100 with hp := 10 }] [restingProjectile 100 100]).2.enemies = 1 ∧
    (Game.collideProjectiles 1 (contactPlayerAt 500 0 10) false
      [{ Enemy.new 100 100 with hp := 10 }] [restingProjectile 100 100]).2.player.xp = 25 ∧
    (Game.collideProjectiles 1 (contactPlayerAt 500 0 10) false
      [{ Enemy.new 100 100 with hp := 10 }] [restingProjectile 100 100]).2.isPaused = false := by
  have hcol : (restingProjectile 100 100).checkCollision { Enemy.new 100 100 with hp := 10 } =
      true := by
    simp [Projectile.checkCollision, restingProjectile, Physics.checkCollision, Enemy.toRect,
      Enemy.new]
    norm_num
  have hstep := (collision_pass_xp 1 (contactPlayerAt 500 0 10) false
    [{ Enemy.new 100 100 with hp := 10 }] [restingProjectile 100 100]
    (restingProjectile 100 100) { Enemy.new 100 100 with hp := 10 }).1
  have hpass : Game.collideProjectiles 1 (contactPlayerAt 500 0 10) false
      [{ Enemy.new 100 100 with hp := 10 }] [restingProjectile 100 100] =
      ([(Game.collideEnemies 1 (restingProjectile 100 100) (contactPlayerAt 500 0 10) false
          [{ Enemy.new 100 100 with hp := 10 }]).1],
        (Game.collideEnemies 1 (restingProjectile 100 100) (contactPlayerAt 500 0 10) false
          [{ Enemy.new 100 100 with hp := 10 }]).2) := rfl
  have hhit : (!(restingProjectile 100 100).markedForDeletion &&
      !({ Enemy.new 100 100 with hp := 10 } : Enemy ℚ).markedForDeletion &&
      (restingProjectile 100 100).checkCollision { Enemy.new 100 100 with hp := 10 }) = true := by
    rw [hcol]; rfl
  have hkill : (({ Enemy.new 100 100 with hp := 10 } : Enemy ℚ).takeDamage
      (restingProjectile 100 100).damage).hp ≤ 0 := by
    rw [(Enemy.takeDamage_fields _ _).1]
    norm_num [restingProjectile]
  have hmark : (({ Enemy.new 100 100 with hp := 10 } : Enemy ℚ).takeDamage
      (restingProjectile 100 100).damage).markedForDeletion = true := by
    rw [(Enemy.takeDamage_fields _ _).2]
    norm_num [restingProjectile]
  rw [hpass, hstep, if_pos hhit]
  simp only [if_pos hkill]
  refine ⟨?_, ?_, ?_⟩
  · rw [Game.newlyMarked_cons, hmark]
    rfl
  · norm_num [Player.gainXp, contactPlayerAt, Player.new]
  · norm_num [Player.gainXp, contactPlayerAt, Player.new]

/-! ### The contact pass -/

/-- `Player.takeDamage` does not move the player. -/
theorem Player.takeDamage_toCircle (p : Player α) (amount : α) :
    (p.takeDamage amount).toCircle = p.toCircle := by
  rw [Player.takeDamage_eq]
  split_ifs <;> rfl

/-- After a `takeDamage` call the player is invincible when the call landed, and was before
otherwise: a second call changes nothing. -/
theorem Player.takeDamage_idem (p : Player α) (amount amount2 : α) :
    (p.takeDamage amount).takeDamage amount2 = p.takeDamage amount := by
  by_cases h : p.invincibilityTimer > 0
  · have e : p.takeDamage amount = p := by rw [Player.takeDamage_eq, if_pos h]
    rw [e, Player.takeDamage_eq, if_pos h]
  · have e : p.takeDamage amount = { p with hp := p.hp - amount, invincibilityTimer := 1 } := by
      rw [Player.takeDamage_eq, if_neg h]
    rw [e, Player.takeDamage_eq, if_pos (show (1 : α) > 0 from one_pos)]

/-- The contact pass in closed form: with an overlapping enemy the effect is that of one
`takeDamage(10)` call, and isGameOver is set when hp is ≤ 0 after it; without one nothing
changes. -/
theorem Game.contactLoop_eq (enemies : List (Enemy α)) :
    ∀ (player : Player α) (isGameOver : Bool),
    Game.contactLoop player isGameOver enemies =
      if enemies.any (fun (e : Enemy α) => Physics.checkCollision player.toCircle e.toRect) = true
      then (player.takeDamage 10, isGameOver || decide ((player.takeDamage 10).hp ≤ 0))
      else (player, isGameOver) := by
  induction enemies with
  | nil => intro player isGameOver; rfl
  | cons e rest ih =>
    intro player isGameOver
    simp only [Game.contactLoop, List.any_cons]
    by_cases hov : Physics.checkCollision player.toCircle e.toRect = true
    · rw [if_pos hov]
      have hany : (Physics.checkCollision player.toCircle e.toRect ||
          rest.any fun (e : Enemy α) => Physics.checkCollision player.toCircle e.toRect) = true := by
        rw [hov, Bool.true_or]
      rw [if_pos hany]
      by_cases hhp : (player.takeDamage 10).hp ≤ 0
      · rw [if_pos hhp, ih, Player.takeDamage_toCircle, Player.takeDamage_idem]
        simp [hhp]
      · rw [if_neg hhp, ih, Player.takeDamage_toCircle, Player.takeDamage_idem]
        simp [hhp]
    · rw [if_neg hov, ih]
      simp [hov]

/-- The contact pass applies `takeDamage(10)` once per overlapping enemy. -/
theorem Game.contactLoop_iterate (enemies : List (Enemy α)) :
    ∀ (player : Player α) (isGameOver : Bool),
    (Game.contactLoop player isGameOver enemies).1 =
      (fun (p : Player α) => p.takeDamage 10)^[enemies.countP
        (fun (e : Enemy α) => Physics.checkCollision player.toCircle e.toRect)] player := by
  induction enemies with
  | nil => intro player isGameOver; rfl
  | cons e rest ih =>
    intro player isGameOver
    simp only [Game.contactLoop, List.countP_cons]
    by_cases hov : Physics.checkCollision player.toCircle e.toRect = true
    · rw [if_pos hov, if_pos hov, Function.iterate_succ_apply]
      split_ifs <;> rw [ih, Player.takeDamage_toCircle]
    · rw [if_neg hov, if_neg hov, ih]
      rfl

/-- The entrance animation keeps hp. -/
theorem Player.updateEntrance_hp (p : Player α) (deltaTime : α) :
    (p.updateEntrance deltaTime).hp = p.hp := by
  simp only [Player.updateEntrance]
  split_ifs <;> rfl

/-- `Player.update` keeps hp. -/
theorem Player.update_hp (impl : Impl) (m : MathOps α) (p : Player α) (deltaTime : α)
    (input : Keys) (gameWidth gameHeight : α) (nearestEnemy : Option (Enemy α))
    (q : Player α) (shots : List (SpawnRequest α))
    (hu : p.update impl m deltaTime input gameWidth gameHeight nearestEnemy = Except.ok (q, shots)) :
    q.hp = p.hp := by
  by_cases h : p.isEntering = true
  · simp only [Player.update, h, if_true, Except.ok.injEq, Prod.mk.injEq] at hu
    rw [← hu.1, Player.updateEntrance_hp]
  · simp only [Player.update, h, if_false] at hu
    rw [(Player.updateAttack_fields _ _ _ _ _ _ _ hu).1, (Player.updateMovement_fields _ _ _ _ _).1,
      (Player.updateInvincibility_fields _ _).1]

/-- The bundled `Player.update` always returns normally. -/
theorem Player.update_ok_bundled (m : MathOps α) (p : Player α) (deltaTime : α)
    (input : Keys) (gameWidth gameHeight : α) (nearestEnemy : Option (Enemy α)) :
    ∃ q shots, p.update Impl.bundled m deltaTime input gameWidth gameHeight nearestEnemy =
      Except.ok (q, shots) := by
  by_cases h : p.isEntering = true
  · simp only [Player.update, h, if_true]
    exact ⟨_, _, rfl⟩
  · simp only [Player.update, h, if_false]
    exact Player.updateAttack_ok _ _ _ _ _ (Or.inl rfl)

/-- The first part of a tick, given the result of `Player.update`. -/
theorem Game.simulate_eq (impl : Impl) (m : MathOps α) (g : Game α) (deltaTime : α)
    (updated : Player α) (shots : List (SpawnRequest α))
    (hu : g.player.update impl m deltaTime g.input g.width g.height g.nearestEnemy =
      Except.ok (updated, shots)) :
    g.simulate impl m deltaTime =
      Except.ok
        { g with
          projectiles :=
            (Game.collideProjectiles g.wave updated g.isPaused
              (g.enemies.map (fun (e : Enemy α) => e.update m.sqrt deltaTime updated))
              ((g.projectiles ++ shots.map (Game.createProjectile m.sqrt)).map
                (fun (p : Projectile α) => p.update impl deltaTime g.width g.height))).1
          player :=
            (Game.collideProjectiles g.wave updated g.isPaused
              (g.enemies.map (fun (e : Enemy α) => e.update m.sqrt deltaTime updated))
              ((g.projectiles ++ shots.map (Game.createProjectile m.sqrt)).map
                (fun (p : Projectile α) => p.update impl deltaTime g.width g.height))).2.player
          isPaused :=
            (Game.collideProjectiles g.wave updated g.isPaused
              (g.enemies.map (fun (e : Enemy α) => e.update m.sqrt deltaTime updated))
              ((g.projectiles ++ shots.map (Game.createProjectile m.sqrt)).map
                (fun (p : Projectile α) => p.update impl deltaTime g.width g.height))).2.isPaused
          enemies :=
            (Game.collideProjectiles g.wave updated g.isPaused
              (g.enemies.map (fun (e : Enemy α) => e.update m.sqrt deltaTime updated))
              ((g.projectiles ++ shots.map (Game.createProjectile m.sqrt)).map
                (fun (p : Projectile α) => p.update impl deltaTime g.width g.height))).2.enemies } := by
  simp only [Game.simulate, hu]

/-- The first part of a tick returns exactly when `Player.update` does, and keeps hp, isGameOver,
wave and the bounds. -/
theorem Game.simulate_frame (impl : Impl) (m : MathOps α) (g s : Game α) (deltaTime : α)
    (hs : g.simulate impl m deltaTime = Except.ok s) :
    s.player.hp = g.player.hp ∧ s.isGameOver = g.isGameOver ∧ s.wave = g.wave ∧
    s.width = g.width ∧ s.height = g.height := by
  cases hu : g.player.update impl m deltaTime g.input g.width g.height g.nearestEnemy with
  | error e => simp [Game.simulate, hu] at hs
  | ok updated =>
    obtain ⟨q, shots⟩ := updated
    rw [Game.simulate_eq impl m g deltaTime q shots hu] at hs
    simp only [Except.ok.injEq] at hs
    subst hs
    refine ⟨?_, rfl, rfl, rfl, rfl⟩
    exact ((Game.collideProjectiles_player g.wave _ q g.isPaused _).1).trans
      (Player.update_hp impl m g.player deltaTime g.input g.width g.height g.nearestEnemy q shots hu)

/-- In the bundled implementation the first part of a tick and the whole tick always return. -/
theorem Game.update_total_bundled (m : MathOps α) (g : Game α) (deltaTime : α) (random : ℕ → α) :
    (∃ s, g.simulate Impl.bundled m deltaTime = Except.ok s) ∧
    ∃ g1, g.update Impl.bundled m deltaTime random = Except.ok g1 := by
  obtain ⟨q, shots, hu⟩ := Player.update_ok_bundled m g.player deltaTime g.input g.width g.height
    g.nearestEnemy
  have hs := Game.simulate_eq Impl.bundled m g deltaTime q shots hu
  refine ⟨⟨_, hs⟩, ?_⟩
  simp only [Game.update, hs]
  exact ⟨_, rfl⟩

/-- A tick that returns is the contact pass, the prune and the wave check on the result of its
first part. -/
theorem Game.update_passes (impl : Impl) (m : MathOps α) (g g1 : Game α) (deltaTime : α)
    (random : ℕ → α) (hu : g.update impl m deltaTime random = Except.ok g1) :
    ∃ s, g.simulate impl m deltaTime = Except.ok s ∧
      g1 = (s.contactPass.prune).waveCheck random := by
  unfold Game.update at hu
  cases hs : g.simulate impl m deltaTime with
  | error e => simp [hs] at hu
  | ok s =>
    simp only [hs, Except.ok.injEq] at hu
    exact ⟨s, rfl, hu.symm⟩

/-- Spawning, the prune and the wave check keep isGameOver. -/
theorem Game.waveCheck_prune_isGameOver (g : Game α) (random : ℕ → α) :
    (g.prune.waveCheck random).isGameOver = g.isGameOver := by
  have hsp : ∀ (l : List ℕ) (g : Game α),
      (l.foldl (fun (g : Game α) i =>
        { g with enemies := g.enemies ++
          [Enemy.new (random (2 * i) * (g.width - 60) + 30)
            (random (2 * i + 1) * (g.height / 3) + 30)] }) g).isGameOver = g.isGameOver := by
    intro l
    induction l with
    | nil => intro g; rfl
    | cons i rest ih => intro g; rw [List.foldl_cons, ih]
  unfold Game.waveCheck
  split_ifs
  · exact hsp _ _
  · rfl

/-! ### A whole tick: contact, prune and wave check -/

/-- `Game.spawnEnemies` appends the new enemies in order and changes nothing else. -/
theorem Game.spawnEnemies_eq (g : Game α) (count : ℕ) (random : ℕ → α) :
    g.spawnEnemies count random =
      { g with enemies := g.enemies ++ (List.range count).map (fun (i : ℕ) =>
          Enemy.new (random (2 * i) * (g.width - 60) + 30)
            (random (2 * i + 1) * (g.height / 3) + 30)) } := by
  have h : ∀ (l : List ℕ) (g : Game α),
      l.foldl (fun (g : Game α) i =>
        { g with enemies := g.enemies ++
          [Enemy.new (random (2 * i) * (g.width - 60) + 30)
            (random (2 * i + 1) * (g.height / 3) + 30)] }) g =
      { g with enemies := g.enemies ++ l.map (fun (i : ℕ) =>
          Enemy.new (random (2 * i) * (g.width - 60) + 30)
            (random (2 * i + 1) * (g.height / 3) + 30)) } := by
    intro l
    induction l with
    | nil => intro g; simp
    | cons i rest ih =>
      intro g
      rw [List.foldl_cons, ih]
      simp
  exact h _ g

/-- The wave check in closed form. -/
theorem Game.waveCheck_eq (g : Game α) (random : ℕ → α) :
    g.waveCheck random =
      if g.enemies = [] ∧ g.isPaused = false then
        { g with
          wave := g.wave + 1
          enemies := (List.range (g.wave + 1 + 2)).map (fun (i : ℕ) =>
            Enemy.new (random (2 * i) * (g.width - 60) + 30)
              (random (2 * i + 1) * (g.height / 3) + 30)) }
      else g := by
  unfold Game.waveCheck
  by_cases h : g.enemies = [] ∧ g.isPaused = false
  · rw [if_pos h, if_pos (by simp [h.1, h.2]), Game.spawnEnemies_eq]
    simp [h.1]
  · rw [if_neg h, if_neg]
    intro hc
    apply h
    simp only [Bool.and_eq_true, decide_eq_true_eq, Bool.not_eq_true', List.length_eq_zero] at hc
    exact hc

/-- The player and isGameOver after a tick are those that the contact pass leaves. -/
theorem Game.update_contactLoop (impl : Impl) (m : MathOps α) (g g1 : Game α) (deltaTime : α)
    (random : ℕ → α) (hu : g.update impl m deltaTime random = Except.ok g1) :
    ∃ s, g.simulate impl m deltaTime = Except.ok s ∧
      g1.player = (Game.contactLoop s.player s.isGameOver s.enemies).1 ∧
      g1.isGameOver = (Game.contactLoop s.player s.isGameOver s.enemies).2 := by
  obtain ⟨s, hs, rfl⟩ := Game.update_passes impl m g g1 deltaTime random hu
  exact ⟨s, hs, Game.waveCheck_prune_player _ _, Game.waveCheck_prune_isGameOver _ _⟩

/-- The collections, the wave and the bounds after a tick, in terms of the game `s` that the
first part of the tick leaves. -/
theorem Game.update_prune (impl : Impl) (m : MathOps α) (g g1 s : Game α) (deltaTime : α)
    (random : ℕ → α) (hu : g.update impl m deltaTime random = Except.ok g1)
    (hs : g.simulate impl m deltaTime = Except.ok s) :
    g1.projectiles = s.projectiles.filter (fun (p : Projectile α) => !p.markedForDeletion) ∧
    g1.isPaused = s.isPaused ∧ g1.width = g.width ∧ g1.height = g.height ∧
    g1.lastTime = g.lastTime ∧
    (if s.enemies.filter (fun (e : Enemy α) => !e.markedForDeletion) = [] ∧ s.isPaused = false
      then g1.wave = g.wave + 1 ∧
        g1.enemies = (List.range (g.wave + 1 + 2)).map (fun (i : ℕ) =>
          Enemy.new (random (2 * i) * (g.width - 60) + 30)
            (random (2 * i + 1) * (g.height / 3) + 30))
      else g1.wave = g.wave ∧
        g1.enemies = s.enemies.filter (fun (e : Enemy α) => !e.markedForDeletion)) := by
  obtain ⟨s2, hs2, rfl⟩ := Game.update_passes impl m g g1 deltaTime random hu
  rw [hs] at hs2
  simp only [Except.ok.injEq] at hs2
  subst hs2
  obtain ⟨-, -, hw, hwd, hh⟩ := Game.simulate_frame impl m g s deltaTime hs
  have hl : s.lastTime = g.lastTime := by
    cases hp : g.player.update impl m deltaTime g.input g.width g.height g.nearestEnemy with
    | error e => simp [Game.simulate, hp] at hs
    | ok updated =>
      rw [Game.simulate_eq impl m g deltaTime updated.1 updated.2 hp] at hs
      simp only [Except.ok.injEq] at hs
      rw [← hs]
  rw [Game.waveCheck_eq]
  by_cases hc : s.enemies.filter (fun (e : Enemy α) => !e.markedForDeletion) = [] ∧
      s.isPaused = false
  · have hc2 :
        (s.contactPass.prune).enemies = [] ∧ (s.contactPass.prune).isPaused = false := hc
    rw [if_pos hc2, if_pos hc]
    refine ⟨rfl, rfl, hwd, hh, hl, ?_, ?_⟩
    · show s.wave + 1 = g.wave + 1
      rw [hw]
    · show (List.range (s.wave + 1 + 2)).map (fun (i : ℕ) =>
          Enemy.new (random (2 * i) * (s.width - 60) + 30)
            (random (2 * i + 1) * (s.height / 3) + 30)) = _
      rw [hw, hwd, hh]
  · have hc2 :
        ¬ ((s.contactPass.prune).enemies = [] ∧ (s.contactPass.prune).isPaused = false) := hc
    rw [if_neg hc2, if_neg hc]
    exact ⟨rfl, rfl, hwd, hh, hl, hw, rfl⟩

/-- After a tick no enemy and no projectile of the game is marked for deletion. -/
theorem Game.update_unmarked (impl : Impl) (m : MathOps α) (g g1 : Game α) (deltaTime : α)
    (random : ℕ → α) (hu : g.update impl m deltaTime random = Except.ok g1) :
    (∀ e ∈ g1.enemies, e.markedForDeletion = false) ∧
    (∀ p ∈ g1.projectiles, p.markedForDeletion = false) := by
  obtain ⟨s, hs, -⟩ := Game.update_passes impl m g g1 deltaTime random hu
  obtain ⟨hp, -, -, -, -, he⟩ := Game.update_prune impl m g g1 s deltaTime random hu hs
  constructor
  · intro e hmem
    split_ifs at he
    · rw [he.2, List.mem_map] at hmem
      obtain ⟨i, -, rfl⟩ := hmem
      rfl
    · rw [he.2, List.mem_filter] at hmem
      simpa using hmem.2
  · intro p hmem
    rw [hp, List.mem_filter] at hmem
    simpa using hmem.2

/-- The first part of a tick of half a second on `duelGame`. -/
theorem duelGame_simulate (impl : Impl) (hp : ℚ) :
    Game.simulate impl ratOps (duelGame hp) (1 / 2) = Except.ok (duelGameHit hp) := by
  have hn : Game.nearestEnemy (duelGame hp) = some { Enemy.new 240 650 with hp := 10 } := by
    simp [Game.nearestEnemy, duelGame, contactGameAt]
  have hu : (duelGame hp).player.update impl ratOps (1 / 2) (duelGame hp).input (duelGame hp).width
      (duelGame hp).height (some { Enemy.new 240 650 with hp := 10 }) =
      Except.ok (contactPlayerAt hp 0 (19 / 2), []) := by
    have h := contactPlayerAt_update impl hp 0 10 (by norm_num) { Enemy.new 240 650 with hp := 10 }
    norm_num at h
    exact h
  have hen : ({ Enemy.new (240 : ℚ) 650 with hp := 10 } : Enemy ℚ).update ratOps.sqrt (1 / 2)
      (contactPlayerAt hp 0 (19 / 2)) = { Enemy.new 240 650 with hp := 10 } := by
    simp [Enemy.update, Enemy.new, contactPlayerAt, Player.new, ratOps_sqrt_zero]
  have hpr : (restingProjectile 240 650).update impl (1 / 2) 480 800 = restingProjectile 240 650 := by
    cases impl <;>
      simp [Projectile.update, Projectile.update2D, Projectile.update3D, Projectile.move,
        restingProjectile, jsLt, jsGt] <;> norm_num
  have hcol : Game.collideProjectiles 1 (contactPlayerAt hp 0 (19 / 2)) false
      [{ Enemy.new 240 650 with hp := 10 }] [restingProjectile 240 650] =
      ([{ restingProjectile 240 650 with markedForDeletion := true }],
        { player := { contactPlayerAt hp 0 (19 / 2) with xp := 25 }
          isPaused := false
          enemies := [fallenEnemy] }) := by
    simp [Game.collideProjectiles, Game.collideEnemies, restingProjectile, Projectile.checkCollision,
      Physics.checkCollision, Enemy.new, Enemy.toRect, Enemy.takeDamage, Player.gainXp,
      contactPlayerAt, Player.new, fallenEnemy]
    norm_num
  rw [Game.simulate_eq impl ratOps (duelGame hp) (1 / 2) _ _ (hn ▸ hu)]
  simp only [duelGame, contactGameAt, List.map_nil, List.append_nil, List.map_cons, hen, hpr, hcol]
  rfl

/-- The fallen enemy of `duelGameHit` overlaps the player. -/
theorem duelGameHit_overlap (hp : ℚ) :
    Physics.checkCollision (duelGameHit hp).player.toCircle fallenEnemy.toRect = true := by
  simp [Physics.checkCollision, duelGameHit, contactPlayerAt, Player.new, Player.toCircle,
    fallenEnemy, Enemy.new, Enemy.toRect]
  norm_num

/-- A tick of half a second on `duelGame`: the projectile fells the enemy, the fallen enemy still
costs the player 10 hp, and the next wave is spawned. -/
theorem duelGame_update (impl : Impl) (hp : ℚ) :
    Game.update impl ratOps (duelGame hp) (1 / 2) (fun _ => 1 / 2) =
      Except.ok (duelGameAfter hp) := by
  have hov := duelGameHit_overlap hp
  have htd : (duelGameHit hp).player.takeDamage 10 =
      { contactPlayerAt (hp - 10) 1 (19 / 2) with xp := 25 } := by
    rw [Player.takeDamage_eq]
    simp [duelGameHit, contactPlayerAt]
  have hpass : (duelGameHit hp).contactPass =
      { duelGameHit hp with
        player := { contactPlayerAt (hp - 10) 1 (19 / 2) with xp := 25 }
        isGameOver := decide (hp - 10 ≤ 0) } := by
    have hl : Game.contactLoop (duelGameHit hp).player (duelGameHit hp).isGameOver
        (duelGameHit hp).enemies =
        ({ contactPlayerAt (hp - 10) 1 (19 / 2) with xp := 25 }, decide (hp - 10 ≤ 0)) := by
      rw [Game.contactLoop_eq, if_pos (by
        show ([fallenEnemy].any fun (e : Enemy ℚ) =>
          Physics.checkCollision (duelGameHit hp).player.toCircle e.toRect) = true
        simp only [List.any_cons, hov, Bool.true_or]), htd]
      simp [duelGameHit, contactGameAt, contactPlayerAt]
    simp only [Game.contactPass, hl]
  simp only [Game.update, duelGame_simulate, hpass, Game.waveCheck_eq]
  simp [Game.prune, duelGameHit, fallenEnemy, contactGameAt, duelGameAfter, Enemy.new,
    List.range_succ, List.replicate]
  norm_num

/-- C21. The contact pass of a tick that returns works on the game `s` that the first part of the
tick leaves: `takeDamage(10)` is applied once for every enemy whose rectangle overlaps the circle
of the player; when some enemy overlaps, isGameOver is set if hp is ≤ 0 after the call; when none
overlaps, the player, so hp, and isGameOver are unchanged; and isGameOver is never reset. -/
theorem contact_pass_spec (impl : Impl) (m : MathOps α) (g g1 : Game α) (deltaTime : α)
    (random : ℕ → α) (hu : g.update impl m deltaTime random = Except.ok g1) :
    ∃ s, g.simulate impl m deltaTime = Except.ok s ∧
      g1.player = (fun (p : Player α) => p.takeDamage 10)^[s.enemies.countP
        (fun (e : Enemy α) => Physics.checkCollision s.player.toCircle e.toRect)] s.player ∧
      (s.enemies.any (fun (e : Enemy α) => Physics.checkCollision s.player.toCircle e.toRect)
          = true →
        g1.player = s.player.takeDamage 10 ∧
        g1.isGameOver = (g.isGameOver || decide (g1.player.hp ≤ 0))) ∧
      (s.enemies.any (fun (e : Enemy α) => Physics.checkCollision s.player.toCircle e.toRect)
          = false →
        g1.player = s.player ∧ g1.player.hp = g.player.hp ∧ g1.isGameOver = g.isGameOver) ∧
      (g.isGameOver = true → g1.isGameOver = true) := by
  obtain ⟨s, hs, hp, hg⟩ := Game.update_contactLoop impl m g g1 deltaTime random hu
  obtain ⟨hhp, hgo, -⟩ := Game.simulate_frame impl m g s deltaTime hs
  refine ⟨s, hs, ?_, ?_, ?_, ?_⟩
  · rw [hp, Game.contactLoop_iterate]
  · intro hov
    rw [Game.contactLoop_eq, if_pos hov] at hp hg
    refine ⟨hp, ?_⟩
    rw [hg, hp, hgo]
  · intro hov
    rw [Game.contactLoop_eq, if_neg (by simp [hov])] at hp hg
    exact ⟨hp, by rw [hp, hhp], by rw [hg, hgo]⟩
  · intro hgt
    rw [hg, Game.contactLoop_eq, hgo, hgt]
    split_ifs <;> rfl

/-- C30. After a tick that returns, hp is what it was or 10 less: the contact pass leaves the
player as the first part of the tick left them, or with 10 hp less and invincibilityTimer 1,
however many enemies overlap. A `takeDamage` call that lands sets invincibilityTimer to 1, and
after it a further `takeDamage` call changes nothing. -/
theorem update_hp_step (impl : Impl) (m : MathOps α) (g g1 : Game α) (deltaTime : α)
    (random : ℕ → α) (hu : g.update impl m deltaTime random = Except.ok g1) :
    (g1.player.hp = g.player.hp ∨ g1.player.hp = g.player.hp - 10) ∧
    (∃ s, g.simulate impl m deltaTime = Except.ok s ∧
      (g1.player = s.player ∨
        g1.player = { s.player with hp := s.player.hp - 10, invincibilityTimer := 1 })) ∧
    (∀ (p : Player α) (a b : α), ¬ p.invincibilityTimer > 0 →
      (p.takeDamage a).hp = p.hp - a ∧ (p.takeDamage a).invincibilityTimer = 1 ∧
      (p.takeDamage a).takeDamage b = p.takeDamage a) := by
  obtain ⟨s, hs, hp, hg⟩ := Game.update_contactLoop impl m g g1 deltaTime random hu
  obtain ⟨hhp, -⟩ := Game.simulate_frame impl m g s deltaTime hs
  have hcase : g1.player = s.player ∨
      g1.player = { s.player with hp := s.player.hp - 10, invincibilityTimer := 1 } := by
    rw [hp, Game.contactLoop_eq, Player.takeDamage_eq]
    split_ifs
    · exact Or.inl rfl
    · right
      norm_num
    · exact Or.inl rfl
  refine ⟨?_, ⟨s, hs, hcase⟩, ?_⟩
  · rcases hcase with h | h
    · left
      rw [h, hhp]
    · right
      rw [h, ← hhp]
  · intro p a b hinv
    refine ⟨?_, ?_, Player.takeDamage_idem p a b⟩
    · rw [Player.takeDamage_eq, if_neg hinv]
    · rw [Player.takeDamage_eq, if_neg hinv]

/-- C28. The contact pass takes no account of markedForDeletion. When the first part of a tick
leaves a game `s` in which an enemy marked for deletion, such as one that a projectile has just
brought to hp ≤ 0, overlaps the player and the player's invincibilityTimer is not > 0, the tick
returns with the player 10 hp down and invincible for 1 second, isGameOver is set if hp is ≤ 0
afterwards, and the enemy is gone from the collection. The result of the contact loop is the same
whatever the flags of the enemies are. -/
theorem contact_counts_marked_enemy (impl : Impl) (m : MathOps α) (g s : Game α) (deltaTime : α)
    (random : ℕ → α) (e : Enemy α)
    (hs : g.simulate impl m deltaTime = Except.ok s) (he : e ∈ s.enemies)
    (hm : e.markedForDeletion = true)
    (hov : Physics.checkCollision s.player.toCircle e.toRect = true)
    (hinv : ¬ s.player.invincibilityTimer > 0) :
    (∃ g1, g.update impl m deltaTime random = Except.ok g1 ∧
      g1.player.hp = g.player.hp - 10 ∧ g1.player.invincibilityTimer = 1 ∧
      g1.isGameOver = (g.isGameOver || decide (g1.player.hp ≤ 0)) ∧ e ∉ g1.enemies) ∧
    (∀ (player : Player α) (isGameOver marked : Bool) (enemies : List (Enemy α)),
      Game.contactLoop player isGameOver
          (enemies.map (fun (x : Enemy α) => { x with markedForDeletion := marked })) =
        Game.contactLoop player isGameOver enemies) := by
  constructor
  · have hu : g.update impl m deltaTime random =
        Except.ok ((s.contactPass.prune).waveCheck random) := by
      simp only [Game.update, hs]
    refine ⟨_, hu, ?_⟩
    obtain ⟨s2, hs2, hp, hg⟩ := Game.update_contactLoop impl m g _ deltaTime random hu
    rw [hs] at hs2
    simp only [Except.ok.injEq] at hs2
    subst hs2
    obtain ⟨hhp, hgo, -⟩ := Game.simulate_frame impl m g s deltaTime hs
    have hany : s.enemies.any
        (fun (x : Enemy α) => Physics.checkCollision s.player.toCircle x.toRect) = true :=
      List.any_eq_true.mpr ⟨e, he, hov⟩
    rw [Game.contactLoop_eq, if_pos hany] at hp hg
    have htd : s.player.takeDamage 10 =
        { s.player with hp := s.player.hp - 10, invincibilityTimer := 1 } := by
      rw [Player.takeDamage_eq, if_neg hinv]
    refine ⟨?_, ?_, ?_, ?_⟩
    · rw [hp, htd, ← hhp]
    · rw [hp, htd]
    · rw [hg, hp, hgo]
    · intro hmem
      have h := (Game.update_unmarked impl m g _ deltaTime random hu).1 e hmem
      rw [hm] at h
      exact Bool.noConfusion h
  · intro player isGameOver marked enemies
    rw [Game.contactLoop_eq, Game.contactLoop_eq, List.any_map]
    rfl

/-- C28 on `duelGame 500`: the projectile brings the enemy to hp 0 in the collision pass, and the
same tick ends with the player at hp 490. -/
theorem contact_counts_marked_enemy_witness :
    Game.simulate Impl.bundled ratOps (duelGame 500) (1 / 2) = Except.ok (duelGameHit 500) ∧
    fallenEnemy ∈ (duelGameHit 500).enemies ∧ fallenEnemy.hp ≤ 0 ∧
    fallenEnemy.markedForDeletion = true ∧
    Game.update Impl.bundled ratOps (duelGame 500) (1 / 2) (fun _ => 1 / 2) =
      Except.ok (duelGameAfter 500) ∧
    (duelGameAfter 500).player.hp = 490 ∧
    ((∃ g1, Game.update Impl.bundled ratOps (duelGame 500) (1 / 2) (fun _ => 1 / 2) =
        Except.ok g1 ∧
      g1.player.hp = (duelGame 500).player.hp - 10 ∧ g1.player.invincibilityTimer = 1 ∧
      g1.isGameOver = ((duelGame 500).isGameOver || decide (g1.player.hp ≤ 0)) ∧
      fallenEnemy ∉ g1.enemies) ∧
    (∀ (player : Player ℚ) (isGameOver marked : Bool) (enemies : List (Enemy ℚ)),
      Game.contactLoop player isGameOver
          (enemies.map (fun (x : Enemy ℚ) => { x with markedForDeletion := marked })) =
        Game.contactLoop player isGameOver enemies)) :=
  ⟨duelGame_simulate Impl.bundled 500, List.mem_singleton.mpr rfl, le_refl _, rfl,
    duelGame_update Impl.bundled 500, by norm_num [duelGameAfter, contactPlayerAt],
    contact_counts_marked_enemy Impl.bundled ratOps (duelGame 500) (duelGameHit 500) (1 / 2)
      (fun _ => 1 / 2) fallenEnemy (duelGame_simulate Impl.bundled 500)
      (List.mem_singleton.mpr rfl) rfl (duelGameHit_overlap 500)
      (by norm_num [duelGameHit, contactPlayerAt])⟩

/-- C21 on `duelGame 10`: the enemy overlaps the player, and the tick ends with hp 0 and
isGameOver set. -/
theorem contact_pass_spec_witness :
    Game.update Impl.bundled ratOps (duelGame 10) (1 / 2) (fun _ => 1 / 2) =
      Except.ok (duelGameAfter 10) ∧
    (duelGameAfter 10).player.hp = 0 ∧ (duelGameAfter 10).isGameOver = true ∧
    ∃ s, Game.simulate Impl.bundled ratOps (duelGame 10) (1 / 2) = Except.ok s ∧
      (duelGameAfter 10).player = (fun (p : Player ℚ) => p.takeDamage 10)^[s.enemies.countP
        (fun (e : Enemy ℚ) => Physics.checkCollision s.player.toCircle e.toRect)] s.player ∧
      (s.enemies.any (fun (e : Enemy ℚ) => Physics.checkCollision s.player.toCircle e.toRect)
          = true →
        (duelGameAfter 10).player = s.player.takeDamage 10 ∧
        (duelGameAfter 10).isGameOver =
          ((duelGame 10).isGameOver || decide ((duelGameAfter 10).player.hp ≤ 0))) ∧
      (s.enemies.any (fun (e : Enemy ℚ) => Physics.checkCollision s.player.toCircle e.toRect)
          = false →
        (duelGameAfter 10).player = s.player ∧
        (duelGameAfter 10).player.hp = (duelGame 10).player.hp ∧
        (duelGameAfter 10).isGameOver = (duelGame 10).isGameOver) ∧
      ((duelGame 10).isGameOver = true → (duelGameAfter 10).isGameOver = true) :=
  ⟨duelGame_update Impl.bundled 10, by norm_num [duelGameAfter, contactPlayerAt],
    by simp [duelGameAfter],
    contact_pass_spec Impl.bundled ratOps (duelGame 10) (duelGameAfter 10) (1 / 2)
      (fun _ => 1 / 2) (duelGame_update Impl.bundled 10)⟩

/-- A tick of half a second on `crowdGame 500 0 10`: both enemies overlap the player at the
contact pass, and the player ends with hp 490. -/
theorem crowdGame_update (impl : Impl) :
    Game.simulate impl ratOps (crowdGame 500 0 10) (1 / 2) =
      Except.ok (crowdGame 500 0 (19 / 2)) ∧
    Game.update impl ratOps (crowdGame 500 0 10) (1 / 2) (fun _ => 1 / 2) =
      Except.ok (crowdGame 490 1 (19 / 2)) ∧
    (crowdGame 500 0 (19 / 2)).enemies.countP (fun (e : Enemy ℚ) =>
      Physics.checkCollision (crowdGame 500 0 (19 / 2)).player.toCircle e.toRect) = 2 := by
  have hn : Game.nearestEnemy (crowdGame 500 0 10) = some (Enemy.new 240 650) := by
    simp [Game.nearestEnemy, crowdGame, contactGameAt]
  have hu : (crowdGame 500 0 10).player.update impl ratOps (1 / 2) (crowdGame 500 0 10).input
      (crowdGame 500 0 10).width (crowdGame 500 0 10).height (some (Enemy.new 240 650)) =
      Except.ok (contactPlayerAt 500 0 (19 / 2), []) := by
    have h := contactPlayerAt_update impl 500 0 10 (by norm_num) (Enemy.new 240 650)
    norm_num at h
    exact h
  have hen : (Enemy.new (240 : ℚ) 650).update ratOps.sqrt (1 / 2)
      (contactPlayerAt 500 0 (19 / 2)) = Enemy.new 240 650 := by
    simp [Enemy.update, Enemy.new, contactPlayerAt, Player.new, ratOps_sqrt_zero]
  have hov := contactPlayerAt_overlap 500 0 (19 / 2)
  have hs : Game.simulate impl ratOps (crowdGame 500 0 10) (1 / 2) =
      Except.ok (crowdGame 500 0 (19 / 2)) := by
    rw [Game.simulate_eq impl ratOps (crowdGame 500 0 10) (1 / 2) _ _ (hn ▸ hu)]
    simp only [crowdGame, contactGameAt, List.map_nil, List.append_nil, List.map_cons, hen,
      Game.collideProjectiles_nil]
  have htd : (contactPlayerAt 500 0 (19 / 2)).takeDamage 10 = contactPlayerAt 490 1 (19 / 2) := by
    rw [Player.takeDamage_eq]
    norm_num [contactPlayerAt]
  have hl : Game.contactLoop (crowdGame 500 0 (19 / 2)).player (crowdGame 500 0 (19 / 2)).isGameOver
      (crowdGame 500 0 (19 / 2)).enemies = (contactPlayerAt 490 1 (19 / 2), false) := by
    rw [Game.contactLoop_eq, if_pos (by
      show ([Enemy.new 240 650, Enemy.new 240 650].any fun (e : Enemy ℚ) =>
        Physics.checkCollision (contactPlayerAt 500 0 (19 / 2)).toCircle e.toRect) = true
      simp only [List.any_cons, hov, Bool.true_or])]
    show ((contactPlayerAt 500 0 (19 / 2)).takeDamage 10,
      false || decide (((contactPlayerAt 500 0 (19 / 2)).takeDamage 10).hp ≤ 0)) = _
    rw [htd]
    norm_num [contactPlayerAt]
  refine ⟨hs, ?_, ?_⟩
  · simp only [Game.update, hs, Game.contactPass, hl, Game.waveCheck_eq]
    simp [Game.prune, crowdGame, contactGameAt, Enemy.new]
  · show [Enemy.new 240 650, Enemy.new 240 650].countP (fun (e : Enemy ℚ) =>
      Physics.checkCollision (contactPlayerAt 500 0 (19 / 2)).toCircle e.toRect) = 2
    simp only [List.countP_cons, List.countP_nil, hov, if_true]

/-- C30 on `crowdGame 500 0 10`: two enemies overlap the player, and the tick costs 10 hp. -/
theorem update_hp_step_witness :
    (crowdGame 500 0 (19 / 2)).enemies.countP (fun (e : Enemy ℚ) =>
      Physics.checkCollision (crowdGame 500 0 (19 / 2)).player.toCircle e.toRect) = 2 ∧
    (crowdGame 490 1 (19 / 2)).player.hp = (crowdGame 500 0 10).player.hp - 10 ∧
    ((crowdGame 490 1 (19 / 2)).player.hp = (crowdGame 500 0 10).player.hp ∨
      (crowdGame 490 1 (19 / 2)).player.hp = (crowdGame 500 0 10).player.hp - 10) ∧
    (∃ s, Game.simulate Impl.modular ratOps (crowdGame 500 0 10) (1 / 2) = Except.ok s ∧
      ((crowdGame 490 1 (19 / 2)).player = s.player ∨
        (crowdGame 490 1 (19 / 2)).player =
          { s.player with hp := s.player.hp - 10, invincibilityTimer := 1 })) ∧
    (∀ (p : Player ℚ) (a b : ℚ), ¬ p.invincibilityTimer > 0 →
      (p.takeDamage a).hp = p.hp - a ∧ (p.takeDamage a).invincibilityTimer = 1 ∧
      (p.takeDamage a).takeDamage b = p.takeDamage a) :=
  ⟨(crowdGame_update Impl.modular).2.2, by norm_num [crowdGame, contactGameAt, contactPlayerAt],
    update_hp_step Impl.modular ratOps (crowdGame 500 0 10) (crowdGame 490 1 (19 / 2)) (1 / 2)
      (fun _ => 1 / 2) (crowdGame_update Impl.modular).2.1⟩

/-! ### The prune and the wave check -/

/-- `Enemy.update` keeps hp and the deletion flag. -/
theorem Enemy.update_keeps (sqrt : α → α) (e : Enemy α) (deltaTime : α) (player : Player α) :
    (e.update sqrt deltaTime player).hp = e.hp ∧
    (e.update sqrt deltaTime player).markedForDeletion = e.markedForDeletion := by
  simp only [Enemy.update]
  split_ifs <;> exact ⟨rfl, rfl⟩

/-- An enemy that `takeDamage` leaves with hp ≤ 0 is marked for deletion. -/
theorem Enemy.takeDamage_marked (e : Enemy α) (amount : α)
    (h : (e.takeDamage amount).hp ≤ 0) : (e.takeDamage amount).markedForDeletion = true := by
  rw [(Enemy.takeDamage_fields e amount).1] at h
  rw [(Enemy.takeDamage_fields e amount).2]
  simp [h]

/-- The inner loop of the collision pass keeps the property that every enemy with hp ≤ 0 is
marked for deletion. -/
theorem Game.collideEnemies_fallen (wave : ℕ) (enemies : List (Enemy α)) :
    ∀ (proj : Projectile α) (player : Player α) (isPaused : Bool),
    (∀ e ∈ enemies, e.hp ≤ 0 → e.markedForDeletion = true) →
    ∀ e ∈ (Game.collideEnemies wave proj player isPaused enemies).2.enemies,
      e.hp ≤ 0 → e.markedForDeletion = true := by
  induction enemies with
  | nil =>
    intro proj player isPaused _ e he
    simp [Game.collideEnemies] at he
  | cons x rest ih =>
    intro proj player isPaused hall e he
    have hrest : ∀ a ∈ rest, a.hp ≤ 0 → a.markedForDeletion = true :=
      fun a ha => hall a (List.mem_cons_of_mem _ ha)
    simp only [Game.collideEnemies] at he
    split_ifs at he
    all_goals
      rcases List.mem_cons.mp he with h | h
      · rw [h]
        first
          | exact Enemy.takeDamage_marked x proj.damage
          | exact hall x (List.mem_cons_self _ _)
      · exact ih _ _ _ hrest e h

/-- The collision pass keeps the property that every enemy with hp ≤ 0 is marked for
deletion. -/
theorem Game.collideProjectiles_fallen (wave : ℕ) (projectiles : List (Projectile α)) :
    ∀ (player : Player α) (isPaused : Bool) (enemies : List (Enemy α)),
    (∀ e ∈ enemies, e.hp ≤ 0 → e.markedForDeletion = true) →
    ∀ e ∈ (Game.collideProjectiles wave player isPaused enemies projectiles).2.enemies,
      e.hp ≤ 0 → e.markedForDeletion = true := by
  induction projectiles with
  | nil =>
    intro player isPaused enemies hall e he
    exact hall e he
  | cons proj rest ih =>
    intro player isPaused enemies hall e he
    simp only [Game.collideProjectiles] at he
    split_ifs at he
    · exact ih _ _ _ (Game.collideEnemies_fallen wave enemies proj player isPaused hall) e he
    · exact ih _ _ _ hall e he

/-- The first part of a tick keeps the property that every enemy with hp ≤ 0 is marked for
deletion. -/
theorem Game.simulate_fallen (impl : Impl) (m : MathOps α) (g s : Game α) (deltaTime : α)
    (hs : g.simulate impl m deltaTime = Except.ok s)
    (hall : ∀ e ∈ g.enemies, e.hp ≤ 0 → e.markedForDeletion = true) :
    ∀ e ∈ s.enemies, e.hp ≤ 0 → e.markedForDeletion = true := by
  cases hp : g.player.update impl m deltaTime g.input g.width g.height g.nearestEnemy with
  | error e => simp [Game.simulate, hp] at hs
  | ok updated =>
    rw [Game.simulate_eq impl m g deltaTime updated.1 updated.2 hp] at hs
    simp only [Except.ok.injEq] at hs
    subst hs
    apply Game.collideProjectiles_fallen
    intro e he
    rw [List.mem_map] at he
    obtain ⟨a, ha, rfl⟩ := he
    rw [(Enemy.update_keeps _ a _ _).1, (Enemy.update_keeps _ a _ _).2]
    exact hall a ha

/-- The nearest enemy that the scan finds is one of the enemies of the game. -/
theorem Game.nearestEnemy_mem (g : Game α) (e : Enemy α) (h : g.nearestEnemy = some e) :
    e ∈ g.enemies := by
  have hscan := Game.nearestEnemy_scan g.player g.enemies [] (none, none) (Or.inl ⟨rfl, rfl⟩)
  unfold Game.nearestEnemy at h
  rcases hscan with ⟨h1, -⟩ | ⟨x, before, after, h1, h2, -⟩
  · rw [h1] at h
    exact Option.noConfusion h
  · rw [h1] at h
    simp only [Option.some.injEq] at h
    subst h
    rw [List.nil_append] at h2
    rw [h2]
    simp

/-- C27. After a tick that returns, no enemy and no projectile of the game is marked for
deletion. The projectiles are those that the first part of the tick left unmarked, in their
order, and the enemies are those it left unmarked, in their order, followed by the enemies that
the wave check spawned. An enemy that was marked is absent; when every enemy had hp > 0 or was
marked before the tick, every enemy has hp > 0 after it; and the nearest enemy that the next scan
finds is an unmarked enemy of the game. -/
theorem update_prunes_marked (impl : Impl) (m : MathOps α) (g g1 : Game α) (deltaTime : α)
    (random : ℕ → α) (hu : g.update impl m deltaTime random = Except.ok g1) :
    (∀ e ∈ g1.enemies, e.markedForDeletion = false) ∧
    (∀ p ∈ g1.projectiles, p.markedForDeletion = false) ∧
    (∃ s, g.simulate impl m deltaTime = Except.ok s ∧
      g1.projectiles = s.projectiles.filter (fun (p : Projectile α) => !p.markedForDeletion) ∧
      List.Sublist g1.projectiles s.projectiles ∧
      (∃ fresh, g1.enemies =
          s.enemies.filter (fun (e : Enemy α) => !e.markedForDeletion) ++ fresh ∧
        ∀ e ∈ fresh, e.hp = 30 ∧ e.markedForDeletion = false) ∧
      List.Sublist (s.enemies.filter (fun (e : Enemy α) => !e.markedForDeletion)) s.enemies ∧
      (∀ e ∈ s.enemies, e.markedForDeletion = true → e ∉ g1.enemies)) ∧
    ((∀ e ∈ g.enemies, e.hp ≤ 0 → e.markedForDeletion = true) → ∀ e ∈ g1.enemies, 0 < e.hp) ∧
    (∀ e, g1.nearestEnemy = some e → e ∈ g1.enemies ∧ e.markedForDeletion = false) := by
  obtain ⟨s, hs, -⟩ := Game.update_passes impl m g g1 deltaTime random hu
  obtain ⟨hp, -, -, -, -, he⟩ := Game.update_prune impl m g g1 s deltaTime random hu hs
  obtain ⟨hme, hmp⟩ := Game.update_unmarked impl m g g1 deltaTime random hu
  have hfresh : ∃ fresh, g1.enemies =
      s.enemies.filter (fun (e : Enemy α) => !e.markedForDeletion) ++ fresh ∧
      ∀ e ∈ fresh, e.hp = 30 ∧ e.markedForDeletion = false := by
    split_ifs at he with hc
    · refine ⟨(List.range (g.wave + 1 + 2)).map (fun (i : ℕ) =>
          Enemy.new (random (2 * i) * (g.width - 60) + 30)
            (random (2 * i + 1) * (g.height / 3) + 30)), ?_, ?_⟩
      · rw [hc.1, List.nil_append]
        exact he.2
      · intro e hmem
        rw [List.mem_map] at hmem
        obtain ⟨i, -, rfl⟩ := hmem
        exact ⟨rfl, rfl⟩
    · exact ⟨[], by rw [List.append_nil]; exact he.2, by simp⟩
  refine ⟨hme, hmp, ⟨s, hs, hp, ?_, hfresh, List.filter_sublist _, ?_⟩, ?_, ?_⟩
  · rw [hp]
    exact List.filter_sublist _
  · intro e _ hm hmem
    have h := hme e hmem
    rw [hm] at h
    exact Bool.noConfusion h
  · intro hall e hmem
    obtain ⟨fresh, hfe, hf⟩ := hfresh
    rw [hfe, List.mem_append] at hmem
    rcases hmem with h | h
    · rw [List.mem_filter] at h
      by_contra hneg
      have hm := Game.simulate_fallen impl m g s deltaTime hs hall e h.1 (not_lt.mp hneg)
      rw [hm] at h
      simp at h
    · rw [(hf e h).1]
      norm_num
  · intro e hn
    have hmem := Game.nearestEnemy_mem g1 e hn
    exact ⟨hmem, hme e hmem⟩

/-- C27 on `duelGame 500`: the enemy that the projectile brings to hp 0 and the spent projectile
are gone after the tick. -/
theorem update_prunes_marked_witness :
    fallenEnemy ∈ (duelGameHit 500).enemies ∧ fallenEnemy ∉ (duelGameAfter 500).enemies ∧
    (duelGameAfter 500).projectiles = [] ∧
    ((∀ e ∈ (duelGameAfter 500).enemies, e.markedForDeletion = false) ∧
    (∀ p ∈ (duelGameAfter 500).projectiles, p.markedForDeletion = false) ∧
    (∃ s, Game.simulate Impl.bundled ratOps (duelGame 500) (1 / 2) = Except.ok s ∧
      (duelGameAfter 500).projectiles =
        s.projectiles.filter (fun (p : Projectile ℚ) => !p.markedForDeletion) ∧
      List.Sublist (duelGameAfter 500).projectiles s.projectiles ∧
      (∃ fresh, (duelGameAfter 500).enemies =
          s.enemies.filter (fun (e : Enemy ℚ) => !e.markedForDeletion) ++ fresh ∧
        ∀ e ∈ fresh, e.hp = 30 ∧ e.markedForDeletion = false) ∧
      List.Sublist (s.enemies.filter (fun (e : Enemy ℚ) => !e.markedForDeletion)) s.enemies ∧
      (∀ e ∈ s.enemies, e.markedForDeletion = true → e ∉ (duelGameAfter 500).enemies)) ∧
    ((∀ e ∈ (duelGame 500).enemies, e.hp ≤ 0 → e.markedForDeletion = true) →
      ∀ e ∈ (duelGameAfter 500).enemies, 0 < e.hp) ∧
    (∀ e, (duelGameAfter 500).nearestEnemy = some e →
      e ∈ (duelGameAfter 500).enemies ∧ e.markedForDeletion = false)) :=
  ⟨List.mem_singleton.mpr rfl, by simp [duelGameAfter, fallenEnemy, Enemy.new], rfl,
    update_prunes_marked Impl.bundled ratOps (duelGame 500) (duelGameAfter 500) (1 / 2)
      (fun _ => 1 / 2) (duelGame_update Impl.bundled 500)⟩

/-- C22. The wave check of a tick that returns, on the game `s` that the first part of the tick
leaves: if no unmarked enemy is left and the game is not paused, wave goes up by one and the
enemies are exactly (new wave) + 2 fresh ones, each with hp = maxHp = 30 and unmarked, at the
positions drawn from `Math.random()`; otherwise wave is unchanged and the enemies are the
unmarked ones, with none spawned. Clearing wave 1 gives wave 2 with 4 enemies. -/
theorem wave_check_spec (impl : Impl) (m : MathOps α) (g g1 : Game α) (deltaTime : α)
    (random : ℕ → α) (hu : g.update impl m deltaTime random = Except.ok g1) :
    ∃ s, g.simulate impl m deltaTime = Except.ok s ∧ g1.isPaused = s.isPaused ∧
      (if s.enemies.filter (fun (e : Enemy α) => !e.markedForDeletion) = [] ∧ s.isPaused = false
        then
          g1.wave = g.wave + 1 ∧ g1.enemies.length = g1.wave + 2 ∧
          g1.enemies = (List.range (g1.wave + 2)).map (fun (i : ℕ) =>
            Enemy.new (random (2 * i) * (g.width - 60) + 30)
              (random (2 * i + 1) * (g.height / 3) + 30)) ∧
          (∀ e ∈ g1.enemies, e.hp = 30 ∧ e.maxHp = 30 ∧ e.markedForDeletion = false) ∧
          (g.wave = 1 → g1.wave = 2 ∧ g1.enemies.length = 4)
        else
          g1.wave = g.wave ∧
          g1.enemies = s.enemies.filter (fun (e : Enemy α) => !e.markedForDeletion)) := by
  obtain ⟨s, hs, -⟩ := Game.update_passes impl m g g1 deltaTime random hu
  obtain ⟨-, hp, -, -, -, he⟩ := Game.update_prune impl m g g1 s deltaTime random hu hs
  refine ⟨s, hs, hp, ?_⟩
  by_cases hc : s.enemies.filter (fun (e : Enemy α) => !e.markedForDeletion) = [] ∧
      s.isPaused = false
  · rw [if_pos hc] at he
    rw [if_pos hc]
    obtain ⟨hw, hen⟩ := he
    have hlen : g1.enemies.length = g1.wave + 2 := by
      rw [hen, hw, List.length_map, List.length_range]
    refine ⟨hw, hlen, by rw [hen, hw], ?_, ?_⟩
    · intro e hmem
      rw [hen, List.mem_map] at hmem
      obtain ⟨i, -, rfl⟩ := hmem
      exact ⟨rfl, rfl, rfl⟩
    · intro h1
      rw [hlen, hw, h1]
      exact ⟨rfl, rfl⟩
  · rw [if_neg hc] at he
    rw [if_neg hc]
    exact he

/-- C22 on `duelGame 500`, a game in wave 1 whose only enemy falls in the tick: the game is in
wave 2 with 4 enemies afterwards. -/
theorem wave_check_spec_witness :
    (duelGame 500).wave = 1 ∧ (duelGameAfter 500).wave = 2 ∧
    (duelGameAfter 500).enemies.length = 4 ∧
    ∃ s, Game.simulate Impl.bundled ratOps (duelGame 500) (1 / 2) = Except.ok s ∧
      (duelGameAfter 500).isPaused = s.isPaused ∧
      (if s.enemies.filter (fun (e : Enemy ℚ) => !e.markedForDeletion) = [] ∧ s.isPaused = false
        then
          (duelGameAfter 500).wave = (duelGame 500).wave + 1 ∧
          (duelGameAfter 500).enemies.length = (duelGameAfter 500).wave + 2 ∧
          (duelGameAfter 500).enemies =
            (List.range ((duelGameAfter 500).wave + 2)).map (fun (i : ℕ) =>
              Enemy.new ((fun _ => 1 / 2 : ℕ → ℚ) (2 * i) * ((duelGame 500).width - 60) + 30)
                ((fun _ => 1 / 2 : ℕ → ℚ) (2 * i + 1) * ((duelGame 500).height / 3) + 30)) ∧
          (∀ e ∈ (duelGameAfter 500).enemies,
            e.hp = 30 ∧ e.maxHp = 30 ∧ e.markedForDeletion = false) ∧
          ((duelGame 500).wave = 1 →
            (duelGameAfter 500).wave = 2 ∧ (duelGameAfter 500).enemies.length = 4)
        else
          (duelGameAfter 500).wave = (duelGame 500).wave ∧
          (duelGameAfter 500).enemies =
            s.enemies.filter (fun (e : Enemy ℚ) => !e.markedForDeletion)) :=
  ⟨rfl, rfl, rfl,
    wave_check_spec Impl.bundled ratOps (duelGame 500) (duelGameAfter 500) (1 / 2)
      (fun _ => 1 / 2) (duelGame_update Impl.bundled 500)⟩

/-! ### The collision pass, projectile by projectile -/

/-- The inner loop of the collision pass changes nothing when every enemy is marked for deletion
or out of reach of the projectile. -/
theorem Game.collideEnemies_miss (wave : ℕ) (proj : Projectile α) (player : Player α)
    (isPaused : Bool) (enemies : List (Enemy α))
    (h : ∀ b ∈ enemies, b.markedForDeletion = true ∨ proj.checkCollision b = false) :
    Game.collideEnemies wave proj player isPaused enemies =
      (proj, { player := player, isPaused := isPaused, enemies := enemies }) := by
  induction enemies with
  | nil => rfl
  | cons x rest ih =>
    have hx : ¬ (!proj.markedForDeletion && !x.markedForDeletion && proj.checkCollision x) = true := by
      rcases h x (List.mem_cons_self _ _) with hm | hm <;> simp [hm]
    simp only [Game.collideEnemies]
    rw [if_neg hx, ih (fun b hb => h b (List.mem_cons_of_mem _ hb))]

/-- The inner loop of the collision pass changes nothing when the projectile is marked for
deletion. -/
theorem Game.collideEnemies_marked (wave : ℕ) (proj : Projectile α) (player : Player α)
    (isPaused : Bool) (enemies : List (Enemy α)) (h : proj.markedForDeletion = true) :
    Game.collideEnemies wave proj player isPaused enemies =
      (proj, { player := player, isPaused := isPaused, enemies := enemies }) := by
  induction enemies with
  | nil => rfl
  | cons x rest ih =>
    have hx : ¬ (!proj.markedForDeletion && !x.markedForDeletion && proj.checkCollision x) = true := by
      simp [h]
    simp only [Game.collideEnemies]
    rw [if_neg hx, ih]

/-- The inner loop of the collision pass when the projectile is unmarked and `e` is the first
enemy that is unmarked and in its reach: `e` takes the damage, the projectile is marked, and the
enemies before and after `e` are untouched. -/
theorem Game.collideEnemies_first (wave : ℕ) (proj : Projectile α) (player : Player α)
    (isPaused : Bool) (before after : List (Enemy α)) (e : Enemy α)
    (hp : proj.markedForDeletion = false)
    (hb : ∀ b ∈ before, b.markedForDeletion = true ∨ proj.checkCollision b = false)
    (hm : e.markedForDeletion = false) (hc : proj.checkCollision e = true) :
    Game.collideEnemies wave proj player isPaused (before ++ e :: after) =
      ({ proj with markedForDeletion := true },
        { player :=
            if (e.takeDamage proj.damage).hp ≤ 0 then
              (player.gainXp (((20 + wave * 5 : ℕ) : α))).2
            else player
          isPaused :=
            if (e.takeDamage proj.damage).hp ≤ 0 then
              (if (player.gainXp (((20 + wave * 5 : ℕ) : α))).1 then true else isPaused)
            else isPaused
          enemies := before ++ e.takeDamage proj.damage :: after }) := by
  induction before with
  | nil =>
    have hx : (!proj.markedForDeletion && !e.markedForDeletion && proj.checkCollision e) = true := by
      simp [hp, hm, hc]
    simp only [List.nil_append, Game.collideEnemies]
    rw [if_pos hx]
    split_ifs <;> rw [Game.collideEnemies_marked _ _ _ _ _ rfl]
  | cons x rest ih =>
    have hx : ¬ (!proj.markedForDeletion && !x.markedForDeletion && proj.checkCollision x) = true := by
      rcases hb x (List.mem_cons_self _ _) with h | h <;> simp [h]
    simp only [List.cons_append, Game.collideEnemies, List.append_eq]
    rw [if_neg hx, ih (fun b hb2 => hb b (List.mem_cons_of_mem _ hb2))]

/-- C29. In the collision pass a player projectile that is not marked damages the first enemy `e`
in list order that is unmarked and in its reach, and no other: the enemies before and after `e`
are untouched, and the projectile is marked by the hit. A projectile that finds no such enemy, a
projectile that is marked already, and a projectile that is not the player's leave the enemies
as they are. -/
theorem projectile_hits_first_enemy (wave : ℕ) (proj : Projectile α) (player : Player α)
    (isPaused : Bool) (before after : List (Enemy α)) (e : Enemy α)
    (rest : List (Projectile α))
    (hplayer : proj.isPlayerProjectile = true)
    (hp : proj.markedForDeletion = false)
    (hb : ∀ b ∈ before, b.markedForDeletion = true ∨ proj.checkCollision b = false)
    (hm : e.markedForDeletion = false) (hc : proj.checkCollision e = true) :
    (Game.collideEnemies wave proj player isPaused (before ++ e :: after)).1 =
      { proj with markedForDeletion := true } ∧
    (Game.collideEnemies wave proj player isPaused (before ++ e :: after)).2.enemies =
      before ++ e.takeDamage proj.damage :: after ∧
    (e.takeDamage proj.damage).hp = e.hp - proj.damage ∧
    (∃ c : Collision α, Game.collideProjectiles wave player isPaused (before ++ e :: after) (proj :: rest) =
      ({ proj with markedForDeletion := true } ::
          (Game.collideProjectiles wave c.player c.isPaused
            (before ++ e.takeDamage proj.damage :: after) rest).1,
        (Game.collideProjectiles wave c.player c.isPaused
          (before ++ e.takeDamage proj.damage :: after) rest).2)) ∧
    (∀ enemies : List (Enemy α),
      (∀ b ∈ enemies, b.markedForDeletion = true ∨ proj.checkCollision b = false) →
      Game.collideProjectiles wave player isPaused enemies (proj :: rest) =
        (proj :: (Game.collideProjectiles wave player isPaused enemies rest).1,
          (Game.collideProjectiles wave player isPaused enemies rest).2)) ∧
    (∀ enemies : List (Enemy α),
      Game.collideProjectiles wave player isPaused enemies
          ({ proj with markedForDeletion := true } :: rest) =
        ({ proj with markedForDeletion := true } ::
            (Game.collideProjectiles wave player isPaused enemies rest).1,
          (Game.collideProjectiles wave player isPaused enemies rest).2)) ∧
    (∀ enemies : List (Enemy α),
      Game.collideProjectiles wave player isPaused enemies
          ({ proj with isPlayerProjectile := false } :: rest) =
        ({ proj with isPlayerProjectile := false } ::
            (Game.collideProjectiles wave player isPaused enemies rest).1,
          (Game.collideProjectiles wave player isPaused enemies rest).2)) := by
  have hfirst := Game.collideEnemies_first wave proj player isPaused before after e hp hb hm hc
  refine ⟨by rw [hfirst], by rw [hfirst], (Enemy.takeDamage_fields e proj.damage).1, ?_, ?_, ?_,
    ?_⟩
  · refine ⟨(Game.collideEnemies wave proj player isPaused (before ++ e :: after)).2, ?_⟩
    simp only [Game.collideProjectiles]
    rw [if_pos hplayer, hfirst]
  · intro enemies hmiss
    simp only [Game.collideProjectiles]
    rw [if_pos hplayer, Game.collideEnemies_miss wave proj player isPaused enemies hmiss]
  · intro enemies
    simp only [Game.collideProjectiles]
    rw [if_pos (show ({ proj with markedForDeletion := true } : Projectile α).isPlayerProjectile
      = true from hplayer), Game.collideEnemies_marked _ _ _ _ _ rfl]
  · intro enemies
    simp only [Game.collideProjectiles]
    rw [if_neg (by simp)]

/-- C29 on a projectile that rests at (240, 650) and `lineOfEnemies`: the first enemy is out of
reach, the second takes the 10 damage, and the third, which overlaps the projectile too, keeps
its 30 hp. -/
theorem projectile_hits_first_enemy_witness :
    (Game.collideEnemies 1 (restingProjectile 240 650) (contactPlayerAt 500 0 10) false
      ([Enemy.new 0 0] ++ Enemy.new 240 650 :: [Enemy.new 240 650])).1 =
      { restingProjectile 240 650 with markedForDeletion := true } ∧
    (Game.collideEnemies 1 (restingProjectile 240 650) (contactPlayerAt 500 0 10) false
      ([Enemy.new 0 0] ++ Enemy.new 240 650 :: [Enemy.new 240 650])).2.enemies =
      [Enemy.new 0 0] ++
        (Enemy.new 240 650).takeDamage (restingProjectile 240 650).damage ::
          [Enemy.new 240 650] ∧
    ((Enemy.new 240 650).takeDamage (restingProjectile 240 650).damage).hp =
      (Enemy.new (240 : ℚ) 650).hp - (restingProjectile 240 650).damage ∧
    (∃ c : Collision ℚ, Game.collideProjectiles 1 (contactPlayerAt 500 0 10) false
        ([Enemy.new 0 0] ++ Enemy.new 240 650 :: [Enemy.new 240 650])
        (restingProjectile 240 650 :: []) =
      ({ restingProjectile 240 650 with markedForDeletion := true } ::
          (Game.collideProjectiles 1 c.player c.isPaused
            ([Enemy.new 0 0] ++
              (Enemy.new 240 650).takeDamage (restingProjectile 240 650).damage ::
                [Enemy.new 240 650]) []).1,
        (Game.collideProjectiles 1 c.player c.isPaused
          ([Enemy.new 0 0] ++
            (Enemy.new 240 650).takeDamage (restingProjectile 240 650).damage ::
              [Enemy.new 240 650]) []).2)) ∧
    (∀ enemies : List (Enemy ℚ),
      (∀ b ∈ enemies, b.markedForDeletion = true ∨
        (restingProjectile 240 650).checkCollision b = false) →
      Game.collideProjectiles 1 (contactPlayerAt 500 0 10) false enemies
          (restingProjectile 240 650 :: []) =
        (restingProjectile 240 650 ::
            (Game.collideProjectiles 1 (contactPlayerAt 500 0 10) false enemies []).1,
          (Game.collideProjectiles 1 (contactPlayerAt 500 0 10) false enemies []).2)) ∧
    (∀ enemies : List (Enemy ℚ),
      Game.collideProjectiles 1 (contactPlayerAt 500 0 10) false enemies
          ({ restingProjectile 240 650 with markedForDeletion := true } :: []) =
        ({ restingProjectile 240 650 with markedForDeletion := true } ::
            (Game.collideProjectiles 1 (contactPlayerAt 500 0 10) false enemies []).1,
          (Game.collideProjectiles 1 (contactPlayerAt 500 0 10) false enemies []).2)) ∧
    (∀ enemies : List (Enemy ℚ),
      Game.collideProjectiles 1 (contactPlayerAt 500 0 10) false enemies
          ({ restingProjectile 240 650 with isPlayerProjectile := false } :: []) =
        ({ restingProjectile 240 650 with isPlayerProjectile := false } ::
            (Game.collideProjectiles 1 (contactPlayerAt 500 0 10) false enemies []).1,
          (Game.collideProjectiles 1 (contactPlayerAt 500 0 10) false enemies []).2)) :=
  projectile_hits_first_enemy 1 (restingProjectile 240 650) (contactPlayerAt 500 0 10) false
    [Enemy.new 0 0] [Enemy.new 240 650] (Enemy.new 240 650) [] rfl rfl
    (by
      intro b hb
      rw [List.mem_singleton] at hb
      subst hb
      right
      simp [Projectile.checkCollision, restingProjectile, Physics.checkCollision, Enemy.new,
        Enemy.toRect]
      norm_num)
    rfl
    (by
      simp [Projectile.checkCollision, restingProjectile, Physics.checkCollision, Enemy.new,
        Enemy.toRect]
      norm_num)

/-! ### The two variants of Projectile.update -/

/-- The 2D variant of `Projectile.update` in closed form. -/
theorem Projectile.update2D_eq (p : Projectile α) (deltaTime gameWidth gameHeight : α) :
    p.update2D deltaTime gameWidth gameHeight =
      { p.move deltaTime with
        markedForDeletion := p.markedForDeletion ||
          (jsLt (p.move deltaTime).x 0 || jsGt (p.move deltaTime).x gameWidth ||
            jsLt (p.move deltaTime).y 0 || jsGt (p.move deltaTime).y gameHeight) } := by
  simp only [Projectile.update2D]
  split_ifs with h
  · rw [h, Bool.or_true]
  · rw [Bool.not_eq_true] at h
    rw [h, Bool.or_false]
    rfl

/-- The 3D variant of `Projectile.update` in closed form. -/
theorem Projectile.update3D_eq (p : Projectile α) (deltaTime gameWidth gameHeight : α) :
    p.update3D deltaTime gameWidth gameHeight =
      { p.move deltaTime with
        markedForDeletion := p.markedForDeletion ||
          (jsLt (p.move deltaTime).x (-500) || jsGt (p.move deltaTime).x (gameWidth + 500) ||
            jsLt (p.move deltaTime).y (-500) || jsGt (p.move deltaTime).y (gameHeight + 500)) } := by
  simp only [Projectile.update3D]
  split_ifs with h
  · rw [h, Bool.or_true]
  · rw [Bool.not_eq_true] at h
    rw [h, Bool.or_false]
    rfl

/-- C26. Both variants of `Projectile.update` move the projectile in the same way and differ in
the deletion flag only. The 2D variant leaves the flag set exactly when it was set or the new
position has x < 0, x > gameWidth, y < 0 or y > gameHeight, so a position on the boundary is
kept; the 3D variant exactly when it was set or the position is more than 500 outside those
limits. What the 3D variant marks the 2D variant marks, and neither clears the flag. -/
theorem projectile_update_variants (p : Projectile α) (deltaTime gameWidth gameHeight : α) :
    p.update Impl.modular deltaTime gameWidth gameHeight =
      { p.move deltaTime with
        markedForDeletion := (p.update Impl.modular deltaTime gameWidth gameHeight).markedForDeletion } ∧
    p.update Impl.bundled deltaTime gameWidth gameHeight =
      { p.move deltaTime with
        markedForDeletion := (p.update Impl.bundled deltaTime gameWidth gameHeight).markedForDeletion } ∧
    (p.update Impl.modular deltaTime gameWidth gameHeight).x =
      (p.update Impl.bundled deltaTime gameWidth gameHeight).x ∧
    (p.update Impl.modular deltaTime gameWidth gameHeight).y =
      (p.update Impl.bundled deltaTime gameWidth gameHeight).y ∧
    (∀ x y : α, (p.move deltaTime).x = some x → (p.move deltaTime).y = some y →
      ((p.update Impl.modular deltaTime gameWidth gameHeight).markedForDeletion = true ↔
        p.markedForDeletion = true ∨ x < 0 ∨ x > gameWidth ∨ y < 0 ∨ y > gameHeight) ∧
      ((p.update Impl.bundled deltaTime gameWidth gameHeight).markedForDeletion = true ↔
        p.markedForDeletion = true ∨ x < -500 ∨ x > gameWidth + 500 ∨ y < -500 ∨
          y > gameHeight + 500)) ∧
    ((p.update Impl.bundled deltaTime gameWidth gameHeight).markedForDeletion = true →
      (p.update Impl.modular deltaTime gameWidth gameHeight).markedForDeletion = true) ∧
    (p.markedForDeletion = true →
      (p.update Impl.modular deltaTime gameWidth gameHeight).markedForDeletion = true ∧
      (p.update Impl.bundled deltaTime gameWidth gameHeight).markedForDeletion = true) := by
  have h2 := Projectile.update2D_eq p deltaTime gameWidth gameHeight
  have h3 := Projectile.update3D_eq p deltaTime gameWidth gameHeight
  have hm : (p.move deltaTime).markedForDeletion = p.markedForDeletion := rfl
  have e2 : (p.update Impl.modular deltaTime gameWidth gameHeight).markedForDeletion =
      (p.markedForDeletion ||
        (jsLt (p.move deltaTime).x 0 || jsGt (p.move deltaTime).x gameWidth ||
          jsLt (p.move deltaTime).y 0 || jsGt (p.move deltaTime).y gameHeight)) := by
    show (p.update2D deltaTime gameWidth gameHeight).markedForDeletion = _
    rw [h2]
  have e3 : (p.update Impl.bundled deltaTime gameWidth gameHeight).markedForDeletion =
      (p.markedForDeletion ||
        (jsLt (p.move deltaTime).x (-500) || jsGt (p.move deltaTime).x (gameWidth + 500) ||
          jsLt (p.move deltaTime).y (-500) || jsGt (p.move deltaTime).y (gameHeight + 500))) := by
    show (p.update3D deltaTime gameWidth gameHeight).markedForDeletion = _
    rw [h3]
  have hxy : ∀ x y : α, (p.move deltaTime).x = some x → (p.move deltaTime).y = some y →
      ((p.update Impl.modular deltaTime gameWidth gameHeight).markedForDeletion = true ↔
        p.markedForDeletion = true ∨ x < 0 ∨ x > gameWidth ∨ y < 0 ∨ y > gameHeight) ∧
      ((p.update Impl.bundled deltaTime gameWidth gameHeight).markedForDeletion = true ↔
        p.markedForDeletion = true ∨ x < -500 ∨ x > gameWidth + 500 ∨ y < -500 ∨
          y > gameHeight + 500) := by
    intro x y hx hy
    rw [e2, e3, hx, hy]
    simp only [jsLt, jsGt, Bool.or_eq_true, decide_eq_true_eq]
    constructor <;> tauto
  refine ⟨?_, ?_, ?_, ?_, hxy, ?_, ?_⟩
  · show p.update2D deltaTime gameWidth gameHeight = _
    rw [e2]
    exact h2
  · show p.update3D deltaTime gameWidth gameHeight = _
    rw [e3]
    exact h3
  · rw [(Projectile.update_fields Impl.modular p _ _ _).1,
      (Projectile.update_fields Impl.bundled p _ _ _).1]
  · rw [(Projectile.update_fields Impl.modular p _ _ _).2.1,
      (Projectile.update_fields Impl.bundled p _ _ _).2.1]
  · intro h
    cases hx : (p.move deltaTime).x with
    | none =>
      rw [e3] at h
      rw [e2]
      cases hy : (p.move deltaTime).y with
      | none => simpa [hx, hy, jsLt, jsGt] using h
      | some y =>
        simp only [hx, hy, jsLt, jsGt, Bool.or_eq_true, decide_eq_true_eq, Bool.false_eq_true,
          false_or, or_false] at h ⊢
        rcases h with h | h | h
        · exact Or.inl h
        · right; left; linarith
        · right; right; linarith
    | some x =>
      cases hy : (p.move deltaTime).y with
      | none =>
        rw [e3] at h
        rw [e2]
        simp only [hx, hy, jsLt, jsGt, Bool.or_eq_true, decide_eq_true_eq, Bool.false_eq_true,
          false_or, or_false] at h ⊢
        rcases h with h | h | h
        · exact Or.inl h
        · right; left; linarith
        · right; right; linarith
      | some y =>
        have hb := hxy x y hx hy
        rw [hb.1]
        rcases hb.2.mp h with h | h | h | h | h
        · exact Or.inl h
        · right; left; linarith
        · right; right; left; linarith
        · right; right; right; left; linarith
        · right; right; right; right; linarith
  · intro h
    rw [e2, e3, h]
    exact ⟨rfl, rfl⟩

/-! ### Game.loop and Game.restart -/

/-- A call of `Game.loop` on a paused or finished game sets lastTime and requests no frame. -/
theorem Game.loop_frozen (impl : Impl) (m : MathOps α) (g : Game α) (timestamp : α)
    (random : ℕ → α) (h : g.isPaused = true ∨ g.isGameOver = true) :
    g.loop impl m timestamp random = Except.ok ({ g with lastTime := timestamp }, false) := by
  have hc : (g.isPaused || g.isGameOver) = true := by
    rcases h with h | h <;> simp [h]
  have hn : ¬ (!g.isGameOver && !g.isPaused) = true := by
    rcases h with h | h <;> simp [h]
  simp only [Game.loop]
  rw [if_pos hc, if_neg hn]

/-- Calls of `Game.loop` on a paused or finished game leave it as it is, apart from lastTime,
which is the last timestamp. -/
theorem Game.loops_frozen (impl : Impl) (m : MathOps α) (random : ℕ → α)
    (timestamps : List α) :
    ∀ (g : Game α), (g.isPaused = true ∨ g.isGameOver = true) →
      Game.loops impl m random g timestamps =
        Except.ok { g with lastTime := timestamps.getLastD g.lastTime } := by
  induction timestamps with
  | nil => intro g _; rfl
  | cons t rest ih =>
    intro g h
    simp only [Game.loops]
    rw [Game.loop_frozen impl m g t random h]
    have h2 : ({ g with lastTime := t } : Game α).isPaused = true ∨
        ({ g with lastTime := t } : Game α).isGameOver = true := h
    simp only [ih _ h2]
    cases rest <;> rfl

/-- C23. While isPaused or isGameOver is true, a call `Game.loop(timestamp)` returns without a
simulation step, for every timestamp and in both implementations: only lastTime is set, and no
animation frame is requested. However many calls follow, the player, the enemies, the
projectiles, wave, isPaused and isGameOver stay as they are. -/
theorem loop_frozen_while_paused_or_over (impl : Impl) (m : MathOps α) (g : Game α) (timestamp : α)
    (random : ℕ → α) (h : g.isPaused = true ∨ g.isGameOver = true) :
    g.loop impl m timestamp random = Except.ok ({ g with lastTime := timestamp }, false) ∧
    ∀ timestamps : List α, ∃ g1, Game.loops impl m random g timestamps = Except.ok g1 ∧
      g1 = { g with lastTime := timestamps.getLastD g.lastTime } ∧
      g1.player = g.player ∧ g1.enemies = g.enemies ∧ g1.projectiles = g.projectiles ∧
      g1.wave = g.wave ∧ g1.isPaused = g.isPaused ∧ g1.isGameOver = g.isGameOver :=
  ⟨Game.loop_frozen impl m g timestamp random h, fun timestamps =>
    ⟨_, Game.loops_frozen impl m random timestamps g h, rfl, rfl, rfl, rfl, rfl, rfl, rfl⟩⟩

/-- C23 on `duelGameAfter 10`, a game that is over, at the timestamp 1000. -/
theorem loop_frozen_while_paused_or_over_witness :
    (duelGameAfter 10).isGameOver = true ∧
    (Game.loop Impl.modular ratOps (duelGameAfter 10) 1000 (fun _ => 1 / 2) =
      Except.ok ({ duelGameAfter 10 with lastTime := 1000 }, false) ∧
    ∀ timestamps : List ℚ, ∃ g1,
      Game.loops Impl.modular ratOps (fun _ => 1 / 2) (duelGameAfter 10) timestamps =
        Except.ok g1 ∧
      g1 = { duelGameAfter 10 with lastTime := timestamps.getLastD (duelGameAfter 10).lastTime } ∧
      g1.player = (duelGameAfter 10).player ∧ g1.enemies = (duelGameAfter 10).enemies ∧
      g1.projectiles = (duelGameAfter 10).projectiles ∧
      g1.wave = (duelGameAfter 10).wave ∧ g1.isPaused = (duelGameAfter 10).isPaused ∧
      g1.isGameOver = (duelGameAfter 10).isGameOver) :=
  ⟨by simp [duelGameAfter],
    loop_frozen_while_paused_or_over Impl.modular ratOps (duelGameAfter 10) 1000
      (fun _ => 1 / 2) (Or.inr (by simp [duelGameAfter]))⟩

/-- `Game.restart` in closed form: of the prior game only the bounds and the input are kept. -/
theorem Game.restart_eq (g : Game α) (now : α) (random : ℕ → α) :
    g.restart now random =
      { width := g.width
        height := g.height
        lastTime := now
        input := g.input
        player := Player.new (g.width / 2) (g.height - 150) true g.height
        enemies := (List.range 3).map (fun (i : ℕ) =>
          Enemy.new (random (2 * i) * (g.width - 60) + 30)
            (random (2 * i + 1) * (g.height / 3) + 30))
        projectiles := []
        isPaused := false
        isGameOver := false
        wave := 1 } := by
  simp only [Game.restart, Game.spawnEnemies_eq, List.nil_append]

/-- C24. After `Game.restart`, from every prior game: wave is 1, there are exactly 3 enemies,
each with hp = maxHp = 30 and unmarked, there is no projectile, isPaused and isGameOver are
false, and the player is the fresh player, entering towards targetY = height − 150 at
x = width / 2. A second restart gives the same game when the clock and `Math.random()` return
the same, and in any case the same game up to lastTime and the positions of the enemies. -/
theorem restart_spec (g : Game α) (now : α) (random : ℕ → α) :
    (g.restart now random).wave = 1 ∧ (g.restart now random).enemies.length = 3 ∧
    (∀ e ∈ (g.restart now random).enemies,
      e.hp = 30 ∧ e.maxHp = 30 ∧ e.markedForDeletion = false) ∧
    (g.restart now random).projectiles = [] ∧
    (g.restart now random).isPaused = false ∧ (g.restart now random).isGameOver = false ∧
    (g.restart now random).player = Player.new (g.width / 2) (g.height - 150) true g.height ∧
    ((g.restart now random).player.hp = 500 ∧ (g.restart now random).player.maxHp = 500 ∧
      (g.restart now random).player.level = 1 ∧ (g.restart now random).player.xp = 0 ∧
      (g.restart now random).player.xpToNextLevel = 100 ∧
      (g.restart now random).player.projectileCount = 1 ∧
      (g.restart now random).player.damage = 10 ∧
      (g.restart now random).player.x = g.width / 2 ∧
      (g.restart now random).player.isEntering = true ∧
      (g.restart now random).player.targetY = g.height - 150) ∧
    (g.restart now random).restart now random = g.restart now random ∧
    (∀ (now2 : α) (random2 : ℕ → α),
      (g.restart now random).restart now2 random2 = g.restart now2 random2 ∧
      (g.restart now2 random2).player = (g.restart now random).player ∧
      (g.restart now2 random2).wave = (g.restart now random).wave ∧
      (g.restart now2 random2).projectiles = (g.restart now random).projectiles ∧
      (g.restart now2 random2).isPaused = (g.restart now random).isPaused ∧
      (g.restart now2 random2).isGameOver = (g.restart now random).isGameOver ∧
      List.Forall₂
        (fun (a b : Enemy α) => a.hp = b.hp ∧ a.maxHp = b.maxHp ∧
          a.markedForDeletion = b.markedForDeletion ∧ a.width = b.width ∧
          a.height = b.height ∧ a.speed = b.speed)
        (g.restart now2 random2).enemies (g.restart now random).enemies) := by
  have hmem : ∀ e ∈ (g.restart now random).enemies,
      e.hp = 30 ∧ e.maxHp = 30 ∧ e.markedForDeletion = false := by
    intro e he
    rw [Game.restart_eq] at he
    simp only [List.mem_map] at he
    obtain ⟨i, -, rfl⟩ := he
    exact ⟨rfl, rfl, rfl⟩
  have hre : ∀ (now2 : α) (random2 : ℕ → α),
      (g.restart now random).restart now2 random2 = g.restart now2 random2 := by
    intro now2 random2
    rw [Game.restart_eq (g.restart now random), Game.restart_eq g now2 random2,
      Game.restart_eq g now random]
  refine ⟨by rw [Game.restart_eq], by rw [Game.restart_eq]; rfl, hmem, by rw [Game.restart_eq],
    by rw [Game.restart_eq], by rw [Game.restart_eq], by rw [Game.restart_eq], ?_, hre now random,
    ?_⟩
  · rw [Game.restart_eq]
    refine ⟨rfl, rfl, rfl, rfl, rfl, rfl, rfl, rfl, rfl, rfl⟩
  · intro now2 random2
    refine ⟨hre now2 random2, ?_⟩
    rw [Game.restart_eq g now2 random2, Game.restart_eq g now random]
    refine ⟨rfl, rfl, rfl, rfl, rfl, ?_⟩
    simp [List.range_succ, Enemy.new]

/-! ### Player.update in the two implementations -/

/-- The invincibility step and the movement step keep the fields that the attack logic reads. -/
theorem Player.updateMovement_attack (p : Player α) (axis : Vec2 α)
    (deltaTime gameWidth gameHeight : α) :
    ((p.updateInvincibility deltaTime).updateMovement axis deltaTime gameWidth
      gameHeight).attackTimer = p.attackTimer ∧
    ((p.updateInvincibility deltaTime).updateMovement axis deltaTime gameWidth
      gameHeight).attackSpeed = p.attackSpeed ∧
    ((p.updateInvincibility deltaTime).updateMovement axis deltaTime gameWidth
      gameHeight).projectileCount = p.projectileCount := by
  simp only [Player.updateMovement, Player.updateInvincibility]
  split_ifs <;> exact ⟨rfl, rfl, rfl⟩

/-- `Player.update` on a player that is entering and on an Active player. -/
theorem Player.update_cases (impl : Impl) (m : MathOps α) (p : Player α) (deltaTime : α)
    (input : Keys) (gameWidth gameHeight : α) (nearestEnemy : Option (Enemy α)) :
    (p.isEntering = true →
      p.update impl m deltaTime input gameWidth gameHeight nearestEnemy =
        Except.ok (p.updateEntrance deltaTime, [])) ∧
    (p.isEntering = false →
      p.update impl m deltaTime input gameWidth gameHeight nearestEnemy =
        ((p.updateInvincibility deltaTime).updateMovement (InputSystem.getAxis m.sqrt input)
          deltaTime gameWidth gameHeight).updateAttack impl m deltaTime nearestEnemy) := by
  constructor
  · intro h
    simp only [Player.update, h, if_true]
  · intro h
    simp only [Player.update, h, if_false, Bool.false_eq_true]

/-- C25. The modular and the bundled `Player.update` agree on a player that is entering, and on
an Active player when no enemy is given or attackTimer − deltaTime is > 0: same player, no
callback request. On an Active player with an enemy given and attackTimer − deltaTime ≤ 0 they
differ: the modular one throws the TypeError of the missing method shoot, the bundled one returns
with attackTimer = attackSpeed and projectileCount requests. -/
theorem player_update_modular_vs_bundled (m : MathOps α) (p : Player α) (deltaTime : α)
    (input : Keys) (gameWidth gameHeight : α) :
    (∀ nearestEnemy : Option (Enemy α),
      (p.isEntering = true ∨ nearestEnemy = none ∨ 0 < p.attackTimer - deltaTime) →
      p.update Impl.modular m deltaTime input gameWidth gameHeight nearestEnemy =
        p.update Impl.bundled m deltaTime input gameWidth gameHeight nearestEnemy ∧
      ∃ q, p.update Impl.bundled m deltaTime input gameWidth gameHeight nearestEnemy =
        Except.ok (q, [])) ∧
    (∀ target : Enemy α, p.isEntering = false → p.attackTimer - deltaTime ≤ 0 →
      p.update Impl.modular m deltaTime input gameWidth gameHeight (some target) =
        Except.error "TypeError: this.shoot is not a function" ∧
      ∃ q shots, p.update Impl.bundled m deltaTime input gameWidth gameHeight (some target) =
        Except.ok (q, shots) ∧ q.attackTimer = p.attackSpeed ∧
        shots.length = p.projectileCount) := by
  obtain ⟨hat, has, hpc⟩ := Player.updateMovement_attack p (InputSystem.getAxis m.sqrt input)
    deltaTime gameWidth gameHeight
  constructor
  · intro nearestEnemy h
    by_cases he : p.isEntering = true
    · rw [(Player.update_cases Impl.modular m p _ _ _ _ _).1 he,
        (Player.update_cases Impl.bundled m p _ _ _ _ _).1 he]
      exact ⟨rfl, _, rfl⟩
    · rw [Bool.not_eq_true] at he
      rw [(Player.update_cases Impl.modular m p _ _ _ _ _).2 he,
        (Player.update_cases Impl.bundled m p _ _ _ _ _).2 he,
        Player.updateAttack_eq, Player.updateAttack_eq, hat]
      rcases h with h | h | h
      · rw [he] at h
        exact Bool.noConfusion h
      · subst h
        exact ⟨rfl, _, rfl⟩
      · cases nearestEnemy with
        | none => exact ⟨rfl, _, rfl⟩
        | some target =>
          constructor
          · show (if p.attackTimer - deltaTime ≤ 0 then _ else _) =
              (if p.attackTimer - deltaTime ≤ 0 then _ else _)
            rw [if_neg (not_le.mpr h), if_neg (not_le.mpr h)]
          · exact ⟨_, if_neg (not_le.mpr h)⟩
  · intro target he hle
    have hle2 : ((p.updateInvincibility deltaTime).updateMovement
        (InputSystem.getAxis m.sqrt input) deltaTime gameWidth gameHeight).attackTimer -
        deltaTime ≤ 0 := by
      rw [hat]
      exact hle
    have hm : p.update Impl.modular m deltaTime input gameWidth gameHeight (some target) =
        Except.error "TypeError: this.shoot is not a function" := by
      rw [(Player.update_cases Impl.modular m p _ _ _ _ _).2 he, Player.updateAttack_eq]
      exact if_pos hle2
    have hb : p.update Impl.bundled m deltaTime input gameWidth gameHeight (some target) =
        Except.ok
          ({ (p.updateInvincibility deltaTime).updateMovement (InputSystem.getAxis m.sqrt input)
                deltaTime gameWidth gameHeight with
              attackTimer := ((p.updateInvincibility deltaTime).updateMovement
                (InputSystem.getAxis m.sqrt input) deltaTime gameWidth gameHeight).attackSpeed },
            ({ (p.updateInvincibility deltaTime).updateMovement (InputSystem.getAxis m.sqrt input)
                deltaTime gameWidth gameHeight with
              attackTimer := ((p.updateInvincibility deltaTime).updateMovement
                (InputSystem.getAxis m.sqrt input) deltaTime gameWidth gameHeight).attackTimer -
                  deltaTime } : Player α).shoot m target) := by
      rw [(Player.update_cases Impl.bundled m p _ _ _ _ _).2 he, Player.updateAttack_eq]
      exact if_pos hle2
    refine ⟨hm, _, _, hb, has, ?_⟩
    rw [Player.shoot_length]
    exact hpc

/-! ### The invariant hp ≤ maxHp -/

/-- `Player.takeDamage` keeps maxHp, and with an amount ≥ 0 it does not raise hp. -/
theorem Player.takeDamage_maxHp (p : Player α) (amount : α) :
    (p.takeDamage amount).maxHp = p.maxHp ∧ (0 ≤ amount → (p.takeDamage amount).hp ≤ p.hp) := by
  rw [Player.takeDamage_eq]
  split_ifs
  · exact ⟨rfl, fun _ => le_refl _⟩
  · exact ⟨rfl, fun h => sub_le_self _ h⟩

/-- `Player.gainXp` keeps maxHp. -/
theorem Player.gainXp_maxHp (p : Player α) (amount : α) :
    (p.gainXp amount).2.maxHp = p.maxHp := by
  simp only [Player.gainXp]
  split_ifs <;> rfl

/-- `Player.update` keeps maxHp. -/
theorem Player.update_maxHp (impl : Impl) (m : MathOps α) (p : Player α) (deltaTime : α)
    (input : Keys) (gameWidth gameHeight : α) (nearestEnemy : Option (Enemy α))
    (q : Player α) (shots : List (SpawnRequest α))
    (hu : p.update impl m deltaTime input gameWidth gameHeight nearestEnemy =
      Except.ok (q, shots)) :
    q.maxHp = p.maxHp := by
  have hmove : ∀ (r : Player α) (axis : Vec2 α),
      ((r.updateInvincibility deltaTime).updateMovement axis deltaTime gameWidth
        gameHeight).maxHp = r.maxHp := by
    intro r axis
    simp only [Player.updateMovement, Player.updateInvincibility]
    split_ifs <;> rfl
  by_cases h : p.isEntering = true
  · simp only [Player.update, h, if_true, Except.ok.injEq, Prod.mk.injEq] at hu
    rw [← hu.1]
    simp only [Player.updateEntrance]
    split_ifs <;> rfl
  · rw [Bool.not_eq_true] at h
    rw [(Player.update_cases impl m p _ _ _ _ _).2 h, Player.updateAttack_eq] at hu
    rw [← hmove p (InputSystem.getAxis m.sqrt input)]
    cases nearestEnemy with
    | none =>
      simp only [Except.ok.injEq, Prod.mk.injEq] at hu
      rw [← hu.1]
    | some target =>
      cases impl with
      | modular =>
        simp only at hu
        split_ifs at hu
        simp only [Except.ok.injEq, Prod.mk.injEq] at hu
        rw [← hu.1]
      | bundled =>
        simp only at hu
        split_ifs at hu <;>
          · simp only [Except.ok.injEq, Prod.mk.injEq] at hu
            rw [← hu.1]

/-- The inner loop of the collision pass keeps the player's maxHp. -/
theorem Game.collideEnemies_maxHp (wave : ℕ) (enemies : List (Enemy α)) :
    ∀ (proj : Projectile α) (player : Player α) (isPaused : Bool),
    (Game.collideEnemies wave proj player isPaused enemies).2.player.maxHp = player.maxHp := by
  induction enemies with
  | nil => intro proj player isPaused; rfl
  | cons enemy rest ih =>
    intro proj player isPaused
    simp only [Game.collideEnemies]
    have g1 := Player.gainXp_maxHp player (((20 + wave * 5 : ℕ) : α))
    split_ifs <;>
      first
        | exact ih _ _ _
        | exact (ih _ _ _).trans g1

/-- The collision pass keeps the player's maxHp. -/
theorem Game.collideProjectiles_maxHp (wave : ℕ) (projectiles : List (Projectile α)) :
    ∀ (player : Player α) (isPaused : Bool) (enemies : List (Enemy α)),
    (Game.collideProjectiles wave player isPaused enemies projectiles).2.player.maxHp =
      player.maxHp := by
  induction projectiles with
  | nil => intro player isPaused enemies; rfl
  | cons proj rest ih =>
    intro player isPaused enemies
    simp only [Game.collideProjectiles]
    split_ifs
    · exact (ih _ _ _).trans (Game.collideEnemies_maxHp wave enemies proj player isPaused)
    · exact ih _ _ _

/-- A tick keeps maxHp and does not raise hp. -/
theorem Game.update_keeps_maxHp (impl : Impl) (m : MathOps α) (g g1 : Game α) (deltaTime : α)
    (random : ℕ → α) (hu : g.update impl m deltaTime random = Except.ok g1) :
    g1.player.maxHp = g.player.maxHp ∧ g1.player.hp ≤ g.player.hp := by
  obtain ⟨s, hs, hp, -⟩ := Game.update_contactLoop impl m g g1 deltaTime random hu
  obtain ⟨hhp, -⟩ := Game.simulate_frame impl m g s deltaTime hs
  have hmax : s.player.maxHp = g.player.maxHp := by
    cases hpu : g.player.update impl m deltaTime g.input g.width g.height g.nearestEnemy with
    | error e => simp [Game.simulate, hpu] at hs
    | ok updated =>
      obtain ⟨q, shots⟩ := updated
      rw [Game.simulate_eq impl m g deltaTime q shots hpu] at hs
      simp only [Except.ok.injEq] at hs
      subst hs
      exact (Game.collideProjectiles_maxHp g.wave _ q g.isPaused _).trans
        (Player.update_maxHp impl m g.player deltaTime g.input g.width g.height g.nearestEnemy
          q shots hpu)
  rw [Game.contactLoop_eq] at hp
  split_ifs at hp
  · rw [hp, (Player.takeDamage_maxHp s.player 10).1, hmax, ← hhp]
    exact ⟨rfl, (Player.takeDamage_maxHp s.player 10).2 (by norm_num)⟩
  · rw [hp, hmax, hhp]
    exact ⟨rfl, le_refl _⟩

/-- The apply function of every entry of the catalog keeps hp ≤ maxHp. -/
theorem SKILLS_hp_le_maxHp (s : Skill α) (hs : s ∈ SKILLS α) (p : Player α)
    (h : p.hp ≤ p.maxHp) : (s.apply p).hp ≤ (s.apply p).maxHp := by
  simp only [SKILLS, List.mem_cons, List.mem_singleton, List.not_mem_nil, or_false] at hs
  rcases hs with rfl | rfl | rfl | rfl | rfl | rfl
  · exact h
  · exact h
  · exact h
  · exact h
  · exact add_le_add_right h 50
  · exact min_le_right _ _

/-- A click on a skill card keeps hp ≤ maxHp. -/
theorem Game.skillCardClick_hp_le_maxHp (g : Game α) (s : Skill α) (hs : s ∈ SKILLS α)
    (now : α) (h : g.player.hp ≤ g.player.maxHp) :
    (g.skillCardClick s now).player.hp ≤ (g.skillCardClick s now).player.maxHp :=
  SKILLS_hp_le_maxHp s hs g.player h

/-- Every sequence of frames and clicks keeps hp ≤ maxHp. -/
theorem Game.play_hp_le_maxHp (impl : Impl) (m : MathOps α) (events : List (Event α)) :
    ∀ (g g1 : Game α), g.player.hp ≤ g.player.maxHp →
      Game.play impl m g events = Except.ok g1 → g1.player.hp ≤ g1.player.maxHp := by
  induction events with
  | nil =>
    intro g g1 h hp
    simp only [Game.play, Except.ok.injEq] at hp
    rw [← hp]
    exact h
  | cons e rest ih =>
    intro g g1 h hp
    cases e with
    | frame f =>
      simp only [Game.play] at hp
      cases ht : g.tick impl m f with
      | error err => simp [ht] at hp
      | ok g2 =>
        simp only [ht] at hp
        obtain ⟨hmax, hle⟩ := Game.update_keeps_maxHp impl m _ g2 f.deltaTime f.random ht
        exact ih g2 g1 (by rw [hmax]; exact le_trans hle h) hp
    | click card now =>
      simp only [Game.play] at hp
      cases hc : (SKILLS α)[card]? with
      | none =>
        simp only [hc] at hp
        exact ih g g1 h hp
      | some skill =>
        simp only [hc] at hp
        exact ih _ g1
          (Game.skillCardClick_hp_le_maxHp g skill (List.getElem?_mem hc) now h) hp

/-- In the bundled implementation every sequence of frames and clicks returns a game. -/
theorem Game.play_total_bundled (m : MathOps α) (events : List (Event α)) :
    ∀ (g : Game α), ∃ g1, Game.play Impl.bundled m g events = Except.ok g1 := by
  induction events with
  | nil => intro g; exact ⟨g, rfl⟩
  | cons e rest ih =>
    intro g
    cases e with
    | frame f =>
      obtain ⟨g2, h2⟩ :=
        (Game.update_total_bundled m { g with input := f.keys } f.deltaTime f.random).2
      have ht : g.tick Impl.bundled m f = Except.ok g2 := h2
      simp only [Game.play, ht]
      exact ih g2
    | click card now =>
      simp only [Game.play]
      cases hc : (SKILLS α)[card]? with
      | none => exact ih g
      | some skill => exact ih _

/-- A frame of half a second on `duelGame 500` and then a click on the card of hp_heal, the
catalog entry with index 5. -/
theorem duelGame_play (impl : Impl) :
    Game.play impl ratOps (duelGame 500) [Event.frame halfSecond, Event.click 5 0] =
      Except.ok healedGame := by
  have e : halfSecond.deltaTime = 1 / 2 := by norm_num [halfSecond]
  have ht : (duelGame 500).tick impl ratOps halfSecond = Except.ok (duelGameAfter 500) := by
    show Game.update impl ratOps (duelGame 500) halfSecond.deltaTime (fun _ => 1 / 2) = _
    rw [e]
    exact duelGame_update impl 500
  have hc : (SKILLS ℚ)[5]? = some
      { id := "hp_heal"
        name := "HP 회복"
        description := "체력을 50 회복합니다."
        apply := fun player => { player with hp := min (player.hp + 50) player.maxHp } } := rfl
  simp only [Game.play, ht, hc]
  simp only [Game.skillCardClick, healedGame, duelGameAfter, contactGameAt, contactPlayerAt,
    Player.new]
  norm_num

/-- C31. The invariant hp ≤ maxHp of the player. It holds after every sequence of frames and
clicks on skill cards that starts from a game in which it holds and returns. It holds for a
constructed player, with hp = maxHp = 500, and so after `Game.restart`. It is kept by
`takeDamage` with an amount ≥ 0, by `gainXp`, by a `Player.update` that returns, by a tick that
returns, which keeps maxHp and does not raise hp, and by the apply function of each of the six
skills: hp_boost adds 50 to hp and to maxHp, hp_heal sets hp to min(hp + 50, maxHp), and the
other four change neither. -/
theorem hp_le_maxHp_invariant (impl : Impl) (m : MathOps α) (g g1 : Game α)
    (events : List (Event α)) (h : g.player.hp ≤ g.player.maxHp)
    (hplay : Game.play impl m g events = Except.ok g1) :
    g1.player.hp ≤ g1.player.maxHp ∧
    (∀ (x y gameHeight : α) (startOffScreen : Bool),
      (Player.new x y startOffScreen gameHeight).hp = 500 ∧
      (Player.new x y startOffScreen gameHeight).maxHp = 500 ∧
      (Player.new x y startOffScreen gameHeight).hp ≤
        (Player.new x y startOffScreen gameHeight).maxHp) ∧
    (∀ (g0 : Game α) (now : α) (random : ℕ → α),
      (g0.restart now random).player.hp ≤ (g0.restart now random).player.maxHp) ∧
    (∀ (p : Player α) (amount : α), 0 ≤ amount → p.hp ≤ p.maxHp →
      (p.takeDamage amount).hp ≤ (p.takeDamage amount).maxHp) ∧
    (∀ (p : Player α) (amount : α), p.hp ≤ p.maxHp →
      (p.gainXp amount).2.hp ≤ (p.gainXp amount).2.maxHp) ∧
    (∀ (impl2 : Impl) (p q : Player α) (deltaTime gameWidth gameHeight : α) (input : Keys)
      (nearestEnemy : Option (Enemy α)) (shots : List (SpawnRequest α)),
      p.update impl2 m deltaTime input gameWidth gameHeight nearestEnemy = Except.ok (q, shots) →
      p.hp ≤ p.maxHp → q.hp ≤ q.maxHp) ∧
    (∀ (impl2 : Impl) (g0 g2 : Game α) (deltaTime : α) (random : ℕ → α),
      g0.update impl2 m deltaTime random = Except.ok g2 →
      g2.player.maxHp = g0.player.maxHp ∧ g2.player.hp ≤ g0.player.hp) ∧
    (∀ s ∈ SKILLS α, ∀ p : Player α, p.hp ≤ p.maxHp → (s.apply p).hp ≤ (s.apply p).maxHp) ∧
    (∀ p : Player α, (SKILLS α).map (fun s => (s.id, (s.apply p).hp, (s.apply p).maxHp)) =
      [ ("multishot", p.hp, p.maxHp),
        ("attack_boost", p.hp, p.maxHp),
        ("speed_boost", p.hp, p.maxHp),
        ("ricochet", p.hp, p.maxHp),
        ("hp_boost", p.hp + 50, p.maxHp + 50),
        ("hp_heal", min (p.hp + 50) p.maxHp, p.maxHp) ]) := by
  refine ⟨Game.play_hp_le_maxHp impl m events g g1 h hplay, ?_, ?_, ?_, ?_, ?_, ?_, ?_, ?_⟩
  · intro x y gameHeight startOffScreen
    exact ⟨rfl, rfl, le_refl _⟩
  · intro g0 now random
    rw [Game.restart_eq]
    exact le_refl _
  · intro p amount ha hp
    rw [(Player.takeDamage_maxHp p amount).1]
    exact le_trans ((Player.takeDamage_maxHp p amount).2 ha) hp
  · intro p amount hp
    rw [Player.gainXp_maxHp, (Player.gainXp_fields p amount).1]
    exact hp
  · intro impl2 p q deltaTime gameWidth gameHeight input nearestEnemy shots hu hp
    rw [Player.update_maxHp impl2 m p deltaTime input gameWidth gameHeight nearestEnemy q shots hu,
      Player.update_hp impl2 m p deltaTime input gameWidth gameHeight nearestEnemy q shots hu]
    exact hp
  · intro impl2 g0 g2 deltaTime random hu
    exact Game.update_keeps_maxHp impl2 m g0 g2 deltaTime random hu
  · intro s hs p hp
    exact SKILLS_hp_le_maxHp s hs p hp
  · intro p
    rfl

/-- C31 on `duelGame 500`: a frame in which the player loses 10 hp, then a click on the card of
hp_heal, which brings hp from 490 back to maxHp = 500 and not to 540. -/
theorem hp_le_maxHp_invariant_witness :
    (duelGame 500).player.hp ≤ (duelGame 500).player.maxHp ∧
    Game.play Impl.bundled ratOps (duelGame 500) [Event.frame halfSecond, Event.click 5 0] =
      Except.ok healedGame ∧
    (duelGameAfter 500).player.hp = 490 ∧
    healedGame.player.hp = 500 ∧ healedGame.player.maxHp = 500 ∧
    healedGame.player.hp ≤ healedGame.player.maxHp :=
  ⟨le_refl _, duelGame_play Impl.bundled, by norm_num [duelGameAfter, contactPlayerAt], rfl, rfl,
    (hp_le_maxHp_invariant Impl.bundled ratOps (duelGame 500) healedGame
      [Event.frame halfSecond, Event.click 5 0] (le_refl _) (duelGame_play Impl.bundled)).1⟩

/-! ### Doubles: Enemy.update, the Projectile constructor and the nearest-enemy scan -/

/-- A result strictly between the two thresholds is returned as it is. -/
theorem DoubleRange.round_finite (r : DoubleRange α) (x : α) (h1 : |x| < r.overflow)
    (h2 : r.underflow < |x|) : r.round x = JsNumber.finite x := by
  unfold DoubleRange.round
  rw [if_neg (not_le.mpr h1), if_neg (not_le.mpr h2)]

/-- The result 0 is returned as it is when the overflow threshold is positive. -/
theorem DoubleRange.round_zero (r : DoubleRange α) (h : 0 < r.overflow) :
    r.round 0 = JsNumber.finite 0 := by
  unfold DoubleRange.round
  rw [abs_zero, if_neg (not_le.mpr h)]
  split_ifs <;> rfl

/-- A result ≥ 0 at or beyond the overflow threshold is +Infinity. -/
theorem DoubleRange.round_overflow (r : DoubleRange α) (x : α) (h0 : 0 ≤ x)
    (h : r.overflow ≤ x) : r.round x = JsNumber.infinity false := by
  unfold DoubleRange.round
  rw [abs_of_nonneg h0, if_pos h, decide_eq_false (not_lt.mpr h0)]

/-- A result ≥ 0 at or below the underflow threshold is 0, when the underflow threshold lies
below the overflow threshold. -/
theorem DoubleRange.round_underflow (r : DoubleRange α) (x : α) (h0 : 0 ≤ x)
    (h : x ≤ r.underflow) (hr : r.underflow < r.overflow) : r.round x = JsNumber.finite 0 := by
  unfold DoubleRange.round
  rw [abs_of_nonneg h0, if_neg (not_le.mpr (lt_of_le_of_lt h hr)), if_pos h]

/-- When no arithmetic result overflows or underflows, `Enemy.update` in doubles is
`Enemy.update` in exact arithmetic. -/
theorem JsEnemy.update_toJs (r : DoubleRange α) (sqrt : α → α) (e : Enemy α) (deltaTime : α)
    (player : Player α)
    (hsteps : ∀ v ∈ e.updateSteps sqrt deltaTime player, r.round v = JsNumber.finite v) :
    e.toJs.update r sqrt deltaTime player = (e.update sqrt deltaTime player).toJs := by
  simp only [Enemy.updateSteps, List.mem_cons, List.mem_singleton, forall_eq_or_imp, forall_eq,
    List.not_mem_nil, false_imp_iff, implies_true, and_true] at hsteps
  obtain ⟨h1, h2, h3, h4, h5, h6, h7, h8, h9, h10, h11, h12, h13, h14⟩ := hsteps
  have hnn : ¬ (player.x - e.x) * (player.x - e.x) + (player.y - e.y) * (player.y - e.y) < 0 :=
    not_lt.mpr (add_nonneg (mul_self_nonneg _) (mul_self_nonneg _))
  by_cases hd : sqrt ((player.x - e.x) * (player.x - e.x) + (player.y - e.y) * (player.y - e.y)) > 0
  · have hne : sqrt ((player.x - e.x) * (player.x - e.x) +
        (player.y - e.y) * (player.y - e.y)) ≠ 0 := ne_of_gt hd
    simp only [JsEnemy.update, Enemy.toJs, JsNumber.sub, h1, h2, JsNumber.mul, h3, h4,
      JsNumber.add, h5, JsNumber.sqrt, if_neg hnn, h6, JsNumber.gt, JsNumber.lt,
      decide_eq_true hd, if_true, JsNumber.div, if_neg hne, h7, h8, h9, h10, h11, h12, h13, h14,
      Enemy.update, if_pos hd]
  · simp only [JsEnemy.update, Enemy.toJs, JsNumber.sub, h1, h2, JsNumber.mul, h3, h4,
      JsNumber.add, h5, JsNumber.sqrt, if_neg hnn, h6, JsNumber.gt, JsNumber.lt,
      decide_eq_false hd, Bool.false_eq_true, if_false, Enemy.update, if_neg hd]

/-- In the binary64 range a positive result strictly between the two thresholds is returned as
it is. -/
theorem binary64_round_pos (x : α) (h0 : 0 < x) (h1 : x < 2 ^ 1024 - 2 ^ 970)
    (h2 : 1 / 2 ^ 1075 < x) : (binary64 α).round x = JsNumber.finite x := by
  apply DoubleRange.round_finite
  · rw [abs_of_pos h0]
    exact h1
  · rw [abs_of_pos h0]
    exact h2

/-- In the binary64 range the result 0 is returned as it is. -/
theorem binary64_round_zero : (binary64 α).round 0 = JsNumber.finite 0 := by
  apply DoubleRange.round_zero
  show (0 : α) < 2 ^ 1024 - 2 ^ 970
  norm_num

/-- `Enemy.update` in doubles never changes hp, markedForDeletion or the other fields that are
not the position. -/
theorem JsEnemy.update_keeps_rest (r : DoubleRange α) (sqrt : α → α) (e : JsEnemy α)
    (deltaTime : α) (player : Player α) :
    (e.update r sqrt deltaTime player).hp = e.hp ∧
    (e.update r sqrt deltaTime player).markedForDeletion = e.markedForDeletion ∧
    (e.update r sqrt deltaTime player).maxHp = e.maxHp ∧
    (e.update r sqrt deltaTime player).speed = e.speed ∧
    (e.update r sqrt deltaTime player).width = e.width ∧
    (e.update r sqrt deltaTime player).height = e.height := by
  simp only [JsEnemy.update]
  split_ifs <;> exact ⟨rfl, rfl, rfl, rfl, rfl, rfl⟩

/-- C15. `Enemy.update` in doubles, on an enemy and a player at finite positions, with d their
distance. When no arithmetic result of the call overflows or underflows, the call is that of
exact arithmetic: for d > 0 the enemy moves by speed · deltaTime along the unit vector towards
the player and its new distance to the player is |d − speed · deltaTime|, and for d = 0, the
only other case, the position is unchanged. On every enemy, in range or not, hp,
markedForDeletion and the other fields that are not the position are unchanged. -/
theorem enemy_update_in_range (r : DoubleRange ℝ) (e : Enemy ℝ) (deltaTime : ℝ)
    (player : Player ℝ)
    (hsteps : ∀ v ∈ e.updateSteps Real.sqrt deltaTime player, r.round v = JsNumber.finite v) :
    e.toJs.update r Real.sqrt deltaTime player = (e.update Real.sqrt deltaTime player).toJs ∧
    (0 < e.distance Real.sqrt player →
      (e.toJs.update r Real.sqrt deltaTime player).x =
        JsNumber.finite
          (e.x + (player.x - e.x) / e.distance Real.sqrt player * (e.speed * deltaTime)) ∧
      (e.toJs.update r Real.sqrt deltaTime player).y =
        JsNumber.finite
          (e.y + (player.y - e.y) / e.distance Real.sqrt player * (e.speed * deltaTime)) ∧
      ((player.x - e.x) / e.distance Real.sqrt player) ^ 2 +
        ((player.y - e.y) / e.distance Real.sqrt player) ^ 2 = 1 ∧
      (e.update Real.sqrt deltaTime player).distance Real.sqrt player =
        |e.distance Real.sqrt player - e.speed * deltaTime|) ∧
    (e.distance Real.sqrt player = 0 →
      (e.toJs.update r Real.sqrt deltaTime player).x = JsNumber.finite e.x ∧
      (e.toJs.update r Real.sqrt deltaTime player).y = JsNumber.finite e.y) ∧
    (0 < e.distance Real.sqrt player ∨ e.distance Real.sqrt player = 0) ∧
    (e.distance Real.sqrt player = 0 ↔ e.x = player.x ∧ e.y = player.y) ∧
    (∀ (r2 : DoubleRange ℝ) (j : JsEnemy ℝ) (dt : ℝ) (p : Player ℝ),
      (j.update r2 Real.sqrt dt p).hp = j.hp ∧
      (j.update r2 Real.sqrt dt p).markedForDeletion = j.markedForDeletion ∧
      (j.update r2 Real.sqrt dt p).maxHp = j.maxHp ∧
      (j.update r2 Real.sqrt dt p).speed = j.speed ∧
      (j.update r2 Real.sqrt dt p).width = j.width ∧
      (j.update r2 Real.sqrt dt p).height = j.height) := by
  have hjs := JsEnemy.update_toJs r Real.sqrt e deltaTime player hsteps
  obtain ⟨hpos, hzero, hcases, hiff, -⟩ := Enemy.update_pursuit e deltaTime player
  refine ⟨hjs, ?_, ?_, hcases, hiff, ?_⟩
  · intro hd
    obtain ⟨hx, hy, hu, hn⟩ := hpos hd
    refine ⟨?_, ?_, hu, hn⟩
    · rw [hjs]
      show JsNumber.finite (e.update Real.sqrt deltaTime player).x = _
      rw [hx]
    · rw [hjs]
      show JsNumber.finite (e.update Real.sqrt deltaTime player).y = _
      rw [hy]
  · intro hd
    obtain ⟨hx, hy⟩ := hzero hd
    constructor
    · rw [hjs]
      show JsNumber.finite (e.update Real.sqrt deltaTime player).x = _
      rw [hx]
    · rw [hjs]
      show JsNumber.finite (e.update Real.sqrt deltaTime player).y = _
      rw [hy]
  · intro r2 j dt p
    exact JsEnemy.update_keeps_rest r2 Real.sqrt j dt p

/-- In the binary64 range a result ≥ 2^1024 − 2^970 is +Infinity. -/
theorem binary64_round_overflow (x : α) (h : 2 ^ 1024 - 2 ^ 970 ≤ x) :
    (binary64 α).round x = JsNumber.infinity false := by
  have h0 : (0 : α) ≤ 2 ^ 1024 - 2 ^ 970 := by norm_num
  exact DoubleRange.round_overflow (binary64 α) x (le_trans h0 h) h

/-- In the binary64 range a result x with 0 ≤ x ≤ 2^(−1075) is 0. -/
theorem binary64_round_underflow (x : α) (h0 : 0 ≤ x) (h : x ≤ 1 / 2 ^ 1075) :
    (binary64 α).round x = JsNumber.finite 0 := by
  apply DoubleRange.round_underflow (binary64 α) x h0 h
  show (1 : α) / 2 ^ 1075 < 2 ^ 1024 - 2 ^ 970
  have h1 : (1 : α) / 2 ^ 1075 ≤ 1 := by
    rw [div_le_one (by positivity)]
    exact one_le_pow₀ (by norm_num)
  have h2 : (1 : α) < 2 ^ 1024 - 2 ^ 970 := by norm_num
  exact lt_of_le_of_lt h1 h2

/-- The arithmetic results of `Enemy.update` on the enemy at (0, 0) with the player at (3, 4) and
deltaTime = 1/80 are all in the binary64 range. -/
theorem Enemy.updateSteps_example :
    ∀ v ∈ (Enemy.new (0 : ℝ) 0).updateSteps Real.sqrt (1 / 80) (Player.new 3 4 false 800),
      (binary64 ℝ).round v = JsNumber.finite v := by
  have hd : Real.sqrt ((3 - 0) * (3 - 0) + (4 - 0) * (4 - 0)) = 5 := by
    rw [show ((3 : ℝ) - 0) * (3 - 0) + (4 - 0) * (4 - 0) = 5 ^ 2 by norm_num]
    exact Real.sqrt_sq (by norm_num)
  have h25 : Real.sqrt 25 = 5 := by
    rw [← hd]
    norm_num
  intro v hv
  simp only [Enemy.updateSteps, Enemy.new, Player.new, List.mem_cons, List.mem_singleton,
    List.not_mem_nil, or_false] at hv
  rcases hv with rfl | rfl | rfl | rfl | rfl | rfl | rfl | rfl | rfl | rfl | rfl | rfl | rfl | rfl
  all_goals
    apply binary64_round_pos
    · norm_num [h25]
    · norm_num [h25]
    · norm_num [h25]

/-- C15 on the enemy at (0, 0) with the player at (3, 4), at distance 5, and deltaTime = 1/80: no
result leaves the binary64 range, and the enemy moves by 1 to (3/5, 4/5). -/
theorem enemy_update_in_range_witness :
    (∀ v ∈ (Enemy.new (0 : ℝ) 0).updateSteps Real.sqrt (1 / 80) (Player.new 3 4 false 800),
      (binary64 ℝ).round v = JsNumber.finite v) ∧
    Enemy.distance Real.sqrt (Enemy.new 0 0) (Player.new 3 4 false 800) = 5 ∧
    ((Enemy.new (0 : ℝ) 0).update Real.sqrt (1 / 80) (Player.new 3 4 false 800)).x = 3 / 5 ∧
    ((Enemy.new (0 : ℝ) 0).update Real.sqrt (1 / 80) (Player.new 3 4 false 800)).y = 4 / 5 ∧
    (Enemy.new (0 : ℝ) 0).toJs.update (binary64 ℝ) Real.sqrt (1 / 80)
        (Player.new 3 4 false 800) =
      ((Enemy.new (0 : ℝ) 0).update Real.sqrt (1 / 80) (Player.new 3 4 false 800)).toJs :=
  ⟨Enemy.updateSteps_example, Enemy.update_pursuit_example.1, Enemy.update_pursuit_example.2.1,
    Enemy.update_pursuit_example.2.2.1,
    (enemy_update_in_range (binary64 ℝ) (Enemy.new 0 0) (1 / 80) (Player.new 3 4 false 800)
      Enemy.updateSteps_example).1⟩

/-- `Enemy.update` in doubles on the enemy at (0, 0) when the player is at (px, 0) and the square
of px overflows: the computed distance is Infinity, the quotients are 0, and the enemy stays. -/
theorem JsEnemy.update_overflow (px deltaTime : ℝ) (h0 : 0 < px) (h1 : px < 2 ^ 1024 - 2 ^ 970)
    (h2 : 1 / 2 ^ 1075 < px) (h3 : 2 ^ 1024 - 2 ^ 970 ≤ px * px) :
    (Enemy.new (0 : ℝ) 0).toJs.update (binary64 ℝ) Real.sqrt deltaTime
        (Player.new px 0 false 800) = (Enemy.new 0 0).toJs := by
  have hz := binary64_round_zero (α := ℝ)
  have hdx : (binary64 ℝ).round (px - 0) = JsNumber.finite px := by
    rw [sub_zero]
    exact binary64_round_pos px h0 h1 h2
  have hsq : (binary64 ℝ).round (px * px) = JsNumber.infinity false :=
    binary64_round_overflow _ h3
  simp only [JsEnemy.update, Enemy.toJs, Enemy.new, Player.new, Bool.false_eq_true, if_false,
    JsNumber.sub, hdx, sub_self, hz, JsNumber.mul, hsq, mul_zero, zero_mul, JsNumber.add,
    JsNumber.sqrt, JsNumber.gt, JsNumber.lt, Bool.not_false, if_true, JsNumber.div, add_zero]

/-- `Enemy.update` in doubles on the enemy at (0, 0) when the player is at (px, 0) and the square
of px underflows: the computed distance is 0, the guard `distance > 0` fails, and the enemy
stays. -/
theorem JsEnemy.update_underflow (px deltaTime : ℝ) (h0 : 0 < px)
    (h1 : px < 2 ^ 1024 - 2 ^ 970) (h2 : 1 / 2 ^ 1075 < px) (h3 : px * px ≤ 1 / 2 ^ 1075) :
    (Enemy.new (0 : ℝ) 0).toJs.update (binary64 ℝ) Real.sqrt deltaTime
        (Player.new px 0 false 800) = (Enemy.new 0 0).toJs := by
  have hz := binary64_round_zero (α := ℝ)
  have hdx : (binary64 ℝ).round (px - 0) = JsNumber.finite px := by
    rw [sub_zero]
    exact binary64_round_pos px h0 h1 h2
  have hsq : (binary64 ℝ).round (px * px) = JsNumber.finite 0 :=
    binary64_round_underflow _ (mul_self_nonneg px) h3
  simp only [JsEnemy.update, Enemy.toJs, Enemy.new, Player.new, Bool.false_eq_true, if_false,
    JsNumber.sub, hdx, sub_self, hz, JsNumber.mul, hsq, mul_zero, JsNumber.add, add_zero,
    JsNumber.sqrt, lt_irrefl, Real.sqrt_zero, JsNumber.gt, JsNumber.lt, decide_False]

/-- C15, the claim as stated fails. The enemy at (0, 0) with speed 80 is at a distance > 0 from
a player at (10^200, 0) and from a player at (10^(−200), 0). In the first case the squared
distance overflows, the computed distance is Infinity and dx / distance is 0; in the second the
squared distance underflows to 0 and the guard `distance > 0` is false. In both the enemy stays
at (0, 0) after `Enemy.update(1, player)` instead of moving by speed · deltaTime = 80. -/
theorem enemy_update_counterexample :
    0 < Enemy.distance Real.sqrt (Enemy.new 0 0) (Player.new (10 ^ 200) 0 false 800) ∧
    0 < Enemy.distance Real.sqrt (Enemy.new 0 0) (Player.new (1 / 10 ^ 200) 0 false 800) ∧
    (Enemy.new (0 : ℝ) 0).speed * 1 = 80 ∧
    ((Enemy.new (0 : ℝ) 0).toJs.update (binary64 ℝ) Real.sqrt 1
      (Player.new (10 ^ 200) 0 false 800)).x = JsNumber.finite 0 ∧
    ((Enemy.new (0 : ℝ) 0).toJs.update (binary64 ℝ) Real.sqrt 1
      (Player.new (10 ^ 200) 0 false 800)).y = JsNumber.finite 0 ∧
    ((Enemy.new (0 : ℝ) 0).toJs.update (binary64 ℝ) Real.sqrt 1
      (Player.new (1 / 10 ^ 200) 0 false 800)).x = JsNumber.finite 0 ∧
    ((Enemy.new (0 : ℝ) 0).toJs.update (binary64 ℝ) Real.sqrt 1
      (Player.new (1 / 10 ^ 200) 0 false 800)).y = JsNumber.finite 0 := by
  have ho := JsEnemy.update_overflow (10 ^ 200) 1 (by positivity) (by norm_num) (by norm_num)
    (by norm_num)
  have hu := JsEnemy.update_underflow (1 / 10 ^ 200) 1 (by positivity) (by norm_num)
    (by norm_num) (by norm_num)
  refine ⟨?_, ?_, by norm_num [Enemy.new], by rw [ho]; rfl, by rw [ho]; rfl, by rw [hu]; rfl,
    by rw [hu]; rfl⟩
  · show 0 < Real.sqrt (((10 : ℝ) ^ 200 - 0) * (10 ^ 200 - 0) + (0 - 0) * (0 - 0))
    apply Real.sqrt_pos.mpr
    positivity
  · show 0 < Real.sqrt (((1 : ℝ) / 10 ^ 200 - 0) * (1 / 10 ^ 200 - 0) + (0 - 0) * (0 - 0))
    apply Real.sqrt_pos.mpr
    positivity

/-- When no arithmetic result of the `Projectile` constructor overflows or underflows and the
computed distance is not 0, the velocity in doubles is that of exact arithmetic. -/
theorem JsProjectile.new_velocity_exact (r : DoubleRange α) (sqrt : α → α)
    (x y targetX targetY : α) (isPlayerProjectile : Bool)
    (hd : sqrt ((targetX - x) * (targetX - x) + (targetY - y) * (targetY - y)) ≠ 0)
    (hsteps : ∀ v ∈ Projectile.newSteps sqrt x y targetX targetY, r.round v = JsNumber.finite v) :
    (JsProjectile.new r sqrt x y targetX targetY isPlayerProjectile).vx =
      JsNumber.finite ((targetX - x) /
        sqrt ((targetX - x) * (targetX - x) + (targetY - y) * (targetY - y)) * 400) ∧
    (JsProjectile.new r sqrt x y targetX targetY isPlayerProjectile).vy =
      JsNumber.finite ((targetY - y) /
        sqrt ((targetX - x) * (targetX - x) + (targetY - y) * (targetY - y)) * 400) := by
  simp only [Projectile.newSteps, List.mem_cons, List.mem_singleton, forall_eq_or_imp, forall_eq,
    List.not_mem_nil, false_imp_iff, implies_true, and_true] at hsteps
  obtain ⟨h1, h2, h3, h4, h5, h6, h7, h8, h9, h10⟩ := hsteps
  have hnn : ¬ (targetX - x) * (targetX - x) + (targetY - y) * (targetY - y) < 0 :=
    not_lt.mpr (add_nonneg (mul_self_nonneg _) (mul_self_nonneg _))
  constructor <;>
    simp only [JsProjectile.new, JsNumber.sub, h1, h2, JsNumber.mul, h3, h4, JsNumber.add, h5,
      JsNumber.sqrt, if_neg hnn, h6, JsNumber.div, if_neg hd, h7, h8, h9, h10]

/-- The `Projectile` constructor in doubles with the target at the origin: the velocity is
(NaN, NaN), as in the exact reading. -/
theorem JsProjectile.new_velocity_nan (r : DoubleRange α) (sqrt : α → α) (x y : α)
    (isPlayerProjectile : Bool) (h0 : r.round 0 = JsNumber.finite 0) (hs : sqrt 0 = 0) :
    (JsProjectile.new r sqrt x y x y isPlayerProjectile).vx = JsNumber.nan ∧
    (JsProjectile.new r sqrt x y x y isPlayerProjectile).vy = JsNumber.nan := by
  constructor <;>
    simp only [JsProjectile.new, JsNumber.sub, sub_self, h0, JsNumber.mul, mul_zero, JsNumber.add,
      add_zero, JsNumber.sqrt, lt_irrefl, if_false, hs, JsNumber.div, if_true]

/-- `Projectile.update` in doubles, in both variants, moves the projectile and may set
markedForDeletion; it changes nothing else. -/
theorem JsProjectile.update_keeps_velocity (r : DoubleRange α) (impl : Impl) (p : JsProjectile α)
    (deltaTime gameWidth gameHeight : α) :
    (p.update r impl deltaTime gameWidth gameHeight).x = (p.move r deltaTime).x ∧
    (p.update r impl deltaTime gameWidth gameHeight).y = (p.move r deltaTime).y ∧
    (p.update r impl deltaTime gameWidth gameHeight).vx = p.vx ∧
    (p.update r impl deltaTime gameWidth gameHeight).vy = p.vy ∧
    (p.update r impl deltaTime gameWidth gameHeight).damage = p.damage ∧
    (p.update r impl deltaTime gameWidth gameHeight).isPlayerProjectile =
      p.isPlayerProjectile := by
  cases impl
  · simp only [JsProjectile.update]
    split_ifs <;> exact ⟨rfl, rfl, rfl, rfl, rfl, rfl⟩
  · simp only [JsProjectile.update]
    split_ifs <;> exact ⟨rfl, rfl, rfl, rfl, rfl, rfl⟩

/-- C18. The `Projectile` constructor and `Projectile.update` in doubles. For finite arguments
with the target different from (x, y), when no arithmetic result of the constructor overflows or
underflows, the velocity is k · (targetX − x, targetY − y) for some k > 0, with
vx² + vy² = 400². Every `Projectile.update`, of either implementation and on any projectile,
keeps vx, vy, damage and isPlayerProjectile, and moves a finite position with a finite velocity
by exactly (vx · deltaTime, vy · deltaTime) when neither the product nor the sum overflows or
underflows. -/
theorem projectile_velocity_in_range (r : DoubleRange ℝ) (x y targetX targetY : ℝ)
    (isPlayerProjectile : Bool) (h : (targetX, targetY) ≠ (x, y))
    (hsteps : ∀ v ∈ Projectile.newSteps Real.sqrt x y targetX targetY,
      r.round v = JsNumber.finite v) :
    (∃ k : ℝ, 0 < k ∧
      (JsProjectile.new r Real.sqrt x y targetX targetY isPlayerProjectile).vx =
        JsNumber.finite (k * (targetX - x)) ∧
      (JsProjectile.new r Real.sqrt x y targetX targetY isPlayerProjectile).vy =
        JsNumber.finite (k * (targetY - y)) ∧
      (k * (targetX - x)) ^ 2 + (k * (targetY - y)) ^ 2 = 400 ^ 2) ∧
    (∀ (r2 : DoubleRange ℝ) (p : JsProjectile ℝ) (impl : Impl)
      (deltaTime gameWidth gameHeight : ℝ),
      (p.update r2 impl deltaTime gameWidth gameHeight).vx = p.vx ∧
      (p.update r2 impl deltaTime gameWidth gameHeight).vy = p.vy ∧
      (p.update r2 impl deltaTime gameWidth gameHeight).damage = p.damage ∧
      (p.update r2 impl deltaTime gameWidth gameHeight).isPlayerProjectile =
        p.isPlayerProjectile ∧
      (∀ px vx : ℝ, p.x = JsNumber.finite px → p.vx = JsNumber.finite vx →
        r2.round (vx * deltaTime) = JsNumber.finite (vx * deltaTime) →
        r2.round (px + vx * deltaTime) = JsNumber.finite (px + vx * deltaTime) →
        (p.update r2 impl deltaTime gameWidth gameHeight).x =
          JsNumber.finite (px + vx * deltaTime)) ∧
      (∀ py vy : ℝ, p.y = JsNumber.finite py → p.vy = JsNumber.finite vy →
        r2.round (vy * deltaTime) = JsNumber.finite (vy * deltaTime) →
        r2.round (py + vy * deltaTime) = JsNumber.finite (py + vy * deltaTime) →
        (p.update r2 impl deltaTime gameWidth gameHeight).y =
          JsNumber.finite (py + vy * deltaTime))) := by
  constructor
  · obtain ⟨⟨k, hk, hvx, hvy, hnorm⟩, -⟩ :=
      Projectile.new_velocity x y targetX targetY isPlayerProjectile h
    have hpos : 0 < (targetX - x) * (targetX - x) + (targetY - y) * (targetY - y) := by
      by_contra hc
      have h1 : (targetX - x) * (targetX - x) = 0 := by
        nlinarith [mul_self_nonneg (targetX - x), mul_self_nonneg (targetY - y)]
      have h2 : (targetY - y) * (targetY - y) = 0 := by
        nlinarith [mul_self_nonneg (targetX - x), mul_self_nonneg (targetY - y)]
      have h3 := mul_self_eq_zero.mp h1
      have h4 := mul_self_eq_zero.mp h2
      exact h (by rw [Prod.mk.injEq]; exact ⟨by linarith, by linarith⟩)
    have hd : Real.sqrt ((targetX - x) * (targetX - x) + (targetY - y) * (targetY - y)) ≠ 0 :=
      (Real.sqrt_pos.mpr hpos).ne'
    obtain ⟨jx, jy⟩ := JsProjectile.new_velocity_exact r Real.sqrt x y targetX targetY
      isPlayerProjectile hd hsteps
    simp only [Projectile.new, jsDiv, hd, if_false, Option.map_some', Option.some.injEq]
      at hvx hvy
    exact ⟨k, hk, by rw [jx, hvx], by rw [jy, hvy], hnorm⟩
  · intro r2 p impl deltaTime gameWidth gameHeight
    obtain ⟨f1, f2, f3, f4, f5, f6⟩ :=
      JsProjectile.update_keeps_velocity r2 impl p deltaTime gameWidth gameHeight
    refine ⟨f3, f4, f5, f6, fun px vx hx hv h1 h2 => ?_, fun py vy hy hv h1 h2 => ?_⟩
    · rw [f1]
      simp only [JsProjectile.move, hx, hv, JsNumber.mul, h1, JsNumber.add, h2]
    · rw [f2]
      simp only [JsProjectile.move, hy, hv, JsNumber.mul, h1, JsNumber.add, h2]

/-- The arithmetic results of the constructor of the projectile from (0, 0) towards (3, 4) are
all in the binary64 range. -/
theorem Projectile.newSteps_example :
    ∀ v ∈ Projectile.newSteps Real.sqrt (0 : ℝ) 0 3 4, (binary64 ℝ).round v = JsNumber.finite v := by
  have hd : Real.sqrt ((3 - 0) * (3 - 0) + (4 - 0) * (4 - 0)) = 5 := by
    rw [show ((3 : ℝ) - 0) * (3 - 0) + (4 - 0) * (4 - 0) = 5 ^ 2 by norm_num]
    exact Real.sqrt_sq (by norm_num)
  have h25 : Real.sqrt 25 = 5 := by
    rw [← hd]
    norm_num
  intro v hv
  simp only [Projectile.newSteps, List.mem_cons, List.mem_singleton, List.not_mem_nil, or_false]
    at hv
  rcases hv with rfl | rfl | rfl | rfl | rfl | rfl | rfl | rfl | rfl | rfl
  all_goals
    apply binary64_round_pos
    · norm_num [h25]
    · norm_num [h25]
    · norm_num [h25]

/-- C18 on the projectile from (0, 0) towards (3, 4): no result of the constructor leaves the
binary64 range, and the velocity is a positive multiple of (3, 4) of norm 400. -/
theorem projectile_velocity_in_range_witness :
    ((3 : ℝ), (4 : ℝ)) ≠ (0, 0) ∧
    (∀ v ∈ Projectile.newSteps Real.sqrt (0 : ℝ) 0 3 4,
      (binary64 ℝ).round v = JsNumber.finite v) ∧
    ∃ k : ℝ, 0 < k ∧
      (JsProjectile.new (binary64 ℝ) Real.sqrt 0 0 3 4 true).vx = JsNumber.finite (k * (3 - 0)) ∧
      (JsProjectile.new (binary64 ℝ) Real.sqrt 0 0 3 4 true).vy = JsNumber.finite (k * (4 - 0)) ∧
      (k * (3 - 0)) ^ 2 + (k * (4 - 0)) ^ 2 = 400 ^ 2 :=
  ⟨by norm_num, Projectile.newSteps_example,
    (projectile_velocity_in_range (binary64 ℝ) 0 0 3 4 true (by norm_num)
      Projectile.newSteps_example).1⟩

/-- C18, the claim as stated fails. The targets (10^(−200), 0) and (10^200, 0) differ from the
origin (0, 0). For the first the squared distance underflows, the computed distance is 0, and
the velocity is (Infinity, NaN); for the second it overflows, the computed distance is Infinity,
and the velocity is (0, 0). Neither is a positive multiple of the direction of norm 400. -/
theorem projectile_velocity_counterexample :
    ((1 : ℝ) / 10 ^ 200, (0 : ℝ)) ≠ (0, 0) ∧ ((10 : ℝ) ^ 200, (0 : ℝ)) ≠ (0, 0) ∧
    (JsProjectile.new (binary64 ℝ) Real.sqrt 0 0 (1 / 10 ^ 200) 0 true).vx =
      JsNumber.infinity false ∧
    (JsProjectile.new (binary64 ℝ) Real.sqrt 0 0 (1 / 10 ^ 200) 0 true).vy = JsNumber.nan ∧
    (JsProjectile.new (binary64 ℝ) Real.sqrt 0 0 (10 ^ 200) 0 true).vx = JsNumber.finite 0 ∧
    (JsProjectile.new (binary64 ℝ) Real.sqrt 0 0 (10 ^ 200) 0 true).vy = JsNumber.finite 0 ∧
    (0 : ℝ) ^ 2 + 0 ^ 2 ≠ 400 ^ 2 := by
  have hz := binary64_round_zero (α := ℝ)
  have hsmall : (binary64 ℝ).round (1 / 10 ^ 200 - 0) = JsNumber.finite (1 / 10 ^ 200) := by
    rw [sub_zero]
    exact binary64_round_pos _ (by positivity) (by norm_num) (by norm_num)
  have hsmallsq : (binary64 ℝ).round (1 / 10 ^ 200 * (1 / 10 ^ 200)) = JsNumber.finite 0 :=
    binary64_round_underflow _ (by positivity) (by norm_num)
  have hbig : (binary64 ℝ).round (10 ^ 200 - 0) = JsNumber.finite (10 ^ 200) := by
    rw [sub_zero]
    exact binary64_round_pos _ (by positivity) (by norm_num) (by norm_num)
  have hbigsq : (binary64 ℝ).round (10 ^ 200 * 10 ^ 200) = JsNumber.infinity false :=
    binary64_round_overflow _ (by norm_num)
  have hne : ((1 : ℝ) / 10 ^ 200) ≠ 0 := by positivity
  have h400 : ¬ ((400 : ℝ) = 0) := by norm_num
  have h400' : ¬ ((400 : ℝ) < 0) := by norm_num
  have hlt : ¬ ((1 : ℝ) / 10 ^ 200 < 0) := not_lt.mpr (by positivity)
  refine ⟨?_, ?_, ?_, ?_, ?_, ?_, by norm_num⟩
  · intro hc
    rw [Prod.mk.injEq] at hc
    exact hne hc.1
  · intro hc
    rw [Prod.mk.injEq] at hc
    have : ((10 : ℝ) ^ 200) ≠ 0 := by positivity
    exact this hc.1
  · simp only [JsProjectile.new, JsNumber.sub, hsmall, sub_self, hz, JsNumber.mul, hsmallsq,
      mul_zero, JsNumber.add, add_zero, JsNumber.sqrt, lt_irrefl, if_false, Real.sqrt_zero,
      JsNumber.div, if_true, if_neg hne, decide_eq_false hlt, if_neg h400,
      decide_eq_false h400', Bool.xor_false]
  · simp only [JsProjectile.new, JsNumber.sub, hsmall, sub_self, hz, JsNumber.mul, hsmallsq,
      mul_zero, JsNumber.add, add_zero, JsNumber.sqrt, lt_irrefl, if_false, Real.sqrt_zero,
      JsNumber.div, if_true]
  · simp only [JsProjectile.new, JsNumber.sub, hbig, sub_self, hz, JsNumber.mul, hbigsq,
      mul_zero, zero_mul, JsNumber.add, JsNumber.sqrt, Bool.false_eq_true, if_false,
      JsNumber.div]
  · simp only [JsProjectile.new, JsNumber.sub, hbig, sub_self, hz, JsNumber.mul, hbigsq,
      mul_zero, zero_mul, JsNumber.add, JsNumber.sqrt, Bool.false_eq_true, if_false,
      JsNumber.div]

/-- When no arithmetic result of the squared distances overflows or underflows, the
nearest-enemy scan in doubles goes through the same states as the scan in exact arithmetic, where
the state (null, Infinity) of the code is (none, none). -/
theorem JsEnemy.nearest_scan (r : DoubleRange α) (player : Player α) (l : List (Enemy α)) :
    ∀ (acc : Option (Enemy α) × Option α),
      (∀ e ∈ l, ∀ v ∈ e.distSqSteps player, r.round v = JsNumber.finite v) →
      (l.map Enemy.toJs).foldl
        (fun (acc : Option (JsEnemy α) × JsNumber α) enemy =>
          let dx := JsNumber.sub r enemy.x (JsNumber.finite player.x)
          let dy := JsNumber.sub r enemy.y (JsNumber.finite player.y)
          let dist := JsNumber.add r (JsNumber.mul r dx dx) (JsNumber.mul r dy dy)
          if JsNumber.lt dist acc.2 then (some enemy, dist) else acc)
        (acc.1.map Enemy.toJs,
          match acc.2 with
          | none => JsNumber.infinity false
          | some d => JsNumber.finite d) =
      ((l.foldl
          (fun (acc : Option (Enemy α) × Option α) enemy =>
            let dx := enemy.x - player.x
            let dy := enemy.y - player.y
            let dist := dx * dx + dy * dy
            let closer : Bool :=
              match acc.2 with
              | none => true
              | some minDistance => decide (dist < minDistance)
            if closer then (some enemy, some dist) else acc)
          acc).1.map Enemy.toJs,
        match (l.foldl
          (fun (acc : Option (Enemy α) × Option α) enemy =>
            let dx := enemy.x - player.x
            let dy := enemy.y - player.y
            let dist := dx * dx + dy * dy
            let closer : Bool :=
              match acc.2 with
              | none => true
              | some minDistance => decide (dist < minDistance)
            if closer then (some enemy, some dist) else acc)
          acc).2 with
        | none => JsNumber.infinity false
        | some d => JsNumber.finite d) := by
  induction l with
  | nil => intro acc _; rfl
  | cons e rest ih =>
    intro acc hsteps
    have he := hsteps e (List.mem_cons_self _ _)
    simp only [Enemy.distSqSteps, List.mem_cons, List.mem_singleton, forall_eq_or_imp, forall_eq,
      List.not_mem_nil, false_imp_iff, implies_true, and_true] at he
    obtain ⟨h1, h2, h3, h4, h5⟩ := he
    have hrest := ih
    simp only [List.map_cons, List.foldl_cons]
    obtain ⟨o, m⟩ := acc
    cases m with
    | none =>
      have hstep : (if JsNumber.lt
          (JsNumber.add r
            (JsNumber.mul r (JsNumber.sub r e.toJs.x (JsNumber.finite player.x))
              (JsNumber.sub r e.toJs.x (JsNumber.finite player.x)))
            (JsNumber.mul r (JsNumber.sub r e.toJs.y (JsNumber.finite player.y))
              (JsNumber.sub r e.toJs.y (JsNumber.finite player.y))))
          (JsNumber.infinity false) = true then
          (some e.toJs, JsNumber.add r
            (JsNumber.mul r (JsNumber.sub r e.toJs.x (JsNumber.finite player.x))
              (JsNumber.sub r e.toJs.x (JsNumber.finite player.x)))
            (JsNumber.mul r (JsNumber.sub r e.toJs.y (JsNumber.finite player.y))
              (JsNumber.sub r e.toJs.y (JsNumber.finite player.y))))
          else (o.map Enemy.toJs, JsNumber.infinity false)) =
          (some e.toJs, JsNumber.finite
            ((e.x - player.x) * (e.x - player.x) + (e.y - player.y) * (e.y - player.y))) := by
        simp only [Enemy.toJs, JsNumber.sub, h1, h2, JsNumber.mul, h3, h4, JsNumber.add, h5,
          JsNumber.lt, Bool.not_false, if_true]
      simp only [hstep, if_true]
      exact ih (some e, some ((e.x - player.x) * (e.x - player.x) +
        (e.y - player.y) * (e.y - player.y)))
        (fun a ha => hsteps a (List.mem_cons_of_mem _ ha))
    | some d =>
      by_cases hlt : (e.x - player.x) * (e.x - player.x) + (e.y - player.y) * (e.y - player.y) < d
      · have hstep : (if JsNumber.lt
            (JsNumber.add r
              (JsNumber.mul r (JsNumber.sub r e.toJs.x (JsNumber.finite player.x))
                (JsNumber.sub r e.toJs.x (JsNumber.finite player.x)))
              (JsNumber.mul r (JsNumber.sub r e.toJs.y (JsNumber.finite player.y))
                (JsNumber.sub r e.toJs.y (JsNumber.finite player.y))))
            (JsNumber.finite d) = true then
            (some e.toJs, JsNumber.add r
              (JsNumber.mul r (JsNumber.sub r e.toJs.x (JsNumber.finite player.x))
                (JsNumber.sub r e.toJs.x (JsNumber.finite player.x)))
              (JsNumber.mul r (JsNumber.sub r e.toJs.y (JsNumber.finite player.y))
                (JsNumber.sub r e.toJs.y (JsNumber.finite player.y))))
            else (o.map Enemy.toJs, JsNumber.finite d)) =
            (some e.toJs, JsNumber.finite
              ((e.x - player.x) * (e.x - player.x) + (e.y - player.y) * (e.y - player.y))) := by
          simp only [Enemy.toJs, JsNumber.sub, h1, h2, JsNumber.mul, h3, h4, JsNumber.add, h5,
            JsNumber.lt, decide_eq_true hlt, if_true]
        simp only [hstep, decide_eq_true hlt, if_true]
        exact ih (some e, some ((e.x - player.x) * (e.x - player.x) +
          (e.y - player.y) * (e.y - player.y)))
          (fun a ha => hsteps a (List.mem_cons_of_mem _ ha))
      · have hstep : (if JsNumber.lt
            (JsNumber.add r
              (JsNumber.mul r (JsNumber.sub r e.toJs.x (JsNumber.finite player.x))
                (JsNumber.sub r e.toJs.x (JsNumber.finite player.x)))
              (JsNumber.mul r (JsNumber.sub r e.toJs.y (JsNumber.finite player.y))
                (JsNumber.sub r e.toJs.y (JsNumber.finite player.y))))
            (JsNumber.finite d) = true then
            (some e.toJs, JsNumber.add r
              (JsNumber.mul r (JsNumber.sub r e.toJs.x (JsNumber.finite player.x))
                (JsNumber.sub r e.toJs.x (JsNumber.finite player.x)))
              (JsNumber.mul r (JsNumber.sub r e.toJs.y (JsNumber.finite player.y))
                (JsNumber.sub r e.toJs.y (JsNumber.finite player.y))))
            else (o.map Enemy.toJs, JsNumber.finite d)) =
            (o.map Enemy.toJs, JsNumber.finite d) := by
          simp only [Enemy.toJs, JsNumber.sub, h1, h2, JsNumber.mul, h3, h4, JsNumber.add, h5,
            JsNumber.lt, decide_eq_false hlt, Bool.false_eq_true, if_false]
        simp only [hstep, decide_eq_false hlt, Bool.false_eq_true, if_false]
        exact ih (o, some d) (fun a ha => hsteps a (List.mem_cons_of_mem _ ha))

/-- When no arithmetic result of the squared distances overflows or underflows, the
nearest-enemy scan in doubles yields the enemy that the scan in exact arithmetic yields. -/
theorem JsEnemy.nearest_toJs (r : DoubleRange α) (g : Game α)
    (hsteps : ∀ e ∈ g.enemies, ∀ v ∈ e.distSqSteps g.player, r.round v = JsNumber.finite v) :
    JsEnemy.nearest r g.player (g.enemies.map Enemy.toJs) = g.nearestEnemy.map Enemy.toJs := by
  have h := JsEnemy.nearest_scan r g.player g.enemies (none, none) hsteps
  unfold JsEnemy.nearest Game.nearestEnemy
  exact congrArg Prod.fst h

/-- C19. The nearest-enemy scan at the start of `Game.update` in doubles, on enemies and a
player at finite positions. When no arithmetic result of the squared distances overflows or
underflows, the scan yields what the scan in exact arithmetic yields: null exactly when the
enemy list is empty, and otherwise an enemy of the list whose squared distance to the player is
smaller than that of every enemy before it in the list and at most that of every enemy after
it, which is a nearest enemy and, among equally near ones, the first in list order. -/
theorem nearestEnemy_in_range (r : DoubleRange α) (g : Game α)
    (hsteps : ∀ e ∈ g.enemies, ∀ v ∈ e.distSqSteps g.player, r.round v = JsNumber.finite v) :
    JsEnemy.nearest r g.player (g.enemies.map Enemy.toJs) = g.nearestEnemy.map Enemy.toJs ∧
    (JsEnemy.nearest r g.player (g.enemies.map Enemy.toJs) = none ↔ g.enemies = []) ∧
    (∀ j, JsEnemy.nearest r g.player (g.enemies.map Enemy.toJs) = some j →
      ∃ e before after, j = e.toJs ∧ g.enemies = before ++ e :: after ∧
        (∀ a ∈ before, e.distSq g.player < a.distSq g.player) ∧
        (∀ a ∈ after, e.distSq g.player ≤ a.distSq g.player)) ∧
    (g.enemies ≠ [] →
      ∃ e, JsEnemy.nearest r g.player (g.enemies.map Enemy.toJs) = some e.toJs ∧
        e ∈ g.enemies ∧ ∀ a ∈ g.enemies, e.distSq g.player ≤ a.distSq g.player) := by
  have hjs := JsEnemy.nearest_toJs r g hsteps
  obtain ⟨h1, h2, h3⟩ := Game.nearestEnemy_minimal g
  refine ⟨hjs, ?_, ?_, ?_⟩
  · rw [hjs, Option.map_eq_none']
    exact h1
  · intro j hj
    rw [hjs, Option.map_eq_some'] at hj
    obtain ⟨e, he, rfl⟩ := hj
    obtain ⟨before, after, hl, hb, ha⟩ := h2 e he
    exact ⟨e, before, after, rfl, hl, hb, ha⟩
  · intro hne
    obtain ⟨e, he, hmem, hmin⟩ := h3 hne
    exact ⟨e, by rw [hjs, he]; rfl, hmem, hmin⟩

/-- The arithmetic results of the squared distances in `scanGame` are all in the binary64
range. -/
theorem scanGame_steps :
    ∀ e ∈ scanGame.enemies, ∀ v ∈ e.distSqSteps scanGame.player,
      (binary64 ℚ).round v = JsNumber.finite v := by
  intro e he v hv
  simp only [scanGame, contactGame, contactGameAt, List.mem_cons, List.mem_singleton,
    List.not_mem_nil, or_false] at he
  rcases he with rfl | rfl
  · simp only [Enemy.distSqSteps, scanGame, contactGame, contactGameAt, contactPlayerAt,
      Player.new, Enemy.new, List.mem_cons, List.mem_singleton, List.not_mem_nil, or_false] at hv
    rcases hv with rfl | rfl | rfl | rfl | rfl
    all_goals
      apply binary64_round_pos
      · norm_num
      · norm_num
      · norm_num
  · simp only [Enemy.distSqSteps, scanGame, contactGame, contactGameAt, contactPlayerAt,
      Player.new, Enemy.new, List.mem_cons, List.mem_singleton, List.not_mem_nil, or_false] at hv
    rcases hv with rfl | rfl | rfl | rfl | rfl
    all_goals
      apply binary64_round_pos
      · norm_num
      · norm_num
      · norm_num

/-- C19 on `scanGame`: the player is at (240, 650), the enemies are at (250, 700) and (245, 660),
no result leaves the binary64 range, and the scan yields the second enemy. -/
theorem nearestEnemy_in_range_witness :
    (∀ e ∈ scanGame.enemies, ∀ v ∈ e.distSqSteps scanGame.player,
      (binary64 ℚ).round v = JsNumber.finite v) ∧
    scanGame.nearestEnemy = some (Enemy.new 245 660) ∧
    JsEnemy.nearest (binary64 ℚ) scanGame.player (scanGame.enemies.map Enemy.toJs) =
      scanGame.nearestEnemy.map Enemy.toJs :=
  ⟨scanGame_steps, by
      simp [Game.nearestEnemy, scanGame, contactGame, contactGameAt, contactPlayerAt, Player.new,
        Enemy.new]
      norm_num,
    (nearestEnemy_in_range (binary64 ℚ) scanGame scanGame_steps).1⟩

/-- C19, the claim as stated fails. With the player at (240, 650) and the one enemy at
(10^200, 650), a finite position, the squared distance overflows to Infinity, the test
`dist < minDistance` is `Infinity < Infinity`, which is false, and the scan yields null though
the enemy list is not empty. -/
theorem nearestEnemy_counterexample :
    [(Enemy.new ((10 : ℚ) ^ 200) 650).toJs] ≠ [] ∧
    JsEnemy.nearest (binary64 ℚ) (contactPlayerAt 500 0 10)
      [(Enemy.new ((10 : ℚ) ^ 200) 650).toJs] = none := by
  have hz := binary64_round_zero (α := ℚ)
  have hdx : (binary64 ℚ).round (10 ^ 200 - 240) = JsNumber.finite (10 ^ 200 - 240) :=
    binary64_round_pos _ (by norm_num) (by norm_num) (by norm_num)
  have hsq : (binary64 ℚ).round ((10 ^ 200 - 240) * (10 ^ 200 - 240)) =
      JsNumber.infinity false := binary64_round_overflow _ (by norm_num)
  refine ⟨by simp, ?_⟩
  simp only [JsEnemy.nearest, List.foldl_cons, List.foldl_nil, Enemy.toJs, Enemy.new,
    contactPlayerAt, Player.new, JsNumber.sub, hdx, sub_self, hz, JsNumber.mul, hsq, mul_zero,
    JsNumber.add, JsNumber.lt, Bool.not_false, Bool.and_false, Bool.false_and,
    Bool.false_eq_true, if_false]

end Proofs

end Archero
